import Mathlib

/-!
Vehicle Fault Detection and Logging System: Control node and HMI node.

A shallow embedding of `Control_ECU/src/APP/Control_APP.c`, of the pin
functions of `Control_ECU/src/MCAL/gpio.c`, and of the packet decoder and the
DetectFaults case of `HMI_ECU/src/APP/HMI_APP.c`.

* C globals become the fields of a state record; every assignment to a
  `uint8` / `uint16` global truncates with `% 256` / `% 65536`.
* Everything the node does to the outside world (UART bytes sent, EEPROM
  accesses, motor commands) is appended, oldest first, to the `trace` field.
* Everything the outside world supplies (sensor readings, button pins, the
  outcome of an EEPROM access) is an explicit argument of the function that
  reads it; bytes sent by the peer wait in the `rx` field in arrival order.
* A blocking receive on an exhausted `rx` never returns: the run ends in
  `Run.stuck` carrying the state at the point of the stall.
-/

namespace VFDLS

/-- Outcome of running blocking code: it returned, or it stalled forever. -/
inductive Run (σ : Type) where
  | done (s : σ)
  | stuck (s : σ)

namespace Run

/-- Sequencing: code after a stall is never executed. -/
def bind {σ : Type} (r : Run σ) (f : σ → Run σ) : Run σ :=
  match r with
  | done s => f s
  | stuck s => stuck s

/-- The state at return, or at the stall. -/
def state {σ : Type} : Run σ → σ
  | done s => s
  | stuck s => s

/-- Whether the code returned. -/
def isDone {σ : Type} : Run σ → Bool
  | done _ => true
  | stuck _ => false

end Run

namespace Control_ECU

/-! ## Definitions of `Control_APP.c` -/

def START_MONITORING : Nat := 1
def DISPLAY_VALUES : Nat := 2
def DETECT_FAULTS : Nat := 3
def STOP_MONITORING : Nat := 4

def END_BYTE : Nat := 0x54
def ACK : Nat := 0x05

def CRITICAL_TEMP : Nat := 90
def CRITICAL_DISTANCE : Nat := 10

def DTC_P001 : Nat := 0x01
def DTC_P002 : Nat := 0x02

def BUTTON_RELEASED : Nat := 0
def BUTTON_PRESSED : Nat := 1

def EEPROM_MAX_ADDRESS : Nat := 0x07FF

/-- The `DcMotor_State` enumeration of `dc_motor.h`. -/
inductive DcMotor_State where
  | CW
  | A_CW
  | STOP
  deriving DecidableEq, Repr

/-- One observable action of the Control node. -/
inductive Event where
  /-- Call `UART_sendByte(b)`. -/
  | tx (b : Nat)
  /-- Call `EEPROM_writeByte(addr, byte)` and whether it returned `SUCCESS`. -/
  | eepromWrite (addr byte : Nat) (ok : Bool)
  /-- Call `EEPROM_readByte(addr, _)` and whether it returned `SUCCESS`. -/
  | eepromRead (addr : Nat) (ok : Bool)
  /-- Call `Ultrasonic_init()`. -/
  | ultrasonicInit
  /-- Call of `DcMotor_Init` on motor 1 or 2. -/
  | motorInit (motor : Nat)
  /-- Call of `DcMotor_Rotate` on motor 1 or 2. -/
  | motorRotate (motor : Nat) (st : DcMotor_State) (speed : Nat)
  deriving DecidableEq, Repr

/-- The globals of `Control_APP.c`, the EEPROM content, the bytes the peer
has sent that are not yet received, and the actions performed so far. -/
structure State where
  g_Monitoring : Nat
  g_tempValue : Nat
  g_distanceValue : Nat
  g_win1_State : Nat
  g_win2_State : Nat
  g_distanceLogged : Nat
  g_temperatureLogged : Nat
  g_faultCount : Nat
  EEPROM_addressWrite : Nat
  EEPROM_addressRead : Nat
  EEPROM_byte : Nat
  eeprom : Nat → Nat
  rx : List Nat
  trace : List Event

/-- The state at reset: every global is zero-initialised; the EEPROM keeps
what it held and the peer's future bytes are `rx`. -/
def State.init (eeprom : Nat → Nat) (rx : List Nat) : State :=
  { g_Monitoring := 0, g_tempValue := 0, g_distanceValue := 0,
    g_win1_State := 0, g_win2_State := 0, g_distanceLogged := 0,
    g_temperatureLogged := 0, g_faultCount := 0,
    EEPROM_addressWrite := 0, EEPROM_addressRead := 0, EEPROM_byte := 0,
    eeprom := eeprom, rx := rx, trace := [] }

/-- Every global holds a value of its C type. -/
def State.inRange (s : State) : Prop :=
  s.g_Monitoring < 256 ∧ s.g_tempValue < 256 ∧ s.g_distanceValue < 65536 ∧
  s.g_win1_State < 256 ∧ s.g_win2_State < 256 ∧
  s.g_distanceLogged < 256 ∧ s.g_temperatureLogged < 256 ∧
  s.EEPROM_addressWrite < 65536 ∧ s.EEPROM_addressRead < 65536

instance (s : State) : Decidable s.inRange := by
  unfold State.inRange; infer_instance

/-! ## UART (`uart.c`) -/

/-- Function `UART_sendByte`: the argument is a `uint8`. -/
def UART_sendByte (data : Nat) (s : State) : State :=
  { s with trace := s.trace ++ [Event.tx (data % 256)] }

/-- The loop `while(UART_recieveByte() != ACK);` on the pending bytes: the
bytes left once an acknowledgment has been received, or `none` when the peer
never sends one. -/
def waitAckRx : List Nat → Option (List Nat)
  | [] => none
  | b :: rest => if b % 256 = ACK then some rest else waitAckRx rest

/-- The statement `while(UART_recieveByte() != ACK);`. -/
def UART_waitAck (s : State) : Run State :=
  match waitAckRx s.rx with
  | some rest => Run.done { s with rx := rest }
  | none => Run.stuck { s with rx := [] }

/-- The pair `UART_sendByte(b); while(UART_recieveByte() != ACK);`. -/
def sendAcked (b : Nat) (s : State) : Run State :=
  UART_waitAck (UART_sendByte b s)

/-! ## External EEPROM -/

/-- Modelled from the spec: `EEPROM_writeByte` of `external_eeprom.c`, which is
not among the sources. A successful write "persists the byte"; a failed write
is a "persistent-store write failure" and the store keeps its content. `ok` is
the outcome of this call. -/
def EEPROM_writeByte (ok : Bool) (addr byte : Nat) (s : State) : Bool × State :=
  if ok then
    (true, { s with eeprom := Function.update s.eeprom addr (byte % 256),
                    trace := s.trace ++ [Event.eepromWrite addr (byte % 256) true] })
  else
    (false, { s with trace := s.trace ++ [Event.eepromWrite addr (byte % 256) false] })

/-- Modelled from the spec: `EEPROM_readByte` of `external_eeprom.c`, which is
not among the sources. A successful read yields the byte stored at `addr`; `ok`
is the outcome of this call. -/
def EEPROM_readByte (ok : Bool) (addr : Nat) (s : State) : Bool × Nat × State :=
  if ok then
    (true, s.eeprom addr % 256, { s with trace := s.trace ++ [Event.eepromRead addr true] })
  else
    (false, 0, { s with trace := s.trace ++ [Event.eepromRead addr false] })

/-! ## `CONTROL_sendPack` -/

/-- Function `CONTROL_sendPack`; `temp` is what `LM35_getTemperature()` returns. -/
def CONTROL_sendPack (temp : Nat) (s : State) : Run State :=
  let s := { s with g_tempValue := temp % 256 }
  (sendAcked (s.g_distanceValue >>> 8) s).bind fun s =>
  (sendAcked (s.g_distanceValue &&& 0xFF) s).bind fun s =>
  (sendAcked s.g_tempValue s).bind fun s =>
  (sendAcked s.g_win1_State s).bind fun s =>
  sendAcked s.g_win2_State s

/-! ## `CONTROL_winState` and `readSensors` -/

/-- The four pins read at the top of `CONTROL_winState`. -/
structure Buttons where
  win1_open : Nat
  win1_close : Nat
  win2_open : Nat
  win2_close : Nat
  deriving DecidableEq, Repr

/-- The window 1 block of `CONTROL_winState`. -/
def CONTROL_winState_win1 (b : Buttons) (s : State) : State :=
  if b.win1_open = BUTTON_PRESSED ∧ b.win1_close = BUTTON_RELEASED then
    { s with trace := s.trace ++ [Event.motorRotate 1 DcMotor_State.CW 100,
                                   Event.motorRotate 1 DcMotor_State.STOP 100],
             g_win1_State := 1 }
  else if b.win1_open = BUTTON_RELEASED ∧ b.win1_close = BUTTON_PRESSED then
    { s with trace := s.trace ++ [Event.motorRotate 1 DcMotor_State.A_CW 100,
                                   Event.motorRotate 1 DcMotor_State.STOP 100],
             g_win1_State := 0 }
  else s

/-- The window 2 block of `CONTROL_winState`. -/
def CONTROL_winState_win2 (b : Buttons) (s : State) : State :=
  if b.win2_open = BUTTON_PRESSED ∧ b.win2_close = BUTTON_RELEASED then
    { s with trace := s.trace ++ [Event.motorRotate 2 DcMotor_State.CW 100,
                                   Event.motorRotate 2 DcMotor_State.STOP 100],
             g_win2_State := 1 }
  else if b.win2_open = BUTTON_RELEASED ∧ b.win2_close = BUTTON_PRESSED then
    { s with trace := s.trace ++ [Event.motorRotate 2 DcMotor_State.A_CW 100,
                                   Event.motorRotate 2 DcMotor_State.STOP 100],
             g_win2_State := 0 }
  else s

/-- Function `CONTROL_winState`; `b` holds the four `GPIO_readPin` results. -/
def CONTROL_winState (b : Buttons) (s : State) : State :=
  CONTROL_winState_win2 b (CONTROL_winState_win1 b s)

/-- Function `readSensors`; `dist` and `temp` are the sensor readings, `b` the pins. -/
def readSensors (dist temp : Nat) (b : Buttons) (s : State) : State :=
  CONTROL_winState b { s with g_distanceValue := dist % 65536, g_tempValue := temp % 256 }

/-! ## `detectFaults` -/

/-- The two sensor reads at the top of `detectFaults`. -/
def detectFaults_sample (dist temp : Nat) (s : State) : State :=
  { s with g_distanceValue := dist % 65536, g_tempValue := temp % 256 }

/-- The "distance too close" block of `detectFaults`; `wr` is the outcome of
the EEPROM write should it be issued. -/
def detectFaults_distance (wr : Bool) (s : State) : State :=
  if s.g_distanceValue < CRITICAL_DISTANCE ∧ s.g_distanceLogged = 0 then
    if s.EEPROM_addressWrite ≤ EEPROM_MAX_ADDRESS then
      let r := EEPROM_writeByte wr s.EEPROM_addressWrite DTC_P001 s
      if r.1 then
        { r.2 with EEPROM_addressWrite := (r.2.EEPROM_addressWrite + 1) % 65536,
                   g_distanceLogged := 1 }
      else r.2
    else s
  else s

/-- The "overheating" block of `detectFaults`; `wr` is the outcome of the
EEPROM write should it be issued. -/
def detectFaults_overheat (wr : Bool) (s : State) : State :=
  if s.g_tempValue > CRITICAL_TEMP ∧ s.g_temperatureLogged = 0 then
    if s.EEPROM_addressWrite ≤ EEPROM_MAX_ADDRESS then
      let r := EEPROM_writeByte wr s.EEPROM_addressWrite DTC_P002 s
      if r.1 then
        { r.2 with EEPROM_addressWrite := (r.2.EEPROM_addressWrite + 1) % 65536,
                   g_temperatureLogged := 1 }
      else r.2
    else s
  else s

/-- The state of `detectFaults` between its two blocks: the sensors are read
and the distance block is done. -/
def detectFaults_mid (dist temp : Nat) (wrD : Bool) (s : State) : State :=
  detectFaults_distance wrD (detectFaults_sample dist temp s)

/-- Function `detectFaults`; `dist`, `temp` are the sensor readings, `wrD` and `wrT`
the outcomes of the distance and of the overheat EEPROM write. -/
def detectFaults (dist temp : Nat) (wrD wrT : Bool) (s : State) : State :=
  detectFaults_overheat wrT (detectFaults_distance wrD (detectFaults_sample dist temp s))

/-! ## `CONTROL_sendFaults` -/

/-- The `while(EEPROM_addressRead <= EEPROM_addressWrite)` loop of
`CONTROL_sendFaults`. `rdOk a` is the outcome of the read at address `a`.
Every iteration that loops back has consumed a pending byte, so `fuel` above
the number of pending bytes is never exhausted. -/
def CONTROL_sendFaults_loop (rdOk : Nat → Bool) : Nat → State → Run State
  | 0, s => Run.stuck s
  | fuel + 1, s =>
    if s.EEPROM_addressRead ≤ s.EEPROM_addressWrite then
      let r := EEPROM_readByte (rdOk s.EEPROM_addressRead) s.EEPROM_addressRead s
      if r.1 then
        if r.2.1 = 0xFF ∨ r.2.1 = 0x00 then Run.done r.2.2
        else
          (sendAcked r.2.1 r.2.2).bind fun s1 =>
            CONTROL_sendFaults_loop rdOk fuel
              { s1 with EEPROM_addressRead := (s1.EEPROM_addressRead + 1) % 65536 }
      else Run.done r.2.2
    else Run.done s

/-- Function `CONTROL_sendFaults`. -/
def CONTROL_sendFaults (rdOk : Nat → Bool) (s : State) : Run State :=
  let s := { s with EEPROM_addressRead := 0x0000 }
  (CONTROL_sendFaults_loop rdOk (s.rx.length + 1) s).bind fun s =>
  (sendAcked END_BYTE s).bind fun s =>
  if s.EEPROM_addressWrite > EEPROM_MAX_ADDRESS then
    Run.done { s with EEPROM_addressWrite := 0x0000 }
  else Run.done s

/-! ## `main` -/

/-- Function `Ultrasonic_init`. -/
def Ultrasonic_init (s : State) : State :=
  { s with trace := s.trace ++ [Event.ultrasonicInit] }

/-- Function `DcMotor_Init`, on motor 1 or 2. -/
def DcMotor_Init (motor : Nat) (s : State) : State :=
  { s with trace := s.trace ++ [Event.motorInit motor] }

/-- The `switch(keyValue)` of `main`, after the acknowledgment is sent. -/
def main_switch (keyValue temp : Nat) (rdOk : Nat → Bool) (s : State) : Run State :=
  if keyValue = START_MONITORING then
    Run.done { DcMotor_Init 2 (DcMotor_Init 1 (Ultrasonic_init s)) with g_Monitoring := 1 }
  else if keyValue = DISPLAY_VALUES then
    CONTROL_sendPack temp s
  else if keyValue = DETECT_FAULTS then
    (CONTROL_sendFaults rdOk s).bind fun s =>
      Run.done { s with g_distanceLogged := 0, g_temperatureLogged := 0 }
  else if keyValue = STOP_MONITORING then
    Run.done { s with g_Monitoring := 0 }
  else Run.done s

/-- The body of `if(UART_dataAvailable())` in `main` for a received byte `b`:
acknowledge, then dispatch. `temp` is the temperature reading taken by
`CONTROL_sendPack`, `rdOk` the outcomes of the reads of `CONTROL_sendFaults`. -/
def main_command (b temp : Nat) (rdOk : Nat → Bool) (s : State) : Run State :=
  let keyValue := b % 256
  main_switch keyValue temp rdOk (UART_sendByte ACK s)

/-- What the outside world supplies during one iteration of the `for(;;)`
loop of `main`. -/
structure LoopInputs where
  /-- The pins read by `CONTROL_winState` at the top of the iteration. -/
  buttons : Buttons
  /-- Whether the next byte of the peer has arrived when the loop polls. -/
  dataAvailable : Bool
  /-- The temperature read by `CONTROL_sendPack`. -/
  packTemp : Nat
  /-- The outcomes of the reads of `CONTROL_sendFaults`, by address. -/
  rdOk : Nat → Bool
  /-- The readings and pins of `readSensors`. -/
  sampleDist : Nat
  sampleTemp : Nat
  sampleButtons : Buttons
  /-- The readings and write outcomes of `detectFaults`. -/
  dist : Nat
  temp : Nat
  wrDistance : Bool
  wrOverheat : Bool

/-- The command part of one loop iteration. -/
def main_poll (i : LoopInputs) (s : State) : Run State :=
  if i.dataAvailable then
    match s.rx with
    | b :: rest => main_command b i.packTemp i.rdOk { s with rx := rest }
    | [] => Run.done s
  else Run.done s

/-- The monitoring part of one loop iteration. -/
def main_monitor (i : LoopInputs) (s : State) : State :=
  if s.g_Monitoring ≠ 0 then
    detectFaults i.dist i.temp i.wrDistance i.wrOverheat
      (readSensors i.sampleDist i.sampleTemp i.sampleButtons s)
  else s

/-- One iteration of the `for(;;)` loop of `main`. -/
def main_iteration (i : LoopInputs) (s : State) : Run State :=
  (main_poll i (CONTROL_winState i.buttons s)).bind fun s =>
    Run.done (main_monitor i s)

/-- The `for(;;)` loop of `main`, one iteration per element of the list. -/
def main_loop : List LoopInputs → State → Run State
  | [], s => Run.done s
  | i :: rest, s => (main_iteration i s).bind (main_loop rest)

/-! ## Observations on a trace -/

/-- How many pending bytes are acknowledgments. -/
def ackCount (rx : List Nat) : Nat :=
  rx.countP (fun b => b % 256 = ACK)

/-- The pending bytes left after one acknowledgment wait. -/
def afterAck (rx : List Nat) : List Nat :=
  (waitAckRx rx).getD []


/-- The trace of `s1` continues the trace of `s`. -/
def TraceExt (s s1 : State) : Prop :=
  ∃ rest, s1.trace = s.trace ++ rest

/-- The bytes sent over the UART, in order. -/
def txBytes : List Event → List Nat
  | [] => []
  | Event.tx b :: es => b :: txBytes es
  | _ :: es => txBytes es

/-- The EEPROM writes that returned `SUCCESS`, as (address, byte), in order. -/
def acceptedWrites : List Event → List (Nat × Nat)
  | [] => []
  | Event.eepromWrite a b true :: es => (a, b) :: acceptedWrites es
  | _ :: es => acceptedWrites es

/-- How many accepted EEPROM writes stored the byte `code`. -/
def countAccepted (code : Nat) (es : List Event) : Nat :=
  ((acceptedWrites es).filter (fun w => w.2 = code)).length

/-- Between `s` and `s1` the distance flag is untouched, no 0x01 has been
stored, and no byte has been added to the pending input. -/
def DistanceNeutral (s s1 : State) : Prop :=
  s1.g_distanceLogged = s.g_distanceLogged ∧
  countAccepted 0x01 s1.trace = countAccepted 0x01 s.trace ∧
  ∀ b ∈ s1.rx, b ∈ s.rx

/-- Session invariant for the distance fault, relative to the number `c0` of
0x01 entries accepted before the session: the peer sends no DetectFaults
byte, and either no further 0x01 has been accepted, or exactly one has and the
distance flag is set. -/
def DistanceSession (c0 : Nat) (s : State) : Prop :=
  (∀ b ∈ s.rx, b % 256 ≠ DETECT_FAULTS) ∧
  (countAccepted 0x01 s.trace = c0 ∨
    (countAccepted 0x01 s.trace = c0 + 1 ∧ s.g_distanceLogged ≠ 0))

/-- Consecutive ticks in which every store write that is issued fails; each
element of the list is the (distance, temperature) reading of one tick. -/
def failedTicks : List (Nat × Nat) → State → State
  | [], s => s
  | r :: rest, s => failedTicks rest (detectFaults r.1 r.2 false false s)

/-- Inputs of a loop iteration in which a byte is pending, no button is
pressed, the readings are `dist` and `temp`, and every store access succeeds. -/
def LoopInputs.nominal (dist temp : Nat) : LoopInputs :=
  { buttons := ⟨0, 0, 0, 0⟩, dataAvailable := true, packTemp := temp,
    rdOk := fun _ => true, sampleDist := dist, sampleTemp := temp,
    sampleButtons := ⟨0, 0, 0, 0⟩, dist := dist, temp := temp,
    wrDistance := true, wrOverheat := true }

/-! ## The fault log as seen from outside -/

/-- The EEPROM write calls, accepted or not, in order. -/
def storeWrites : List Event → List Event
  | [] => []
  | Event.eepromWrite a b ok :: es => Event.eepromWrite a b ok :: storeWrites es
  | _ :: es => storeWrites es

/-- The addresses of the EEPROM read calls, in order. -/
def readAddrs : List Event → List Nat
  | [] => []
  | Event.eepromRead a _ :: es => a :: readAddrs es
  | _ :: es => readAddrs es

/-- The `DcMotor_Rotate` calls on motor `m`, as (state, speed), in order. -/
def motorCommands (m : Nat) : List Event → List (DcMotor_State × Nat)
  | [] => []
  | Event.motorRotate k st speed :: es =>
    if k = m then (st, speed) :: motorCommands m es else motorCommands m es
  | _ :: es => motorCommands m es

/-- What the fault log and the monitoring session consist of: the monitoring
flag, the two logged flags, the write cursor, the store content and the store
writes issued so far. -/
structure LogCore where
  g_Monitoring : Nat
  g_distanceLogged : Nat
  g_temperatureLogged : Nat
  EEPROM_addressWrite : Nat
  eeprom : Nat → Nat
  writes : List Event

/-- The log and session part of a state. -/
def State.logCore (s : State) : LogCore :=
  { g_Monitoring := s.g_Monitoring, g_distanceLogged := s.g_distanceLogged,
    g_temperatureLogged := s.g_temperatureLogged,
    EEPROM_addressWrite := s.EEPROM_addressWrite, eeprom := s.eeprom,
    writes := storeWrites s.trace }

/-- The log and session part is the same in `s1` as in `s`. -/
def SameLogCore (s s1 : State) : Prop :=
  s1.logCore = s.logCore

/-- Following the spec's words for `readAll`: the entries "from address 0
upward, stopping at the first empty-slot sentinel or first store read error",
here for the `n` addresses from `a` on. -/
def storedFaults (eeprom : Nat → Nat) (rdOk : Nat → Bool) : Nat → Nat → List Nat
  | 0, _ => []
  | n + 1, a =>
    if rdOk a = true ∧ eeprom a % 256 ≠ 0xFF ∧ eeprom a % 256 ≠ 0x00 then
      eeprom a % 256 :: storedFaults eeprom rdOk n (a + 1)
    else []

/-- Addresses handed out in order: each pair of the list sits one address
after the one before, the first at `a`. -/
def consecutiveFrom : Nat → List (Nat × Nat) → Prop
  | _, [] => True
  | a, w :: rest => w.1 = a ∧ consecutiveFrom (a + 1) rest

/-- Since the write cursor stood at 0 with the accepted writes `base`, either
nothing more has been accepted and the cursor is still 0, or the first entry
accepted since then went to address 0. -/
def FirstAppendAtZero (base : List (Nat × Nat)) (s : State) : Prop :=
  ∃ new, acceptedWrites s.trace = base ++ new ∧
    ((new = [] ∧ s.EEPROM_addressWrite = 0) ∨ ∃ c rest, new = (0, c) :: rest)

/-- A store holding the log [0x01, 0x02] at addresses 0 and 1 and erased
(0xFF) everywhere else. -/
def twoFaultStore (a : Nat) : Nat :=
  if a = 0 then 0x01 else if a = 1 then 0x02 else 0xFF

/-- A store whose 2048 slots all hold 0x01, erased (0xFF) above them. -/
def fullLogStore (a : Nat) : Nat :=
  if a < 0x0800 then 0x01 else 0xFF

/-- The bytes handed to `EEPROM_writeByte`, accepted or not, in order. -/
def writtenBytes : List Event → List Nat
  | [] => []
  | Event.eepromWrite _ b _ :: es => b :: writtenBytes es
  | _ :: es => writtenBytes es

/-- Relative to a starting store `e0` and the bytes `base` written before:
every byte handed to the store since is 0x01 or 0x02, and every slot holds
what it held at the start or one of these two codes. -/
def OnlyFaultCodes (e0 : Nat → Nat) (base : List Nat) (s : State) : Prop :=
  (∃ new, writtenBytes s.trace = base ++ new ∧ ∀ b ∈ new, b = 0x01 ∨ b = 0x02) ∧
  ∀ a, s.eeprom a = e0 a ∨ s.eeprom a = 0x01 ∨ s.eeprom a = 0x02

/-- A run of ticks; each element gives the readings and the two write
outcomes of one tick. -/
def runTicks : List (Nat × Nat × Bool × Bool) → State → State
  | [], s => s
  | r :: rest, s => runTicks rest (detectFaults r.1 r.2.1 r.2.2.1 r.2.2.2 s)

/-- The fault log of `s` is what it was in `s0`: same write cursor, logged
flags, store content and store writes issued; and the peer sends no
DetectFaults byte. -/
def LogFrozen (s0 s : State) : Prop :=
  (∀ b ∈ s.rx, b % 256 ≠ DETECT_FAULTS) ∧
  s.EEPROM_addressWrite = s0.EEPROM_addressWrite ∧
  s.g_distanceLogged = s0.g_distanceLogged ∧
  s.g_temperatureLogged = s0.g_temperatureLogged ∧
  s.eeprom = s0.eeprom ∧
  storeWrites s.trace = storeWrites s0.trace

/-! ## GPIO driver (`gpio.c`) -/

/-- Modelled from the spec: `NUM_OF_PORTS` of `gpio.h`, which is not among the
sources; the register arrays of `gpio.c` list four ports (A to D) and an index
is invalid "for every port_num >= 4". -/
def NUM_OF_PORTS : Nat := 4

/-- Modelled from the spec: `NUM_OF_PINS_PER_PORT` of `gpio.h`, which is not
among the sources; an index is invalid for every "pin_num >= 8". -/
def NUM_OF_PINS_PER_PORT : Nat := 8

/-- Modelled from the spec: `LOGIC_LOW` of `std_types.h`, which is not among
the sources: "GPIO_readPin returns LOGIC_LOW (0)". -/
def LOGIC_LOW : Nat := 0

/-- Modelled from the spec: `LOGIC_HIGH` of `std_types.h`, which is not among
the sources; the logic level other than `LOGIC_LOW`. -/
def LOGIC_HIGH : Nat := 1

/-- Modelled from the spec: `PIN_OUTPUT` of the enumeration
`GPIO_PinDirectionType` of `gpio.h`, which is not among the sources; the
enumerator after `PIN_INPUT`. -/
def PIN_OUTPUT : Nat := 1

/-- Modelled from the spec: macro `SET_BIT(REG,BIT)` of `common_macros.h`,
which is not among the sources, applied to a `uint8` register: bit `BIT` is
set, the others are kept. -/
def SET_BIT (reg bit : Nat) : Nat :=
  (reg ||| (1 <<< bit)) % 256

/-- Modelled from the spec: macro `CLEAR_BIT(REG,BIT)` of `common_macros.h`,
which is not among the sources, applied to a `uint8` register: bit `BIT` is
cleared (the mask is the 16-bit complement of `1 << BIT`), the others are
kept. -/
def CLEAR_BIT (reg bit : Nat) : Nat :=
  (reg &&& (0xFFFF ^^^ ((1 <<< bit) % 65536))) % 256

/-- Modelled from the spec: macro `BIT_IS_SET(REG,BIT)` of `common_macros.h`,
which is not among the sources: whether bit `BIT` of `REG` is set. -/
def BIT_IS_SET (reg bit : Nat) : Bool :=
  reg &&& (1 <<< bit) != 0

/-- The registers behind the arrays `DDR_REG`, `PORT_REG` and `PIN_REG` of
`gpio.c`, by port index (0 for port A to 3 for port D). -/
structure GpioRegs where
  DDR_REG : Nat → Nat
  PORT_REG : Nat → Nat
  PIN_REG : Nat → Nat

/-- Function `GPIO_setupPinDirection`; the arguments are `uint8` values. -/
def GPIO_setupPinDirection (port_num pin_num direction : Nat) (r : GpioRegs) : GpioRegs :=
  let port_num := port_num % 256
  let pin_num := pin_num % 256
  if pin_num ≥ NUM_OF_PINS_PER_PORT ∨ port_num ≥ NUM_OF_PORTS then r
  else if PIN_OUTPUT = direction then
    { r with DDR_REG := Function.update r.DDR_REG port_num (SET_BIT (r.DDR_REG port_num) pin_num) }
  else
    { r with DDR_REG :=
        Function.update r.DDR_REG port_num (CLEAR_BIT (r.DDR_REG port_num) pin_num) }

/-- Function `GPIO_writePin`; the arguments are `uint8` values. -/
def GPIO_writePin (port_num pin_num value : Nat) (r : GpioRegs) : GpioRegs :=
  let port_num := port_num % 256
  let pin_num := pin_num % 256
  let value := value % 256
  if port_num ≥ NUM_OF_PORTS ∨ pin_num ≥ NUM_OF_PINS_PER_PORT then r
  else if LOGIC_HIGH = value then
    { r with PORT_REG :=
        Function.update r.PORT_REG port_num (SET_BIT (r.PORT_REG port_num) pin_num) }
  else
    { r with PORT_REG :=
        Function.update r.PORT_REG port_num (CLEAR_BIT (r.PORT_REG port_num) pin_num) }

/-- Function `GPIO_readPin`; the arguments are `uint8` values. -/
def GPIO_readPin (port_num pin_num : Nat) (r : GpioRegs) : Nat :=
  let port_num := port_num % 256
  let pin_num := pin_num % 256
  if port_num ≥ NUM_OF_PORTS ∨ pin_num ≥ NUM_OF_PINS_PER_PORT then LOGIC_LOW
  else if BIT_IS_SET (r.PIN_REG port_num) pin_num then LOGIC_HIGH
  else LOGIC_LOW

/-- One logging session as the main loop runs it: a tick in which both
thresholds are breached and both store writes succeed, then a DetectFaults
command whose reads all succeed. -/
def fillSession (s : State) : State :=
  (main_command DETECT_FAULTS 20 (fun _ => true) (detectFaults 3 120 true true s)).state

/-- A number of logging sessions in a row. -/
def fillSessions : Nat → State → State
  | 0, s => s
  | n + 1, s => fillSessions n (fillSession s)

/-- After `j` logging sessions: the write cursor is at 2j with both logged
flags clear, every slot below the cursor holds a byte other than 0x00 and
0xFF, and the peer still has acknowledgments pending for the sessions up to
the 1024th. -/
def FilledTo (j : Nat) (s : State) : Prop :=
  s.EEPROM_addressWrite = 2 * j ∧ s.g_distanceLogged = 0 ∧ s.g_temperatureLogged = 0 ∧
  (∀ a, a < 2 * j → s.eeprom a % 256 ≠ 0xFF ∧ s.eeprom a % 256 ≠ 0x00) ∧
  (1024 - j) * 2050 ≤ ackCount s.rx

/-- The state reached from reset, on an erased store and with the peer
acknowledging every byte, by 1023 logging sessions and one more tick in which
both thresholds are breached and both store writes succeed. -/
def fullLogState : State :=
  detectFaults 3 120 true true
    (fillSessions 1023 (State.init (fun _ => 0xFF) (List.replicate 2099200 0x05)))

/-- The two sensor globals hold in `s1` what they held in `s`. -/
def SameSensors (s s1 : State) : Prop :=
  s1.g_distanceValue = s.g_distanceValue ∧ s1.g_tempValue = s.g_tempValue

end Control_ECU

namespace HMI_ECU

/-! ## The packet decoder of `HMI_APP.c` -/

def ACK : Nat := 0x05
def OPENED : Nat := 1
def CLOSED : Nat := 0

/-- One observable action of the HMI node. -/
inductive Event where
  /-- Call `UART_sendByte(b)`. -/
  | tx (b : Nat)
  /-- A call `HMI_updateSensors(&temp, &distance, &win1, &win2)` with the
  values the four pointers refer to. -/
  | updateSensors (temp distance win1 win2 : Nat)
  /-- Call `LCD_moveCursor(row, col)`. -/
  | lcdMoveCursor (row col : Nat)
  /-- Call `LCD_displayString(str)`. -/
  | lcdString (str : String)
  /-- Call `LCD_displayInteger(n)`. -/
  | lcdInteger (n : Nat)
  /-- Call `LCD_clearScreen()`. -/
  | lcdClearScreen
  /-- A call `KEYPAD_getPressedKey()` that returned `key`. -/
  | keypadGetPressedKey (key : Nat)
  deriving DecidableEq, Repr

/-- The bytes of the Control node not yet received and the actions performed
so far, oldest first. -/
structure State where
  rx : List Nat
  trace : List Event

/-- Function `UART_sendByte`: the argument is a `uint8`. -/
def UART_sendByte (data : Nat) (s : State) : State :=
  { s with trace := s.trace ++ [Event.tx (data % 256)] }

/-- Function `UART_recieveByte` followed by the code `k` that uses the byte; with no
byte ever arriving the call never returns. -/
def UART_recieveByte (s : State) (k : Nat → State → Run State) : Run State :=
  match s.rx with
  | [] => Run.stuck s
  | b :: rest => k (b % 256) { s with rx := rest }

/-- Function `HMI_updateSensors`: the distance line shows a fixed text, the call of
`LCD_displayInteger(*distance)` being commented out in the source. -/
def HMI_updateSensors (temp distance win1 win2 : Nat) (s : State) : State :=
  { s with trace := s.trace ++
      [Event.updateSensors temp distance win1 win2,
       Event.lcdMoveCursor 0 0, Event.lcdString "Temperature: ",
       Event.lcdInteger temp, Event.lcdString "C",
       Event.lcdMoveCursor 1 0, Event.lcdString "Distance: 15", Event.lcdString "cm",
       Event.lcdMoveCursor 2 0, Event.lcdString "Win1: ",
       Event.lcdString (if win1 = OPENED then "Open" else "Closed"),
       Event.lcdMoveCursor 3 0, Event.lcdString "Win2: ",
       Event.lcdString (if win2 = OPENED then "Open" else "Closed")] }

/-- Function `receivePack`. -/
def receivePack (s : State) : Run State :=
  UART_recieveByte s fun dist_high s =>
  let s := UART_sendByte ACK s
  UART_recieveByte s fun dist_low s =>
  let s := UART_sendByte ACK s
  UART_recieveByte s fun tempValue s =>
  let s := UART_sendByte ACK s
  let distanceValue := ((dist_high <<< 8) ||| dist_low) % 65536
  UART_recieveByte s fun win1_State s =>
  let s := UART_sendByte ACK s
  UART_recieveByte s fun win2_State s =>
  let s := UART_sendByte ACK s
  Run.done (HMI_updateSensors tempValue distanceValue win1_State win2_State s)

/-- The argument lists of the calls of `HMI_updateSensors`, in order, as
(temperature, distance, window 1, window 2). -/
def updateCalls : List Event → List (Nat × Nat × Nat × Nat)
  | [] => []
  | Event.updateSensors t d w1 w2 :: es => (t, d, w1, w2) :: updateCalls es
  | _ :: es => updateCalls es

/-- The bytes the HMI node sent over the UART, in order. -/
def txBytes : List Event → List Nat
  | [] => []
  | Event.tx b :: es => b :: txBytes es
  | _ :: es => txBytes es

/-! ## The DetectFaults case of `main` in `HMI_APP.c` -/

def END_BYTE : Nat := 0x54
def DTC_P001 : Nat := 0x01
def DTC_P002 : Nat := 0x02

/-- The HMI node inside the DetectFaults case of `main`: the bytes of the
Control node not yet received, the key presses the operator has yet to make,
the actions performed so far, and the three `uint8` locals of the case. -/
structure FaultsView where
  rx : List Nat
  keys : List Nat
  trace : List Event
  faultCode : Nat
  rowIndex : Nat
  totalFaults : Nat

/-- The display calls of the chain `if(faultCode == DTC_P001) .. else if
(faultCode == DTC_P002) .. else ..` in the loop of the DetectFaults case. -/
def main_DETECT_FAULTS_line (faultCode rowIndex : Nat) : List Event :=
  if faultCode = DTC_P001 then
    [Event.lcdMoveCursor rowIndex 0, Event.lcdString "P001: Too Close"]
  else if faultCode = DTC_P002 then
    [Event.lcdMoveCursor rowIndex 0, Event.lcdString "P002: Overheat"]
  else
    [Event.lcdMoveCursor rowIndex 0, Event.lcdString "Unknown Fault: ",
     Event.lcdInteger faultCode]

/-- The `while(1)` loop of the DetectFaults case, on the pending bytes: every
iteration receives one byte, so the recursion is on the pending bytes. With no
byte left `UART_recieveByte` never returns, and with no key press left
`KEYPAD_getPressedKey` never returns. The `_delay_ms` pauses leave no trace. -/
def main_DETECT_FAULTS_loop : List Nat → FaultsView → Run FaultsView
  | [], v => Run.stuck { v with rx := [] }
  | b :: rest, v =>
    let v := { v with rx := rest, faultCode := b % 256 }
    let v := { v with trace := v.trace ++ [Event.tx (ACK % 256)] }
    if v.faultCode = END_BYTE then Run.done v
    else
      let v := { v with trace := v.trace ++ main_DETECT_FAULTS_line v.faultCode v.rowIndex }
      let v := { v with rowIndex := (v.rowIndex + 1) % 256 }
      let v := { v with totalFaults := (v.totalFaults + 1) % 256 }
      if v.rowIndex ≥ 4 then
        let v := { v with trace := v.trace ++
          [Event.lcdMoveCursor 3 0, Event.lcdString "Press any key..."] }
        match v.keys with
        | [] => Run.stuck v
        | key :: keys =>
          main_DETECT_FAULTS_loop rest
            { v with keys := keys,
                     trace := v.trace ++ [Event.keypadGetPressedKey key, Event.lcdClearScreen],
                     rowIndex := 0 }
      else main_DETECT_FAULTS_loop rest v

/-- The DetectFaults case of the `switch` in `main`; `keys` are the key
presses the operator makes while the case runs. -/
def main_DETECT_FAULTS (keys : List Nat) (s : State) : Run FaultsView :=
  let v : FaultsView :=
    { rx := s.rx, keys := keys,
      trace := s.trace ++
        [Event.lcdClearScreen, Event.lcdString "Reading Faults..", Event.lcdClearScreen],
      faultCode := 0, rowIndex := 0, totalFaults := 0 }
  (main_DETECT_FAULTS_loop v.rx v).bind fun v =>
    let v :=
      if v.totalFaults = 0 then
        { v with trace := v.trace ++ [Event.lcdClearScreen, Event.lcdString "No Faults"] }
      else
        { v with trace := v.trace ++ [Event.lcdClearScreen, Event.lcdString "--- End List ---"] }
    Run.done { v with trace := v.trace ++
      [Event.lcdMoveCursor 3 0, Event.lcdString "Press * for menu"] }

/-- The texts handed to `LCD_displayString`, in order. -/
def lcdStrings : List Event → List String
  | [] => []
  | Event.lcdString str :: es => str :: lcdStrings es
  | _ :: es => lcdStrings es


end HMI_ECU

end VFDLS

namespace VFDLS

open Control_ECU

/-! ## Acknowledgment waits -/

theorem ackCount_cons_ack (b : Nat) (rest : List Nat) (hb : b % 256 = ACK) :
    ackCount (b :: rest) = ackCount rest + 1 := by
  simp [ackCount, List.countP_cons, hb]

theorem ackCount_cons_other (b : Nat) (rest : List Nat) (hb : b % 256 ≠ ACK) :
    ackCount (b :: rest) = ackCount rest := by
  simp [ackCount, List.countP_cons, hb]

theorem afterAck_cons_ack (b : Nat) (rest : List Nat) (hb : b % 256 = ACK) :
    afterAck (b :: rest) = rest := by
  simp [afterAck, waitAckRx, hb]

theorem afterAck_cons_other (b : Nat) (rest : List Nat) (hb : b % 256 ≠ ACK) :
    afterAck (b :: rest) = afterAck rest := by
  simp [afterAck, waitAckRx, hb]

theorem waitAckRx_of_ackCount (rx : List Nat) (h : 0 < ackCount rx) :
    waitAckRx rx = some (afterAck rx) := by
  induction rx with
  | nil => simp [ackCount] at h
  | cons b rest ih =>
    by_cases hb : b % 256 = ACK
    · simp [waitAckRx, afterAck, hb]
    · rw [ackCount_cons_other b rest hb] at h
      rw [afterAck_cons_other b rest hb]
      simpa [waitAckRx, hb] using ih h

theorem waitAckRx_of_ackCount_zero (rx : List Nat) (h : ackCount rx = 0) :
    waitAckRx rx = none := by
  induction rx with
  | nil => rfl
  | cons b rest ih =>
    by_cases hb : b % 256 = ACK
    · rw [ackCount_cons_ack b rest hb] at h
      omega
    · rw [ackCount_cons_other b rest hb] at h
      simpa [waitAckRx, hb] using ih h

theorem ackCount_afterAck (rx : List Nat) : ackCount (afterAck rx) = ackCount rx - 1 := by
  induction rx with
  | nil => rfl
  | cons b rest ih =>
    by_cases hb : b % 256 = ACK
    · rw [ackCount_cons_ack b rest hb, afterAck_cons_ack b rest hb]
      omega
    · rw [ackCount_cons_other b rest hb, afterAck_cons_other b rest hb]
      exact ih

theorem sendAcked_of_ackCount (b : Nat) (s : State) (h : 0 < ackCount s.rx) :
    sendAcked b s =
      Run.done { s with trace := s.trace ++ [Event.tx (b % 256)], rx := afterAck s.rx } := by
  simp [sendAcked, UART_waitAck, UART_sendByte, waitAckRx_of_ackCount s.rx h]

theorem sendAcked_of_ackCount_zero (b : Nat) (s : State) (h : ackCount s.rx = 0) :
    sendAcked b s =
      Run.stuck { s with trace := s.trace ++ [Event.tx (b % 256)], rx := [] } := by
  simp [sendAcked, UART_waitAck, UART_sendByte, waitAckRx_of_ackCount_zero s.rx h]

/-! ## The snapshot packet -/

theorem CONTROL_sendPack_of_ackCount (t : Nat) (s : State) (h : 5 ≤ ackCount s.rx) :
    CONTROL_sendPack t s =
      Run.done { s with
        g_tempValue := t % 256,
        trace := s.trace ++
          [Event.tx ((s.g_distanceValue >>> 8) % 256), Event.tx ((s.g_distanceValue &&& 0xFF) % 256),
           Event.tx (t % 256 % 256), Event.tx (s.g_win1_State % 256),
           Event.tx (s.g_win2_State % 256)],
        rx := afterAck (afterAck (afterAck (afterAck (afterAck s.rx)))) } := by
  unfold CONTROL_sendPack
  simp only []
  rw [sendAcked_of_ackCount _ _ (by simp only []; omega)]
  simp only [Run.bind]
  rw [sendAcked_of_ackCount _ _ (by simp only [ackCount_afterAck]; omega)]
  simp only [Run.bind]
  rw [sendAcked_of_ackCount _ _ (by simp only [ackCount_afterAck]; omega)]
  simp only [Run.bind]
  rw [sendAcked_of_ackCount _ _ (by simp only [ackCount_afterAck]; omega)]
  simp only [Run.bind]
  rw [sendAcked_of_ackCount _ _ (by simp only [ackCount_afterAck]; omega)]
  simp [List.append_assoc]

theorem shiftRight8_eq_div (d : Nat) : d >>> 8 = d / 256 := by
  rw [Nat.shiftRight_eq_div_pow]

theorem and_0xFF_eq_mod (d : Nat) : d &&& 0xFF = d % 256 := by
  have h := Nat.and_pow_two_sub_one_eq_mod d 8
  simpa using h

theorem shiftLeft8_or_eq (h l : Nat) (hl : l < 256) : (h <<< 8) ||| l = 256 * h + l := by
  rw [Nat.shiftLeft_eq, Nat.mul_comm]
  exact (Nat.mul_add_lt_is_or (by simpa using hl : l < 2 ^ 8) h).symm

/-- C1: with every byte acknowledged (the peer sends at least five
acknowledgments), `CONTROL_sendPack` returns and has sent exactly five bytes,
in the order distance >> 8, distance & 0xFF, temperature, window 1 state,
window 2 state; for distance 300, temperature 25, windows 1 and 0 these are
[0x01, 0x2C, 25, 1, 0]. -/
theorem C1_sendPack_five_bytes (s : State) (t : Nat) (hs : s.inRange) (ht : t < 256)
    (hack : 5 ≤ ackCount s.rx) :
    ∃ s1, CONTROL_sendPack t s = Run.done s1 ∧
      s1.trace = s.trace ++
        [Event.tx (s.g_distanceValue >>> 8), Event.tx (s.g_distanceValue &&& 0xFF),
         Event.tx t, Event.tx s.g_win1_State, Event.tx s.g_win2_State] ∧
      (s.g_distanceValue = 300 → t = 25 → s.g_win1_State = 1 → s.g_win2_State = 0 →
        txBytes (s1.trace.drop s.trace.length) = [0x01, 0x2C, 25, 1, 0]) := by
  obtain ⟨_, _, hd, hw1, hw2, _⟩ := hs
  refine ⟨_, CONTROL_sendPack_of_ackCount t s hack, ?_, ?_⟩
  · have h1 : s.g_distanceValue >>> 8 % 256 = s.g_distanceValue >>> 8 := by
      rw [shiftRight8_eq_div]; omega
    have h2 : (s.g_distanceValue &&& 0xFF) % 256 = s.g_distanceValue &&& 0xFF := by
      rw [and_0xFF_eq_mod]; omega
    simp only [h1, h2, Nat.mod_mod, Nat.mod_eq_of_lt ht, Nat.mod_eq_of_lt hw1,
      Nat.mod_eq_of_lt hw2]
  · intro e1 e2 e3 e4
    simp [e1, e2, e3, e4, txBytes, and_0xFF_eq_mod, shiftRight8_eq_div]

/-- Witness of C1: distance 300, temperature 25, window 1 open, window 2
closed, five acknowledgments pending. -/
theorem C1_sendPack_five_bytes_witness :
    (CONTROL_sendPack 25
      { State.init (fun _ => 0xFF) [5, 5, 5, 5, 5] with
        g_distanceValue := 300, g_win1_State := 1 }).isDone = true ∧
    txBytes (CONTROL_sendPack 25
      { State.init (fun _ => 0xFF) [5, 5, 5, 5, 5] with
        g_distanceValue := 300, g_win1_State := 1 }).state.trace = [0x01, 0x2C, 25, 1, 0] := by
  obtain ⟨s1, h1, _, h3⟩ := C1_sendPack_five_bytes
    { State.init (fun _ => 0xFF) [5, 5, 5, 5, 5] with
      g_distanceValue := 300, g_win1_State := 1 } 25 (by decide) (by decide) (by decide)
  rw [h1]
  exact ⟨rfl, by simpa [State.init] using h3 rfl rfl rfl rfl⟩

theorem distance_bytes_recombine (d : Nat) (hd : d < 65536) :
    (((d >>> 8) % 256 % 256) <<< 8 ||| ((d &&& 0xFF) % 256 % 256)) % 65536 = d := by
  rw [shiftLeft8_or_eq _ _ (Nat.mod_lt _ (by decide)), shiftRight8_eq_div, and_0xFF_eq_mod]
  omega

theorem receivePack_five (h : HMI_ECU.State) (b0 b1 b2 b3 b4 : Nat) (rest : List Nat) :
    HMI_ECU.receivePack { h with rx := b0 :: b1 :: b2 :: b3 :: b4 :: rest } =
      Run.done (HMI_ECU.HMI_updateSensors (b2 % 256)
        (((b0 % 256) <<< 8 ||| (b1 % 256)) % 65536) (b3 % 256) (b4 % 256)
        { rx := rest,
          trace := h.trace ++ [HMI_ECU.Event.tx 5, HMI_ECU.Event.tx 5, HMI_ECU.Event.tx 5,
            HMI_ECU.Event.tx 5, HMI_ECU.Event.tx 5] }) := by
  simp [HMI_ECU.receivePack, HMI_ECU.UART_recieveByte, HMI_ECU.UART_sendByte, HMI_ECU.ACK]

/-- C2: round trip. For every snapshot with distance in 0..65535, temperature
in 0..255 and window states in 0..1, the five bytes `CONTROL_sendPack` sends
are decoded by the HMI node's `receivePack` into exactly the same temperature,
distance and window states, which it hands to `HMI_updateSensors`; while
decoding it sends the five acknowledgments the Control node waits for. -/
theorem C2_snapshot_round_trip (s : State) (t : Nat) (h : HMI_ECU.State)
    (hd : s.g_distanceValue < 65536) (ht : t < 256)
    (hw1 : s.g_win1_State ≤ 1) (hw2 : s.g_win2_State ≤ 1) (hack : 5 ≤ ackCount s.rx) :
    ∃ s1 h1, CONTROL_sendPack t s = Run.done s1 ∧
      HMI_ECU.receivePack { h with rx := txBytes (s1.trace.drop s.trace.length) } = Run.done h1 ∧
      HMI_ECU.updateCalls (h1.trace.drop h.trace.length) =
        [(t, s.g_distanceValue, s.g_win1_State, s.g_win2_State)] ∧
      HMI_ECU.txBytes (h1.trace.drop h.trace.length) = [0x05, 0x05, 0x05, 0x05, 0x05] := by
  have hsend := CONTROL_sendPack_of_ackCount t s hack
  have hrecv := receivePack_five h ((s.g_distanceValue >>> 8) % 256)
    ((s.g_distanceValue &&& 0xFF) % 256) (t % 256 % 256) (s.g_win1_State % 256)
    (s.g_win2_State % 256) []
  refine ⟨_, HMI_ECU.HMI_updateSensors (t % 256 % 256 % 256)
    (((s.g_distanceValue >>> 8 % 256 % 256) <<< 8 |||
      (s.g_distanceValue &&& 0xFF) % 256 % 256) % 65536)
    (s.g_win1_State % 256 % 256) (s.g_win2_State % 256 % 256)
    { rx := [],
      trace := h.trace ++ [HMI_ECU.Event.tx 5, HMI_ECU.Event.tx 5, HMI_ECU.Event.tx 5,
        HMI_ECU.Event.tx 5, HMI_ECU.Event.tx 5] }, hsend, ?_, ?_⟩
  · simpa only [List.drop_left, txBytes] using hrecv
  · have e1 : t % 256 % 256 % 256 = t := by omega
    have e2 : s.g_win1_State % 256 % 256 = s.g_win1_State := by omega
    have e3 : s.g_win2_State % 256 % 256 = s.g_win2_State := by omega
    refine ⟨?_, ?_⟩
    · simp only [HMI_ECU.HMI_updateSensors, List.append_assoc, List.drop_left,
        HMI_ECU.updateCalls, distance_bytes_recombine _ hd, e1, e2, e3]
    · simp only [HMI_ECU.HMI_updateSensors, List.append_assoc, List.drop_left,
        List.cons_append, List.nil_append, HMI_ECU.txBytes]

/-- Witness of C2: the snapshot distance 300, temperature 25, window 1 open,
window 2 closed. -/
theorem C2_snapshot_round_trip_witness :
    HMI_ECU.updateCalls (HMI_ECU.receivePack
      { rx := txBytes (CONTROL_sendPack 25
          { State.init (fun _ => 0xFF) [5, 5, 5, 5, 5] with
            g_distanceValue := 300, g_win1_State := 1 }).state.trace,
        trace := [] }).state.trace = [(25, 300, 1, 0)] := by
  obtain ⟨s1, h1, e1, e2, e3, _⟩ := C2_snapshot_round_trip
    { State.init (fun _ => 0xFF) [5, 5, 5, 5, 5] with
      g_distanceValue := 300, g_win1_State := 1 } 25 { rx := [], trace := [] }
    (by decide) (by decide) (by decide) (by decide) (by decide)
  rw [e1]
  simp only [State.init, List.length_nil, List.drop_zero, Run.state] at e2 e3 ⊢
  rw [e2]
  exact e3

/-! ## Traces only grow -/

theorem Run.bind_state {σ : Type} (P : σ → Prop) (r : Run σ) (f : σ → Run σ)
    (hr : P r.state) (hf : ∀ s1, r = Run.done s1 → P (f s1).state) :
    P (r.bind f).state := by
  cases r with
  | done s1 => exact hf s1 rfl
  | stuck s1 => exact hr

theorem Control_ECU.TraceExt.extRefl (s : State) : TraceExt s s := ⟨[], by simp⟩

theorem Control_ECU.TraceExt.extTrans {a b c : State} (h1 : TraceExt a b) (h2 : TraceExt b c) :
    TraceExt a c := by
  obtain ⟨r1, e1⟩ := h1
  obtain ⟨r2, e2⟩ := h2
  exact ⟨r1 ++ r2, by rw [e2, e1, List.append_assoc]⟩

theorem UART_waitAck_trace (s : State) : (UART_waitAck s).state.trace = s.trace := by
  unfold UART_waitAck
  cases waitAckRx s.rx <;> rfl

theorem sendAcked_trace (b : Nat) (s : State) :
    (sendAcked b s).state.trace = s.trace ++ [Event.tx (b % 256)] := by
  simp [sendAcked, UART_waitAck_trace, UART_sendByte]

theorem sendAcked_traceExt (b : Nat) (s : State) : TraceExt s (sendAcked b s).state :=
  ⟨_, sendAcked_trace b s⟩

/-- Whatever holds across a change of `g_tempValue` and across an acknowledged
send, and is reflexive and transitive, holds across `CONTROL_sendPack`. -/
theorem CONTROL_sendPack_rel (R : State → State → Prop)
    (htrans : ∀ a b c, R a b → R b c → R a c)
    (htemp : ∀ (s : State) (v : Nat), R s { s with g_tempValue := v })
    (hsend : ∀ (b : Nat) (s : State), R s (sendAcked b s).state)
    (t : Nat) (s : State) : R s (CONTROL_sendPack t s).state := by
  unfold CONTROL_sendPack
  have h0 : R s { s with g_tempValue := t % 256 } := htemp s _
  have step : ∀ (a : State) (b : Nat) (f : State → Run State), R s a →
      (∀ a1, R s a1 → R s (f a1).state) → R s ((sendAcked b a).bind f).state := by
    intro a b f ha hf
    have hb : R s (sendAcked b a).state := htrans _ _ _ ha (hsend b a)
    refine Run.bind_state (R s) _ _ hb ?_
    intro s1 e1
    rw [e1] at hb
    exact hf s1 hb
  refine step _ _ _ h0 fun s1 h1 => ?_
  refine step _ _ _ h1 fun s2 h2 => ?_
  refine step _ _ _ h2 fun s3 h3 => ?_
  refine step _ _ _ h3 fun s4 h4 => ?_
  exact htrans _ _ _ h4 (hsend _ _)

theorem CONTROL_sendPack_traceExt (t : Nat) (s : State) :
    TraceExt s (CONTROL_sendPack t s).state :=
  CONTROL_sendPack_rel TraceExt (fun _ _ _ => TraceExt.extTrans)
    (fun s _ => TraceExt.extRefl s) sendAcked_traceExt t s

theorem CONTROL_sendFaults_loop_traceExt (rdOk : Nat → Bool) (fuel : Nat) (s : State) :
    TraceExt s (CONTROL_sendFaults_loop rdOk fuel s).state := by
  induction fuel generalizing s with
  | zero => exact TraceExt.extRefl s
  | succ n ih =>
    unfold CONTROL_sendFaults_loop
    by_cases hc : s.EEPROM_addressRead ≤ s.EEPROM_addressWrite
    · have hr : TraceExt s (EEPROM_readByte (rdOk s.EEPROM_addressRead) s.EEPROM_addressRead s).2.2 := by
        unfold EEPROM_readByte
        cases rdOk s.EEPROM_addressRead <;> exact ⟨_, rfl⟩
      simp only [hc, if_true]
      split
      · split
        · exact hr
        · refine Run.bind_state (TraceExt s) _ _ (hr.extTrans (sendAcked_traceExt _ _)) ?_
          intro s1 e1
          have h1 : TraceExt s s1 := by
            have := hr.extTrans (sendAcked_traceExt
              (EEPROM_readByte (rdOk s.EEPROM_addressRead) s.EEPROM_addressRead s).2.1
              (EEPROM_readByte (rdOk s.EEPROM_addressRead) s.EEPROM_addressRead s).2.2)
            rw [e1] at this; exact this
          exact (h1.extTrans ⟨[], by simp⟩).extTrans (ih _)
      · exact hr
    · simp only [hc, if_false]
      exact TraceExt.extRefl s

theorem CONTROL_sendFaults_traceExt (rdOk : Nat → Bool) (s : State) :
    TraceExt s (CONTROL_sendFaults rdOk s).state := by
  unfold CONTROL_sendFaults
  have h0 : TraceExt s { s with EEPROM_addressRead := 0x0000 } := ⟨[], by simp⟩
  have hl := h0.extTrans (CONTROL_sendFaults_loop_traceExt rdOk (s.rx.length + 1)
    { s with EEPROM_addressRead := 0x0000 })
  refine Run.bind_state (TraceExt s) _ _ hl ?_
  intro s1 e1
  have h1 : TraceExt s s1 := by
    change TraceExt s (CONTROL_sendFaults_loop rdOk (s.rx.length + 1)
      { s with EEPROM_addressRead := 0x0000 }).state at hl
    rw [e1] at hl; exact hl
  refine Run.bind_state (TraceExt s) _ _ (h1.extTrans (sendAcked_traceExt _ _)) ?_
  intro s2 e2
  have h2 : TraceExt s s2 := by
    have := h1.extTrans (sendAcked_traceExt END_BYTE s1)
    rw [e2] at this; exact this
  split
  · exact h2.extTrans ⟨[], by simp [Run.state]⟩
  · exact h2

theorem main_switch_traceExt (k temp : Nat) (rdOk : Nat → Bool) (s : State) :
    TraceExt s (main_switch k temp rdOk s).state := by
  unfold main_switch
  split
  · exact ⟨_, by simp [Run.state, DcMotor_Init, Ultrasonic_init, List.append_assoc]; rfl⟩
  · split
    · exact CONTROL_sendPack_traceExt temp s
    · split
      · refine Run.bind_state (TraceExt s) _ _ (CONTROL_sendFaults_traceExt rdOk s) ?_
        intro s1 e1
        have h1 := CONTROL_sendFaults_traceExt rdOk s
        rw [e1] at h1
        exact h1.extTrans ⟨[], by simp [Run.state]⟩
      · split
        · exact ⟨[], by simp [Run.state]⟩
        · exact TraceExt.extRefl s

/-! ## Command dispatch -/

/-- C3: for every received byte and every Control state, whether the command
completes or stalls, everything the node emits in response starts with the
acknowledgment 0x05; the acknowledgment is sent before the byte is
interpreted, on a state that differs from the one before only by that
emission. -/
theorem C3_ack_before_dispatch (b temp : Nat) (rdOk : Nat → Bool) (s : State) :
    (∃ rest, (main_command b temp rdOk s).state.trace = s.trace ++ Event.tx 0x05 :: rest) ∧
    (∃ rest, txBytes ((main_command b temp rdOk s).state.trace.drop s.trace.length) =
      0x05 :: rest) ∧
    main_command b temp rdOk s = main_switch (b % 256) temp rdOk (UART_sendByte ACK s) ∧
    UART_sendByte ACK s = { s with trace := s.trace ++ [Event.tx 0x05] } := by
  have h := main_switch_traceExt (b % 256) temp rdOk (UART_sendByte ACK s)
  obtain ⟨rest, hrest⟩ := h
  have e : (main_command b temp rdOk s).state.trace = s.trace ++ Event.tx 0x05 :: rest := by
    simp only [main_command]
    rw [hrest]
    simp [UART_sendByte, ACK]
  refine ⟨⟨rest, e⟩, ⟨txBytes rest, ?_⟩, rfl, rfl⟩
  rw [e, List.drop_left]
  rfl

/-- C4: a byte outside 0x01..0x04 is acknowledged and dropped: the dispatch
returns having emitted the single acknowledgment byte and nothing else, with
the monitoring flag, both logged flags, the write cursor, the persistent store
and both window states as before. -/
theorem C4_unknown_byte_ignored (b temp : Nat) (rdOk : Nat → Bool) (s : State)
    (h1 : b % 256 ≠ 0x01) (h2 : b % 256 ≠ 0x02) (h3 : b % 256 ≠ 0x03) (h4 : b % 256 ≠ 0x04) :
    ∃ s1, main_command b temp rdOk s = Run.done s1 ∧
      s1.trace = s.trace ++ [Event.tx 0x05] ∧
      s1.g_Monitoring = s.g_Monitoring ∧
      s1.g_distanceLogged = s.g_distanceLogged ∧
      s1.g_temperatureLogged = s.g_temperatureLogged ∧
      s1.EEPROM_addressWrite = s.EEPROM_addressWrite ∧
      s1.eeprom = s.eeprom ∧
      s1.g_win1_State = s.g_win1_State ∧
      s1.g_win2_State = s.g_win2_State ∧
      s1.rx = s.rx := by
  refine ⟨UART_sendByte ACK s, ?_, rfl, rfl, rfl, rfl, rfl, rfl, rfl, rfl, rfl⟩
  simp [main_command, main_switch, START_MONITORING, DISPLAY_VALUES, DETECT_FAULTS,
    STOP_MONITORING, h1, h2, h3, h4]

/-- Witness of C4: the byte 0x2A (the menu key) received in the reset state. -/
theorem C4_unknown_byte_ignored_witness :
    (main_command 0x2A 25 (fun _ => true) (State.init (fun _ => 0xFF) [])).isDone = true ∧
    (main_command 0x2A 25 (fun _ => true) (State.init (fun _ => 0xFF) [])).state.trace =
      [Event.tx 0x05] ∧
    (main_command 0x2A 25 (fun _ => true) (State.init (fun _ => 0xFF) [])).state.g_Monitoring
      = 0 := by
  obtain ⟨s1, e, ht, hm, _⟩ := C4_unknown_byte_ignored 0x2A 25 (fun _ => true)
    (State.init (fun _ => 0xFF) []) (by decide) (by decide) (by decide) (by decide)
  rw [e]
  exact ⟨rfl, by simpa [State.init] using ht, by simpa [State.init] using hm⟩

/-! ## Accepted writes -/

theorem acceptedWrites_append (l1 l2 : List Event) :
    acceptedWrites (l1 ++ l2) = acceptedWrites l1 ++ acceptedWrites l2 := by
  induction l1 with
  | nil => rfl
  | cons e es ih =>
    cases e with
    | eepromWrite a b ok => cases ok <;> simp [acceptedWrites, ih]
    | _ => simp [acceptedWrites, ih]

theorem countAccepted_append (code : Nat) (l1 l2 : List Event) :
    countAccepted code (l1 ++ l2) = countAccepted code l1 + countAccepted code l2 := by
  simp [countAccepted, acceptedWrites_append]

theorem txBytes_append (l1 l2 : List Event) :
    txBytes (l1 ++ l2) = txBytes l1 ++ txBytes l2 := by
  induction l1 with
  | nil => rfl
  | cons e es ih => cases e <;> simp [txBytes, ih]

/-! ## One monitoring tick -/

theorem detectFaults_distance_hit (wr : Bool) (s : State)
    (hd : s.g_distanceValue < 10) (hl : s.g_distanceLogged = 0)
    (hw : s.EEPROM_addressWrite ≤ 0x07FF) :
    detectFaults_distance wr s =
      if wr then
        { s with eeprom := Function.update s.eeprom s.EEPROM_addressWrite 0x01,
                 trace := s.trace ++ [Event.eepromWrite s.EEPROM_addressWrite 0x01 true],
                 EEPROM_addressWrite := s.EEPROM_addressWrite + 1,
                 g_distanceLogged := 1 }
      else
        { s with trace := s.trace ++ [Event.eepromWrite s.EEPROM_addressWrite 0x01 false] } := by
  have e : (s.EEPROM_addressWrite + 1) % 65536 = s.EEPROM_addressWrite + 1 := by omega
  cases wr <;>
    simp [detectFaults_distance, EEPROM_writeByte, CRITICAL_DISTANCE, EEPROM_MAX_ADDRESS,
      DTC_P001, hd, hl, hw, e]

theorem detectFaults_distance_miss (wr : Bool) (s : State)
    (h : ¬ (s.g_distanceValue < 10 ∧ s.g_distanceLogged = 0 ∧ s.EEPROM_addressWrite ≤ 0x07FF)) :
    detectFaults_distance wr s = s := by
  unfold detectFaults_distance
  simp only [CRITICAL_DISTANCE, EEPROM_MAX_ADDRESS]
  split
  · split
    · rename_i h1 h2
      exact absurd ⟨h1.1, h1.2, h2⟩ h
    · rfl
  · rfl

theorem detectFaults_overheat_hit (wr : Bool) (s : State)
    (ht : s.g_tempValue > 90) (hl : s.g_temperatureLogged = 0)
    (hw : s.EEPROM_addressWrite ≤ 0x07FF) :
    detectFaults_overheat wr s =
      if wr then
        { s with eeprom := Function.update s.eeprom s.EEPROM_addressWrite 0x02,
                 trace := s.trace ++ [Event.eepromWrite s.EEPROM_addressWrite 0x02 true],
                 EEPROM_addressWrite := s.EEPROM_addressWrite + 1,
                 g_temperatureLogged := 1 }
      else
        { s with trace := s.trace ++ [Event.eepromWrite s.EEPROM_addressWrite 0x02 false] } := by
  have e : (s.EEPROM_addressWrite + 1) % 65536 = s.EEPROM_addressWrite + 1 := by omega
  cases wr <;>
    simp [detectFaults_overheat, EEPROM_writeByte, CRITICAL_TEMP, EEPROM_MAX_ADDRESS,
      DTC_P002, ht, hl, hw, e]

theorem detectFaults_overheat_miss (wr : Bool) (s : State)
    (h : ¬ (s.g_tempValue > 90 ∧ s.g_temperatureLogged = 0 ∧ s.EEPROM_addressWrite ≤ 0x07FF)) :
    detectFaults_overheat wr s = s := by
  unfold detectFaults_overheat
  simp only [CRITICAL_TEMP, EEPROM_MAX_ADDRESS]
  split
  · split
    · rename_i h1 h2
      exact absurd ⟨h1.1, h1.2, h2⟩ h
    · rfl
  · rfl

/-- The overheat block never touches the distance flag and never stores 0x01. -/
theorem detectFaults_overheat_frame (wr : Bool) (s : State) :
    (detectFaults_overheat wr s).g_distanceLogged = s.g_distanceLogged ∧
    (detectFaults_overheat wr s).g_distanceValue = s.g_distanceValue ∧
    (detectFaults_overheat wr s).g_tempValue = s.g_tempValue ∧
    (detectFaults_overheat wr s).rx = s.rx ∧
    (detectFaults_overheat wr s).g_Monitoring = s.g_Monitoring ∧
    countAccepted 0x01 (detectFaults_overheat wr s).trace = countAccepted 0x01 s.trace := by
  by_cases h : s.g_tempValue > 90 ∧ s.g_temperatureLogged = 0 ∧ s.EEPROM_addressWrite ≤ 0x07FF
  · rw [detectFaults_overheat_hit wr s h.1 h.2.1 h.2.2]
    cases wr <;> simp [acceptedWrites_append, countAccepted, acceptedWrites]
  · rw [detectFaults_overheat_miss wr s h]
    simp

/-- The distance block never touches the temperature flag and never stores 0x02. -/
theorem detectFaults_distance_frame (wr : Bool) (s : State) :
    (detectFaults_distance wr s).g_temperatureLogged = s.g_temperatureLogged ∧
    (detectFaults_distance wr s).g_distanceValue = s.g_distanceValue ∧
    (detectFaults_distance wr s).g_tempValue = s.g_tempValue ∧
    (detectFaults_distance wr s).rx = s.rx ∧
    (detectFaults_distance wr s).g_Monitoring = s.g_Monitoring ∧
    countAccepted 0x02 (detectFaults_distance wr s).trace = countAccepted 0x02 s.trace := by
  by_cases h : s.g_distanceValue < 10 ∧ s.g_distanceLogged = 0 ∧ s.EEPROM_addressWrite ≤ 0x07FF
  · rw [detectFaults_distance_hit wr s h.1 h.2.1 h.2.2]
    cases wr <;> simp [acceptedWrites_append, countAccepted, acceptedWrites]
  · rw [detectFaults_distance_miss wr s h]
    simp

theorem detectFaults_eq_mid (dist temp : Nat) (wrD wrT : Bool) (s : State) :
    detectFaults dist temp wrD wrT s =
      detectFaults_overheat wrT (detectFaults_mid dist temp wrD s) := rfl

/-- C5: in one tick the distance block writes 0x01 at the current write
cursor, advances the cursor by one and sets distanceLogged exactly when
distance < 10, distanceLogged was false, the cursor is at most 0x07FF and the
store write succeeds; otherwise (distance = 10 included) that block accepts no
write and leaves the store, the cursor and distanceLogged as they were. The
overheat block that follows neither changes distanceLogged nor stores 0x01. -/
theorem C5_distance_fault_logged_iff (dist temp : Nat) (wrD wrT : Bool) (s : State)
    (hd : dist < 65536) :
    ((dist < 10 ∧ s.g_distanceLogged = 0 ∧ s.EEPROM_addressWrite ≤ 0x07FF ∧ wrD = true) →
      (detectFaults_mid dist temp wrD s).trace =
        s.trace ++ [Event.eepromWrite s.EEPROM_addressWrite 0x01 true] ∧
      (detectFaults_mid dist temp wrD s).eeprom =
        Function.update s.eeprom s.EEPROM_addressWrite 0x01 ∧
      (detectFaults_mid dist temp wrD s).EEPROM_addressWrite = s.EEPROM_addressWrite + 1 ∧
      (detectFaults_mid dist temp wrD s).g_distanceLogged = 1) ∧
    (¬ (dist < 10 ∧ s.g_distanceLogged = 0 ∧ s.EEPROM_addressWrite ≤ 0x07FF ∧ wrD = true) →
      acceptedWrites (detectFaults_mid dist temp wrD s).trace = acceptedWrites s.trace ∧
      (detectFaults_mid dist temp wrD s).eeprom = s.eeprom ∧
      (detectFaults_mid dist temp wrD s).EEPROM_addressWrite = s.EEPROM_addressWrite ∧
      (detectFaults_mid dist temp wrD s).g_distanceLogged = s.g_distanceLogged) ∧
    (detectFaults dist temp wrD wrT s).g_distanceLogged =
      (detectFaults_mid dist temp wrD s).g_distanceLogged ∧
    countAccepted 0x01 (detectFaults dist temp wrD wrT s).trace =
      countAccepted 0x01 (detectFaults_mid dist temp wrD s).trace := by
  have hs : (detectFaults_sample dist temp s).g_distanceValue = dist := Nat.mod_eq_of_lt hd
  refine ⟨?_, ?_, ?_, ?_⟩
  · rintro ⟨h1, h2, h3, h4⟩
    unfold detectFaults_mid
    rw [detectFaults_distance_hit wrD (detectFaults_sample dist temp s)
      (by rw [hs]; exact h1) h2 h3, h4]
    simp [detectFaults_sample]
  · intro hn
    unfold detectFaults_mid
    by_cases hit : dist < 10 ∧ s.g_distanceLogged = 0 ∧ s.EEPROM_addressWrite ≤ 0x07FF
    · have hw : wrD = false := by
        cases wrD
        · rfl
        · exact absurd ⟨hit.1, hit.2.1, hit.2.2, rfl⟩ hn
      rw [detectFaults_distance_hit wrD (detectFaults_sample dist temp s)
        (by rw [hs]; exact hit.1) hit.2.1 hit.2.2, hw]
      simp [detectFaults_sample, acceptedWrites_append, acceptedWrites]
    · rw [detectFaults_distance_miss wrD (detectFaults_sample dist temp s)
        (by rw [hs]; exact hit)]
      simp [detectFaults_sample]
  · exact (detectFaults_overheat_frame wrT _).1
  · exact (detectFaults_overheat_frame wrT _).2.2.2.2.2

/-- Witness of C5: distance 10 in the reset state logs nothing, distance 9
logs 0x01 at address 0. -/
theorem C5_distance_fault_logged_iff_witness :
    acceptedWrites (detectFaults_mid 10 25 true (State.init (fun _ => 0xFF) [])).trace = [] ∧
    (detectFaults_mid 9 25 true (State.init (fun _ => 0xFF) [])).trace =
      [Event.eepromWrite 0 0x01 true] := by
  refine ⟨?_, ?_⟩
  · have h := (C5_distance_fault_logged_iff 10 25 true true (State.init (fun _ => 0xFF) [])
      (by decide)).2.1 (by decide)
    exact h.1
  · have h := (C5_distance_fault_logged_iff 9 25 true true (State.init (fun _ => 0xFF) [])
      (by decide)).1 (by decide)
    simpa [State.init] using h.1

/-- C6: in one tick the overheat block writes 0x02 at the write cursor as the
distance block left it, advances the cursor by one and sets temperatureLogged
exactly when temperature > 90, temperatureLogged was false, that cursor is at
most 0x07FF and the store write succeeds; otherwise (temperature = 90 included)
it accepts no write and leaves the store, the cursor and temperatureLogged as
they were. -/
theorem C6_overheat_fault_logged_iff (dist temp : Nat) (wrD wrT : Bool) (s : State)
    (ht : temp < 256) :
    ((temp > 90 ∧ s.g_temperatureLogged = 0 ∧
        (detectFaults_mid dist temp wrD s).EEPROM_addressWrite ≤ 0x07FF ∧ wrT = true) →
      (detectFaults dist temp wrD wrT s).trace =
        (detectFaults_mid dist temp wrD s).trace ++
          [Event.eepromWrite (detectFaults_mid dist temp wrD s).EEPROM_addressWrite 0x02 true] ∧
      (detectFaults dist temp wrD wrT s).eeprom =
        Function.update (detectFaults_mid dist temp wrD s).eeprom
          (detectFaults_mid dist temp wrD s).EEPROM_addressWrite 0x02 ∧
      (detectFaults dist temp wrD wrT s).EEPROM_addressWrite =
        (detectFaults_mid dist temp wrD s).EEPROM_addressWrite + 1 ∧
      (detectFaults dist temp wrD wrT s).g_temperatureLogged = 1) ∧
    (¬ (temp > 90 ∧ s.g_temperatureLogged = 0 ∧
        (detectFaults_mid dist temp wrD s).EEPROM_addressWrite ≤ 0x07FF ∧ wrT = true) →
      acceptedWrites (detectFaults dist temp wrD wrT s).trace =
        acceptedWrites (detectFaults_mid dist temp wrD s).trace ∧
      (detectFaults dist temp wrD wrT s).eeprom = (detectFaults_mid dist temp wrD s).eeprom ∧
      (detectFaults dist temp wrD wrT s).EEPROM_addressWrite =
        (detectFaults_mid dist temp wrD s).EEPROM_addressWrite ∧
      (detectFaults dist temp wrD wrT s).g_temperatureLogged = s.g_temperatureLogged) := by
  have hfr := detectFaults_distance_frame wrD (detectFaults_sample dist temp s)
  have hl : (detectFaults_mid dist temp wrD s).g_temperatureLogged = s.g_temperatureLogged :=
    hfr.1
  have hv : (detectFaults_mid dist temp wrD s).g_tempValue = temp := by
    have := hfr.2.2.1
    unfold detectFaults_mid
    rw [this]
    exact Nat.mod_eq_of_lt ht
  rw [detectFaults_eq_mid]
  refine ⟨?_, ?_⟩
  · rintro ⟨h1, h2, h3, h4⟩
    rw [detectFaults_overheat_hit wrT (detectFaults_mid dist temp wrD s)
      (by rw [hv]; exact h1) (by rw [hl]; exact h2) h3, h4]
    simp
  · intro hn
    by_cases hit : temp > 90 ∧ s.g_temperatureLogged = 0 ∧
        (detectFaults_mid dist temp wrD s).EEPROM_addressWrite ≤ 0x07FF
    · have hw : wrT = false := by
        cases wrT
        · rfl
        · exact absurd ⟨hit.1, hit.2.1, hit.2.2, rfl⟩ hn
      rw [detectFaults_overheat_hit wrT (detectFaults_mid dist temp wrD s)
        (by rw [hv]; exact hit.1) (by rw [hl]; exact hit.2.1) hit.2.2, hw]
      simp [acceptedWrites_append, acceptedWrites, hl]
    · rw [detectFaults_overheat_miss wrT (detectFaults_mid dist temp wrD s)
        (by rw [hv, hl]; exact hit)]
      simp [hl]

/-- Witness of C6: temperature 90 in the reset state logs nothing, temperature
91 logs 0x02 at address 0. -/
theorem C6_overheat_fault_logged_iff_witness :
    acceptedWrites (detectFaults 20 90 true true (State.init (fun _ => 0xFF) [])).trace = [] ∧
    (detectFaults 20 91 true true (State.init (fun _ => 0xFF) [])).trace =
      [Event.eepromWrite 0 0x02 true] := by
  refine ⟨?_, ?_⟩
  · have h := (C6_overheat_fault_logged_iff 20 90 true true (State.init (fun _ => 0xFF) [])
      (by decide)).2 (by decide)
    have e : acceptedWrites
        (detectFaults_mid 20 90 true (State.init (fun _ => 0xFF) [])).trace = [] := by decide
    rw [← e]
    exact h.1
  · have h := (C6_overheat_fault_logged_iff 20 91 true true (State.init (fun _ => 0xFF) [])
      (by decide)).1 (by decide)
    have e : (detectFaults_mid 20 91 true (State.init (fun _ => 0xFF) [])).trace = [] := by
      decide
    have e2 : (detectFaults_mid 20 91 true (State.init (fun _ => 0xFF) [])).EEPROM_addressWrite
        = 0 := by decide
    rw [e, e2] at h
    simpa using h.1

/-! ## At most one distance fault per session -/

theorem Control_ECU.DistanceNeutral.neutralRefl (s : State) : DistanceNeutral s s :=
  ⟨rfl, rfl, fun _ h => h⟩

theorem Control_ECU.DistanceNeutral.neutralTrans {a b c : State} (h1 : DistanceNeutral a b)
    (h2 : DistanceNeutral b c) : DistanceNeutral a c :=
  ⟨h2.1.trans h1.1, h2.2.1.trans h1.2.1, fun x hx => h1.2.2 x (h2.2.2 x hx)⟩

theorem Control_ECU.DistanceSession.ofNeutral {c0 : Nat} {s s1 : State}
    (h : DistanceSession c0 s) (hn : DistanceNeutral s s1) : DistanceSession c0 s1 := by
  obtain ⟨hrx, hc⟩ := h
  obtain ⟨n1, n2, n3⟩ := hn
  refine ⟨fun b hb => hrx b (n3 b hb), ?_⟩
  rw [n1, n2]
  exact hc

theorem waitAckRx_mem (rx rest : List Nat) (h : waitAckRx rx = some rest) :
    ∀ b ∈ rest, b ∈ rx := by
  induction rx with
  | nil => simp [waitAckRx] at h
  | cons a tl ih =>
    intro b hb
    by_cases ha : a % 256 = ACK
    · simp only [waitAckRx, ha, if_true, Option.some.injEq] at h
      rw [← h] at hb
      exact List.mem_cons_of_mem a hb
    · simp only [waitAckRx, ha, if_false] at h
      exact List.mem_cons_of_mem a (ih h b hb)

theorem UART_waitAck_rx_mem (s : State) : ∀ b ∈ (UART_waitAck s).state.rx, b ∈ s.rx := by
  unfold UART_waitAck
  cases h : waitAckRx s.rx with
  | none => intro b hb; simp [Run.state] at hb
  | some rest => exact waitAckRx_mem s.rx rest h

theorem sendAcked_rx_mem (b : Nat) (s : State) :
    ∀ x ∈ (sendAcked b s).state.rx, x ∈ s.rx :=
  UART_waitAck_rx_mem (UART_sendByte b s)

theorem UART_waitAck_distanceLogged (s : State) :
    (UART_waitAck s).state.g_distanceLogged = s.g_distanceLogged := by
  unfold UART_waitAck
  cases waitAckRx s.rx <;> rfl

theorem sendAcked_distanceNeutral (b : Nat) (s : State) :
    DistanceNeutral s (sendAcked b s).state := by
  refine ⟨UART_waitAck_distanceLogged (UART_sendByte b s), ?_, sendAcked_rx_mem b s⟩
  rw [sendAcked_trace]
  simp [acceptedWrites_append, countAccepted, acceptedWrites]

theorem CONTROL_sendPack_distanceNeutral (t : Nat) (s : State) :
    DistanceNeutral s (CONTROL_sendPack t s).state :=
  CONTROL_sendPack_rel DistanceNeutral (fun _ _ _ => DistanceNeutral.neutralTrans)
    (fun _ _ => ⟨rfl, rfl, fun _ h => h⟩) sendAcked_distanceNeutral t s

theorem CONTROL_winState_distanceNeutral (b : Buttons) (s : State) :
    DistanceNeutral s (CONTROL_winState b s) := by
  have h1 : DistanceNeutral s (CONTROL_winState_win1 b s) := by
    unfold CONTROL_winState_win1
    split
    · exact ⟨rfl, by simp [acceptedWrites_append, countAccepted, acceptedWrites],
        fun _ h => h⟩
    · split
      · exact ⟨rfl, by simp [acceptedWrites_append, countAccepted, acceptedWrites],
          fun _ h => h⟩
      · exact DistanceNeutral.neutralRefl s
  have h2 : DistanceNeutral (CONTROL_winState_win1 b s)
      (CONTROL_winState_win2 b (CONTROL_winState_win1 b s)) := by
    generalize CONTROL_winState_win1 b s = u
    unfold CONTROL_winState_win2
    split
    · exact ⟨rfl, by simp [acceptedWrites_append, countAccepted, acceptedWrites],
        fun _ h => h⟩
    · split
      · exact ⟨rfl, by simp [acceptedWrites_append, countAccepted, acceptedWrites],
          fun _ h => h⟩
      · exact DistanceNeutral.neutralRefl u
  exact h1.neutralTrans h2

theorem readSensors_distanceNeutral (dist temp : Nat) (b : Buttons) (s : State) :
    DistanceNeutral s (readSensors dist temp b s) := by
  unfold readSensors
  have h0 : DistanceNeutral s
      { s with g_distanceValue := dist % 65536, g_tempValue := temp % 256 } :=
    ⟨rfl, rfl, fun _ h => h⟩
  exact h0.neutralTrans (CONTROL_winState_distanceNeutral b _)

theorem main_command_distanceNeutral (b temp : Nat) (rdOk : Nat → Bool) (s : State)
    (hb : b % 256 ≠ DETECT_FAULTS) :
    DistanceNeutral s (main_command b temp rdOk s).state := by
  have h0 : DistanceNeutral s (UART_sendByte ACK s) :=
    ⟨rfl, by simp [UART_sendByte, acceptedWrites_append, countAccepted, acceptedWrites],
      fun _ h => h⟩
  refine h0.neutralTrans ?_
  unfold main_command
  simp only []
  generalize UART_sendByte ACK s = u
  unfold main_switch
  by_cases h1 : b % 256 = START_MONITORING
  · rw [if_pos h1]
    exact ⟨rfl, by simp [Run.state, DcMotor_Init, Ultrasonic_init, acceptedWrites_append,
      countAccepted, acceptedWrites], fun _ h => h⟩
  · rw [if_neg h1]
    by_cases h2 : b % 256 = DISPLAY_VALUES
    · rw [if_pos h2]
      exact CONTROL_sendPack_distanceNeutral temp u
    · rw [if_neg h2, if_neg hb]
      by_cases h4 : b % 256 = STOP_MONITORING
      · rw [if_pos h4]
        exact ⟨rfl, rfl, fun _ h => h⟩
      · rw [if_neg h4]
        exact DistanceNeutral.neutralRefl u

theorem detectFaults_distanceSession (c0 dist temp : Nat) (wrD wrT : Bool) (s : State)
    (h : DistanceSession c0 s) : DistanceSession c0 (detectFaults dist temp wrD wrT s) := by
  rw [detectFaults_eq_mid]
  obtain ⟨f1, _, _, f4, _, f6⟩ :=
    detectFaults_overheat_frame wrT (detectFaults_mid dist temp wrD s)
  have hmid : DistanceSession c0 (detectFaults_mid dist temp wrD s) := by
    unfold detectFaults_mid
    by_cases hit : (detectFaults_sample dist temp s).g_distanceValue < 10 ∧
        s.g_distanceLogged = 0 ∧ s.EEPROM_addressWrite ≤ 0x07FF
    · rw [detectFaults_distance_hit wrD (detectFaults_sample dist temp s) hit.1 hit.2.1 hit.2.2]
      obtain ⟨hrx, hc⟩ := h
      have hc0 : countAccepted 0x01 s.trace = c0 := by
        rcases hc with hc | hc
        · exact hc
        · exact absurd hit.2.1 hc.2
      cases wrD
      · refine ⟨hrx, Or.inl ?_⟩
        simpa [detectFaults_sample, acceptedWrites_append, countAccepted, acceptedWrites]
          using hc0
      · refine ⟨hrx, Or.inr ⟨?_, by simp⟩⟩
        simpa [detectFaults_sample, acceptedWrites_append, countAccepted, acceptedWrites]
          using hc0
    · rw [detectFaults_distance_miss wrD (detectFaults_sample dist temp s) hit]
      exact h
  obtain ⟨hrx, hc⟩ := hmid
  refine ⟨by rw [f4]; exact hrx, ?_⟩
  rw [f1, f6]
  exact hc

theorem main_poll_distanceNeutral (i : LoopInputs) (s : State)
    (hrx : ∀ b ∈ s.rx, b % 256 ≠ DETECT_FAULTS) :
    DistanceNeutral s (main_poll i s).state := by
  unfold main_poll
  cases i.dataAvailable with
  | false => exact DistanceNeutral.neutralRefl s
  | true =>
    simp only [if_true]
    cases hs : s.rx with
    | nil => exact DistanceNeutral.neutralRefl s
    | cons b rest =>
      have hb : b % 256 ≠ DETECT_FAULTS := hrx b (by rw [hs]; exact List.mem_cons_self b rest)
      have h0 : DistanceNeutral s { s with rx := rest } :=
        ⟨rfl, rfl, fun x hx => by rw [hs]; exact List.mem_cons_of_mem b hx⟩
      exact h0.neutralTrans (main_command_distanceNeutral b i.packTemp i.rdOk _ hb)

theorem main_monitor_distanceSession (c0 : Nat) (i : LoopInputs) (s : State)
    (h : DistanceSession c0 s) : DistanceSession c0 (main_monitor i s) := by
  unfold main_monitor
  split
  · exact detectFaults_distanceSession c0 _ _ _ _ _
      (h.ofNeutral (readSensors_distanceNeutral _ _ _ s))
  · exact h

theorem main_iteration_distanceSession (c0 : Nat) (i : LoopInputs) (s : State)
    (h : DistanceSession c0 s) : DistanceSession c0 (main_iteration i s).state := by
  unfold main_iteration
  have hw : DistanceSession c0 (CONTROL_winState i.buttons s) :=
    h.ofNeutral (CONTROL_winState_distanceNeutral i.buttons s)
  have hp : DistanceSession c0 (main_poll i (CONTROL_winState i.buttons s)).state :=
    hw.ofNeutral (main_poll_distanceNeutral i _ hw.1)
  refine Run.bind_state (DistanceSession c0) _ _ hp ?_
  intro s1 e1
  rw [e1] at hp
  exact main_monitor_distanceSession c0 i s1 hp

theorem main_loop_distanceSession (c0 : Nat) (inputs : List LoopInputs) (s : State)
    (h : DistanceSession c0 s) : DistanceSession c0 (main_loop inputs s).state := by
  induction inputs generalizing s with
  | nil => exact h
  | cons i rest ih =>
    unfold main_loop
    have hi := main_iteration_distanceSession c0 i s h
    refine Run.bind_state (DistanceSession c0) _ _ hi ?_
    intro s1 e1
    rw [e1] at hi
    exact ih s1 hi

/-- C7 as stated fails: in the reset state with distance 5 and temperature 50
a first tick whose store write fails appends nothing, and a second tick with
the same readings whose store write succeeds appends the 0x01 entry. -/
theorem C7_scenario_counterexample :
    acceptedWrites (detectFaults 5 50 false false (State.init (fun _ => 0xFF) [])).trace = [] ∧
    acceptedWrites (detectFaults 5 50 false false (State.init (fun _ => 0xFF) [])).trace
      ≠ [(0, 0x01)] ∧
    acceptedWrites (detectFaults 5 50 true true
      (detectFaults 5 50 false false (State.init (fun _ => 0xFF) []))).trace = [(0, 0x01)] := by
  decide

/-- C7, amended: over any run of the main loop in which the peer sends no
DetectFaults byte, with arbitrary readings, pins and store outcomes, at most
one 0x01 entry is accepted, whether the run completes or stalls. From any
state with both flags false and the write cursor at most 0x07FF, a tick with
distance 5 and temperature 50 whose store write succeeds appends exactly the
0x01 entry, and a second tick with the same readings appends nothing. -/
theorem C7_distance_fault_once_per_session :
    (∀ (inputs : List LoopInputs) (s : State),
      (∀ b ∈ s.rx, b % 256 ≠ DETECT_FAULTS) →
      countAccepted 0x01 (main_loop inputs s).state.trace ≤ countAccepted 0x01 s.trace + 1) ∧
    (∀ (s : State) (wrT wrD2 wrT2 : Bool),
      s.g_distanceLogged = 0 → s.g_temperatureLogged = 0 → s.EEPROM_addressWrite ≤ 0x07FF →
      (detectFaults 5 50 true wrT s).trace =
        s.trace ++ [Event.eepromWrite s.EEPROM_addressWrite 0x01 true] ∧
      (detectFaults 5 50 wrD2 wrT2 (detectFaults 5 50 true wrT s)).trace =
        (detectFaults 5 50 true wrT s).trace) := by
  refine ⟨?_, ?_⟩
  · intro inputs s hrx
    have h := main_loop_distanceSession (countAccepted 0x01 s.trace) inputs s
      ⟨hrx, Or.inl rfl⟩
    rcases h.2 with h | h
    · omega
    · omega
  · intro s wrT wrD2 wrT2 hd ht hw
    have e1 : detectFaults 5 50 true wrT s =
        { s with g_distanceValue := 5, g_tempValue := 50,
                 eeprom := Function.update s.eeprom s.EEPROM_addressWrite 0x01,
                 trace := s.trace ++ [Event.eepromWrite s.EEPROM_addressWrite 0x01 true],
                 EEPROM_addressWrite := s.EEPROM_addressWrite + 1,
                 g_distanceLogged := 1 } := by
      rw [detectFaults_eq_mid]
      unfold detectFaults_mid
      rw [detectFaults_distance_hit true (detectFaults_sample 5 50 s)
        (by simp [detectFaults_sample]) hd hw]
      rw [detectFaults_overheat_miss]
      · simp [detectFaults_sample]
      · simp [detectFaults_sample]
    refine ⟨by rw [e1], ?_⟩
    rw [e1, detectFaults_eq_mid]
    unfold detectFaults_mid
    rw [detectFaults_distance_miss, detectFaults_overheat_miss]
    · simp [detectFaults_sample]
    · simp [detectFaults_sample]
    · simp [detectFaults_sample]

/-- Witness of C7: two loop iterations after a StartMonitoring byte, with
distance 5 and temperature 50, accept one 0x01 entry in all. -/
theorem C7_distance_fault_once_per_session_witness :
    countAccepted 0x01 (main_loop [LoopInputs.nominal 5 50, LoopInputs.nominal 5 50]
      (State.init (fun _ => 0xFF) [1])).state.trace ≤ 0 + 1 ∧
    (detectFaults 5 50 true true (State.init (fun _ => 0xFF) [1])).trace =
      [Event.eepromWrite 0 0x01 true] ∧
    (detectFaults 5 50 true true
      (detectFaults 5 50 true true (State.init (fun _ => 0xFF) [1]))).trace =
      (detectFaults 5 50 true true (State.init (fun _ => 0xFF) [1])).trace :=
  ⟨C7_distance_fault_once_per_session.1 [LoopInputs.nominal 5 50, LoopInputs.nominal 5 50]
      (State.init (fun _ => 0xFF) [1]) (by decide),
   (C7_distance_fault_once_per_session.2 (State.init (fun _ => 0xFF) [1]) true true true
      rfl rfl (by decide)).1,
   (C7_distance_fault_once_per_session.2 (State.init (fun _ => 0xFF) [1]) true true true
      rfl rfl (by decide)).2⟩

/-! ## Independence of the two checks -/

theorem detectFaults_mid_cursor (dist temp : Nat) (wrD : Bool) (s : State) :
    (detectFaults_mid dist temp wrD s).EEPROM_addressWrite = s.EEPROM_addressWrite ∨
    (s.EEPROM_addressWrite ≤ 0x07FF ∧
      (detectFaults_mid dist temp wrD s).EEPROM_addressWrite = s.EEPROM_addressWrite + 1) := by
  unfold detectFaults_mid
  by_cases hit : (detectFaults_sample dist temp s).g_distanceValue < 10 ∧
      s.g_distanceLogged = 0 ∧ s.EEPROM_addressWrite ≤ 0x07FF
  · rw [detectFaults_distance_hit wrD (detectFaults_sample dist temp s) hit.1 hit.2.1 hit.2.2]
    cases wrD
    · exact Or.inl rfl
    · exact Or.inr ⟨hit.2.2, rfl⟩
  · rw [detectFaults_distance_miss wrD (detectFaults_sample dist temp s) hit]
    exact Or.inl rfl

theorem detectFaults_overheat_outcome (wr : Bool) (m : State) :
    (detectFaults_overheat wr m).g_temperatureLogged =
      (if m.g_tempValue > 90 ∧ m.g_temperatureLogged = 0 ∧ m.EEPROM_addressWrite ≤ 0x07FF ∧
          wr = true then 1 else m.g_temperatureLogged) ∧
    countAccepted 0x02 (detectFaults_overheat wr m).trace =
      countAccepted 0x02 m.trace +
      (if m.g_tempValue > 90 ∧ m.g_temperatureLogged = 0 ∧ m.EEPROM_addressWrite ≤ 0x07FF ∧
          wr = true then 1 else 0) := by
  by_cases hit : m.g_tempValue > 90 ∧ m.g_temperatureLogged = 0 ∧ m.EEPROM_addressWrite ≤ 0x07FF
  · rw [detectFaults_overheat_hit wr m hit.1 hit.2.1 hit.2.2]
    cases wr <;> simp [hit, acceptedWrites_append, countAccepted, acceptedWrites]
  · rw [detectFaults_overheat_miss wr m hit]
    have hn : ¬ (m.g_tempValue > 90 ∧ m.g_temperatureLogged = 0 ∧
        m.EEPROM_addressWrite ≤ 0x07FF ∧ wr = true) :=
      fun h => hit ⟨h.1, h.2.1, h.2.2.1⟩
    simp [hn]

/-- C8 as stated fails: with the write cursor on the last slot 0x07FF and
temperature 95, a tick with distance 5 stores 0x01 there and drops the
overheat fault, while a tick with distance 20 stores 0x02 there. -/
theorem C8_last_slot_counterexample :
    (detectFaults 5 95 true true
      { State.init (fun _ => 0xFF) [] with EEPROM_addressWrite := 0x07FF }).g_temperatureLogged
      = 0 ∧
    (detectFaults 20 95 true true
      { State.init (fun _ => 0xFF) [] with EEPROM_addressWrite := 0x07FF }).g_temperatureLogged
      = 1 ∧
    acceptedWrites (detectFaults 5 95 true true
      { State.init (fun _ => 0xFF) [] with EEPROM_addressWrite := 0x07FF }).trace
      = [(0x07FF, 0x01)] ∧
    acceptedWrites (detectFaults 20 95 true true
      { State.init (fun _ => 0xFF) [] with EEPROM_addressWrite := 0x07FF }).trace
      = [(0x07FF, 0x02)] := by
  decide

/-- C8, amended: for every Control state whose write cursor is not 0x07FF,
every temperature and every outcome of the overheat write, two ticks that
differ in the distance reading (and in the outcome of the distance write)
end with the same temperatureLogged flag and accept the same number of 0x02
entries. -/
theorem C8_overheat_independent_of_distance (s : State) (temp d1 d2 : Nat)
    (wrT wrD1 wrD2 : Bool) (hw : s.EEPROM_addressWrite ≠ 0x07FF) :
    (detectFaults d1 temp wrD1 wrT s).g_temperatureLogged =
      (detectFaults d2 temp wrD2 wrT s).g_temperatureLogged ∧
    countAccepted 0x02 (detectFaults d1 temp wrD1 wrT s).trace =
      countAccepted 0x02 (detectFaults d2 temp wrD2 wrT s).trace := by
  have key : ∀ (d : Nat) (wrD : Bool),
      (detectFaults d temp wrD wrT s).g_temperatureLogged =
        (if temp % 256 > 90 ∧ s.g_temperatureLogged = 0 ∧ s.EEPROM_addressWrite ≤ 0x07FF ∧
            wrT = true then 1 else s.g_temperatureLogged) ∧
      countAccepted 0x02 (detectFaults d temp wrD wrT s).trace =
        countAccepted 0x02 s.trace +
        (if temp % 256 > 90 ∧ s.g_temperatureLogged = 0 ∧ s.EEPROM_addressWrite ≤ 0x07FF ∧
            wrT = true then 1 else 0) := by
    intro d wrD
    obtain ⟨f1, _, f3, _, _, f6⟩ := detectFaults_distance_frame wrD (detectFaults_sample d temp s)
    have g1 : (detectFaults_mid d temp wrD s).g_temperatureLogged = s.g_temperatureLogged := f1
    have g3 : (detectFaults_mid d temp wrD s).g_tempValue = temp % 256 := f3
    have g6 : countAccepted 0x02 (detectFaults_mid d temp wrD s).trace =
        countAccepted 0x02 s.trace := f6
    have gw : (detectFaults_mid d temp wrD s).EEPROM_addressWrite ≤ 0x07FF ↔
        s.EEPROM_addressWrite ≤ 0x07FF := by
      rcases detectFaults_mid_cursor d temp wrD s with h | h
      · rw [h]
      · rw [h.2]
        omega
    obtain ⟨o1, o2⟩ := detectFaults_overheat_outcome wrT (detectFaults_mid d temp wrD s)
    rw [detectFaults_eq_mid, o1, o2, g1, g3, g6]
    simp only [gw]
    exact ⟨trivial, trivial⟩
  exact ⟨(key d1 wrD1).1.trans (key d2 wrD2).1.symm, (key d1 wrD1).2.trans (key d2 wrD2).2.symm⟩

/-- Witness of C8: distances 5 and 20 in the reset state at temperature 95. -/
theorem C8_overheat_independent_of_distance_witness :
    (detectFaults 5 95 true true (State.init (fun _ => 0xFF) [])).g_temperatureLogged =
      (detectFaults 20 95 true true (State.init (fun _ => 0xFF) [])).g_temperatureLogged ∧
    countAccepted 0x02 (detectFaults 5 95 true true (State.init (fun _ => 0xFF) [])).trace =
      countAccepted 0x02 (detectFaults 20 95 true true (State.init (fun _ => 0xFF) [])).trace :=
  C8_overheat_independent_of_distance (State.init (fun _ => 0xFF) []) 95 5 20 true true true
    (by decide)

/-! ## Both thresholds breached in one tick -/

/-- C9 as stated fails: with both flags false, writes succeeding, distance 5
and temperature 95, but the write cursor on the last slot 0x07FF, the tick
appends 0x01 only; the overheat fault is dropped and its flag stays false. -/
theorem C9_last_slot_counterexample :
    acceptedWrites (detectFaults 5 95 true true
      { State.init (fun _ => 0xFF) [] with EEPROM_addressWrite := 0x07FF }).trace
      = [(0x07FF, 0x01)] ∧
    acceptedWrites (detectFaults 5 95 true true
      { State.init (fun _ => 0xFF) [] with EEPROM_addressWrite := 0x07FF }).trace
      ≠ [(0x07FF, 0x01), (0x0800, 0x02)] ∧
    (detectFaults 5 95 true true
      { State.init (fun _ => 0xFF) [] with EEPROM_addressWrite := 0x07FF }).g_temperatureLogged
      = 0 := by
  decide

/-- C9, amended: when both thresholds are breached in the same tick with both
flags false, store writes succeeding and the write cursor w at most 0x07FE,
`detectFaults` stores 0x01 at address w and then 0x02 at address w + 1, in that
order and nothing else, sets both flags and leaves the cursor at w + 2. -/
theorem C9_both_faults_in_order (s : State) (dist temp : Nat)
    (hd : dist < 10) (ht : 90 < temp) (ht2 : temp < 256)
    (hdl : s.g_distanceLogged = 0) (htl : s.g_temperatureLogged = 0)
    (hw : s.EEPROM_addressWrite ≤ 0x07FE) :
    (detectFaults dist temp true true s).trace =
      s.trace ++ [Event.eepromWrite s.EEPROM_addressWrite 0x01 true,
                  Event.eepromWrite (s.EEPROM_addressWrite + 1) 0x02 true] ∧
    (detectFaults dist temp true true s).eeprom =
      Function.update (Function.update s.eeprom s.EEPROM_addressWrite 0x01)
        (s.EEPROM_addressWrite + 1) 0x02 ∧
    (detectFaults dist temp true true s).g_distanceLogged = 1 ∧
    (detectFaults dist temp true true s).g_temperatureLogged = 1 ∧
    (detectFaults dist temp true true s).EEPROM_addressWrite = s.EEPROM_addressWrite + 2 := by
  have e1 : detectFaults_mid dist temp true s =
      { s with g_distanceValue := dist % 65536, g_tempValue := temp % 256,
               eeprom := Function.update s.eeprom s.EEPROM_addressWrite 0x01,
               trace := s.trace ++ [Event.eepromWrite s.EEPROM_addressWrite 0x01 true],
               EEPROM_addressWrite := s.EEPROM_addressWrite + 1,
               g_distanceLogged := 1 } := by
    unfold detectFaults_mid
    rw [detectFaults_distance_hit true (detectFaults_sample dist temp s)
      (by simp only [detectFaults_sample]; omega) hdl (by simp only [detectFaults_sample]; omega)]
    simp [detectFaults_sample]
  rw [detectFaults_eq_mid]
  rw [detectFaults_overheat_hit true (detectFaults_mid dist temp true s)
    (by rw [e1]; simp only []; omega) (by rw [e1]; exact htl)
    (by rw [e1]; simp only []; omega)]
  rw [e1]
  simp

/-- Witness of C9: distance 5 and temperature 95 on the empty log of the reset
state give the log [0x01, 0x02] at addresses 0 and 1. -/
theorem C9_both_faults_in_order_witness :
    acceptedWrites (detectFaults 5 95 true true (State.init (fun _ => 0xFF) [])).trace =
      [(0, 0x01), (1, 0x02)] ∧
    (detectFaults 5 95 true true (State.init (fun _ => 0xFF) [])).g_distanceLogged = 1 ∧
    (detectFaults 5 95 true true (State.init (fun _ => 0xFF) [])).g_temperatureLogged = 1 := by
  obtain ⟨h1, _, h3, h4, _⟩ := C9_both_faults_in_order (State.init (fun _ => 0xFF) []) 5 95
    (by decide) (by decide) (by decide) rfl rfl (by decide)
  refine ⟨?_, h3, h4⟩
  rw [h1]
  rfl

/-! ## Retry after a store failure -/

theorem detectFaults_failed_shape (dist temp : Nat) (s : State) :
    ∃ att, detectFaults dist temp false false s =
        { s with g_distanceValue := dist % 65536, g_tempValue := temp % 256,
                 trace := s.trace ++ att } ∧
      ∀ e ∈ att, e = Event.eepromWrite s.EEPROM_addressWrite 0x01 false ∨
        e = Event.eepromWrite s.EEPROM_addressWrite 0x02 false := by
  rw [detectFaults_eq_mid]
  unfold detectFaults_mid
  by_cases hitD : (detectFaults_sample dist temp s).g_distanceValue < 10 ∧
      (detectFaults_sample dist temp s).g_distanceLogged = 0 ∧
      (detectFaults_sample dist temp s).EEPROM_addressWrite ≤ 0x07FF
  · rw [detectFaults_distance_hit false (detectFaults_sample dist temp s) hitD.1 hitD.2.1
      hitD.2.2]
    simp only [Bool.false_eq_true, if_false]
    generalize hm : ({ detectFaults_sample dist temp s with
      trace := (detectFaults_sample dist temp s).trace ++
        [Event.eepromWrite (detectFaults_sample dist temp s).EEPROM_addressWrite 0x01 false] }
      : State) = m
    by_cases hitT : m.g_tempValue > 90 ∧ m.g_temperatureLogged = 0 ∧
        m.EEPROM_addressWrite ≤ 0x07FF
    · rw [detectFaults_overheat_hit false m hitT.1 hitT.2.1 hitT.2.2]
      refine ⟨[Event.eepromWrite s.EEPROM_addressWrite 0x01 false,
        Event.eepromWrite s.EEPROM_addressWrite 0x02 false], ?_, by simp⟩
      subst hm
      simp [detectFaults_sample]
    · rw [detectFaults_overheat_miss false m hitT]
      refine ⟨[Event.eepromWrite s.EEPROM_addressWrite 0x01 false], ?_, by simp⟩
      subst hm
      simp [detectFaults_sample]
  · rw [detectFaults_distance_miss false (detectFaults_sample dist temp s) hitD]
    generalize hm : detectFaults_sample dist temp s = m
    by_cases hitT : m.g_tempValue > 90 ∧ m.g_temperatureLogged = 0 ∧
        m.EEPROM_addressWrite ≤ 0x07FF
    · rw [detectFaults_overheat_hit false m hitT.1 hitT.2.1 hitT.2.2]
      refine ⟨[Event.eepromWrite s.EEPROM_addressWrite 0x02 false], ?_, by simp⟩
      subst hm
      simp [detectFaults_sample]
    · rw [detectFaults_overheat_miss false m hitT]
      refine ⟨[], ?_, by simp⟩
      subst hm
      simp [detectFaults_sample]

theorem failedTicks_shape (readings : List (Nat × Nat)) (s : State) :
    ∃ dv tv att, failedTicks readings s =
        { s with g_distanceValue := dv, g_tempValue := tv, trace := s.trace ++ att } ∧
      ∀ e ∈ att, e = Event.eepromWrite s.EEPROM_addressWrite 0x01 false ∨
        e = Event.eepromWrite s.EEPROM_addressWrite 0x02 false := by
  induction readings generalizing s with
  | nil => exact ⟨s.g_distanceValue, s.g_tempValue, [], by simp [failedTicks], by simp⟩
  | cons r rest ih =>
    obtain ⟨att1, e1, h1⟩ := detectFaults_failed_shape r.1 r.2 s
    obtain ⟨dv, tv, att2, e2, h2⟩ := ih (detectFaults r.1 r.2 false false s)
    refine ⟨dv, tv, att1 ++ att2, ?_, ?_⟩
    · simp only [failedTicks]
      rw [e2, e1]
      simp [List.append_assoc]
    · intro e he
      rcases List.mem_append.mp he with he | he
      · exact h1 e he
      · have := h2 e he
        rw [e1] at this
        exact this

theorem detectFaults_mid_failed_write (dist temp : Nat) (s : State) :
    (detectFaults_mid dist temp false s).g_distanceLogged = s.g_distanceLogged ∧
    (detectFaults_mid dist temp false s).EEPROM_addressWrite = s.EEPROM_addressWrite ∧
    (detectFaults_mid dist temp false s).eeprom = s.eeprom := by
  unfold detectFaults_mid
  by_cases hit : (detectFaults_sample dist temp s).g_distanceValue < 10 ∧
      (detectFaults_sample dist temp s).g_distanceLogged = 0 ∧
      (detectFaults_sample dist temp s).EEPROM_addressWrite ≤ 0x07FF
  · rw [detectFaults_distance_hit false (detectFaults_sample dist temp s) hit.1 hit.2.1 hit.2.2]
    simp [detectFaults_sample]
  · rw [detectFaults_distance_miss false (detectFaults_sample dist temp s) hit]
    simp [detectFaults_sample]

theorem detectFaults_mid_cursor_eq (dist temp : Nat) (wrD : Bool) (s : State) :
    (detectFaults_mid dist temp wrD s).EEPROM_addressWrite =
      (if dist % 65536 < 10 ∧ s.g_distanceLogged = 0 ∧ s.EEPROM_addressWrite ≤ 0x07FF ∧
          wrD = true then s.EEPROM_addressWrite + 1 else s.EEPROM_addressWrite) ∧
    (detectFaults_mid dist temp wrD s).g_temperatureLogged = s.g_temperatureLogged ∧
    (detectFaults_mid dist temp wrD s).g_tempValue = temp % 256 := by
  unfold detectFaults_mid
  by_cases hit : (detectFaults_sample dist temp s).g_distanceValue < 10 ∧
      (detectFaults_sample dist temp s).g_distanceLogged = 0 ∧
      (detectFaults_sample dist temp s).EEPROM_addressWrite ≤ 0x07FF
  · rw [detectFaults_distance_hit wrD (detectFaults_sample dist temp s) hit.1 hit.2.1 hit.2.2]
    have h1 : dist % 65536 < 10 := hit.1
    have h2 : s.g_distanceLogged = 0 := hit.2.1
    have h3 : s.EEPROM_addressWrite ≤ 0x07FF := hit.2.2
    cases wrD <;> simp [detectFaults_sample, h1, h2, h3]
  · rw [detectFaults_distance_miss wrD (detectFaults_sample dist temp s) hit]
    have hn : ¬ (dist % 65536 < 10 ∧ s.g_distanceLogged = 0 ∧ s.EEPROM_addressWrite ≤ 0x07FF ∧
        wrD = true) := fun h => hit ⟨h.1, h.2.1, h.2.2.1⟩
    rw [if_neg hn]
    exact ⟨rfl, rfl, rfl⟩

/-- C10, counterexample: from the reset state a tick with distance 5 and
temperature 95 whose two store writes fail attempts 0x01 and 0x02, both at
address 0, and leaves the cursor at 0. In the next tick, with the same
readings, both writes succeed: 0x01 is attempted at address 0 again, but 0x02
is attempted at address 1, not at the address of its failed attempt, and the
cursor ends at 2. -/
theorem C10_overheat_retry_address_counterexample :
    (failedTicks [(5, 95)] (State.init (fun _ => 0xFF) [])).trace =
      [Event.eepromWrite 0 0x01 false, Event.eepromWrite 0 0x02 false] ∧
    (failedTicks [(5, 95)] (State.init (fun _ => 0xFF) [])).EEPROM_addressWrite = 0 ∧
    (detectFaults 5 95 true true
      (failedTicks [(5, 95)] (State.init (fun _ => 0xFF) []))).trace =
      [Event.eepromWrite 0 0x01 false, Event.eepromWrite 0 0x02 false,
       Event.eepromWrite 0 0x01 true, Event.eepromWrite 1 0x02 true] ∧
    (detectFaults 5 95 true true
      (failedTicks [(5, 95)] (State.init (fun _ => 0xFF) []))).EEPROM_addressWrite = 2 := by
  decide

/-- C10, amended: after any number of consecutive ticks whose store writes
all fail, with arbitrary readings, the write cursor, both logged flags and the
store are what they were at the start. In the next tick, whatever its write
outcomes: 0x01 is attempted at the starting cursor when the distance threshold
is breached; 0x02 is attempted, when the overheat threshold is breached, at
the starting cursor if the distance block appends nothing in that tick and at
the starting cursor plus one if the distance write of that tick succeeds. A
failed attempt leaves cursor and flag as they are; each successful one sets
its flag and advances the cursor by exactly one. -/
theorem C10_store_failure_retry (readings : List (Nat × Nat)) (s : State) :
    ((failedTicks readings s).EEPROM_addressWrite = s.EEPROM_addressWrite ∧
      (failedTicks readings s).g_distanceLogged = s.g_distanceLogged ∧
      (failedTicks readings s).g_temperatureLogged = s.g_temperatureLogged ∧
      (failedTicks readings s).eeprom = s.eeprom ∧
      acceptedWrites (failedTicks readings s).trace = acceptedWrites s.trace) ∧
    (∀ (dist temp : Nat) (wrD : Bool),
      dist < 10 → s.g_distanceLogged = 0 → s.EEPROM_addressWrite ≤ 0x07FF →
      (detectFaults_mid dist temp wrD (failedTicks readings s)).trace =
        (failedTicks readings s).trace ++
          [Event.eepromWrite s.EEPROM_addressWrite 0x01 wrD] ∧
      (detectFaults_mid dist temp wrD (failedTicks readings s)).EEPROM_addressWrite =
        (if wrD then s.EEPROM_addressWrite + 1 else s.EEPROM_addressWrite) ∧
      (detectFaults_mid dist temp wrD (failedTicks readings s)).g_distanceLogged =
        (if wrD then 1 else 0)) ∧
    (∀ (dist temp : Nat) (wrD wrT : Bool),
      90 < temp → temp < 256 → s.g_temperatureLogged = 0 →
      (if dist % 65536 < 10 ∧ s.g_distanceLogged = 0 ∧ s.EEPROM_addressWrite ≤ 0x07FF ∧
          wrD = true then s.EEPROM_addressWrite + 1 else s.EEPROM_addressWrite) ≤ 0x07FF →
      (detectFaults dist temp wrD wrT (failedTicks readings s)).trace =
        (detectFaults_mid dist temp wrD (failedTicks readings s)).trace ++
          [Event.eepromWrite
            (if dist % 65536 < 10 ∧ s.g_distanceLogged = 0 ∧ s.EEPROM_addressWrite ≤ 0x07FF ∧
                wrD = true then s.EEPROM_addressWrite + 1 else s.EEPROM_addressWrite)
            0x02 wrT] ∧
      (detectFaults dist temp wrD wrT (failedTicks readings s)).EEPROM_addressWrite =
        (detectFaults_mid dist temp wrD (failedTicks readings s)).EEPROM_addressWrite +
          (if wrT then 1 else 0) ∧
      (detectFaults_mid dist temp wrD (failedTicks readings s)).EEPROM_addressWrite =
        (if dist % 65536 < 10 ∧ s.g_distanceLogged = 0 ∧ s.EEPROM_addressWrite ≤ 0x07FF ∧
          wrD = true then s.EEPROM_addressWrite + 1 else s.EEPROM_addressWrite) ∧
      (detectFaults dist temp wrD wrT (failedTicks readings s)).g_temperatureLogged =
        (if wrT then 1 else 0)) := by
  obtain ⟨dv, tv, att, e, hatt⟩ := failedTicks_shape readings s
  generalize failedTicks readings s = u at e ⊢
  have hw : u.EEPROM_addressWrite = s.EEPROM_addressWrite := by rw [e]
  have hdl : u.g_distanceLogged = s.g_distanceLogged := by rw [e]
  have htl : u.g_temperatureLogged = s.g_temperatureLogged := by rw [e]
  have hee : u.eeprom = s.eeprom := by rw [e]
  have hacc : acceptedWrites u.trace = acceptedWrites s.trace := by
    rw [e]
    simp only [acceptedWrites_append]
    have : acceptedWrites att = [] := by
      clear e
      induction att with
      | nil => rfl
      | cons a tl ih =>
        rcases hatt a (List.mem_cons_self a tl) with h | h <;>
          · rw [h]
            simpa [acceptedWrites] using ih (fun x hx => hatt x (List.mem_cons_of_mem a hx))
    rw [this, List.append_nil]
  refine ⟨⟨hw, hdl, htl, hee, hacc⟩, ?_, ?_⟩
  · intro dist temp wrD h1 h2 h3
    unfold detectFaults_mid
    rw [detectFaults_distance_hit wrD (detectFaults_sample dist temp u)
      (by simp only [detectFaults_sample]; omega)
      (by simp only [detectFaults_sample]; rw [hdl]; exact h2)
      (by simp only [detectFaults_sample]; rw [hw]; exact h3)]
    cases wrD <;> simp [detectFaults_sample, hw, hdl, h2]
  · intro dist temp wrD wrT h1 h2 h3 h4
    obtain ⟨gw, gt, gv⟩ := detectFaults_mid_cursor_eq dist temp wrD u
    rw [hw, hdl] at gw
    rw [htl, h3] at gt
    have g3 : (detectFaults_mid dist temp wrD u).g_tempValue > 90 := by
      rw [gv]
      omega
    rw [detectFaults_eq_mid]
    rw [detectFaults_overheat_hit wrT (detectFaults_mid dist temp wrD u) g3 gt
      (by rw [gw]; exact h4)]
    rw [← gw]
    cases wrT <;> simp [gt]

/-- Witness of C10: three failed ticks with distance 5 and temperature 95 from
the reset state leave the cursor at 0; the fourth tick attempts 0x01 at
address 0 again and, succeeding, moves the cursor to 1; when its distance
write fails again and its overheat write succeeds the cursor also ends at 1,
and when both succeed it ends at 2. -/
theorem C10_store_failure_retry_witness :
    (failedTicks [(5, 95), (5, 95), (5, 95)] (State.init (fun _ => 0xFF) [])).EEPROM_addressWrite
      = 0 ∧
    (detectFaults_mid 5 95 true
      (failedTicks [(5, 95), (5, 95), (5, 95)] (State.init (fun _ => 0xFF) []))).trace =
      (failedTicks [(5, 95), (5, 95), (5, 95)] (State.init (fun _ => 0xFF) [])).trace ++
        [Event.eepromWrite 0 0x01 true] ∧
    (detectFaults_mid 5 95 true
      (failedTicks [(5, 95), (5, 95), (5, 95)]
        (State.init (fun _ => 0xFF) []))).EEPROM_addressWrite = 1 ∧
    (detectFaults 5 95 false true
      (failedTicks [(5, 95), (5, 95), (5, 95)]
        (State.init (fun _ => 0xFF) []))).g_temperatureLogged = 1 ∧
    (detectFaults 5 95 true true
      (failedTicks [(5, 95), (5, 95), (5, 95)]
        (State.init (fun _ => 0xFF) []))).g_temperatureLogged = 1 :=
  ⟨(C10_store_failure_retry [(5, 95), (5, 95), (5, 95)] (State.init (fun _ => 0xFF) [])).1.1,
   ((C10_store_failure_retry [(5, 95), (5, 95), (5, 95)] (State.init (fun _ => 0xFF) [])).2.1
      5 95 true (by decide) rfl (by decide)).1,
   ((C10_store_failure_retry [(5, 95), (5, 95), (5, 95)] (State.init (fun _ => 0xFF) [])).2.1
      5 95 true (by decide) rfl (by decide)).2.1,
   ((C10_store_failure_retry [(5, 95), (5, 95), (5, 95)] (State.init (fun _ => 0xFF) [])).2.2
      5 95 false true (by decide) (by decide) rfl (by decide)).2.2.2,
   ((C10_store_failure_retry [(5, 95), (5, 95), (5, 95)] (State.init (fun _ => 0xFF) [])).2.2
      5 95 true true (by decide) (by decide) rfl (by decide)).2.2.2⟩

/-! ## The read-out loop never runs out of fuel -/

theorem waitAckRx_length (rx rest : List Nat) (h : waitAckRx rx = some rest) :
    rest.length < rx.length := by
  induction rx with
  | nil => simp [waitAckRx] at h
  | cons a tl ih =>
    by_cases ha : a % 256 = ACK
    · simp only [waitAckRx, ha, if_true, Option.some.injEq] at h
      rw [← h]
      simp
    · simp only [waitAckRx, ha, if_false] at h
      have := ih h
      simp only [List.length_cons]
      omega

theorem sendAcked_done_rx_length (b : Nat) (s s1 : State) (h : sendAcked b s = Run.done s1) :
    s1.rx.length < s.rx.length := by
  unfold sendAcked UART_waitAck at h
  cases hw : waitAckRx (UART_sendByte b s).rx with
  | none => simp [hw] at h
  | some rest =>
    simp only [hw, Run.done.injEq] at h
    rw [← h]
    exact waitAckRx_length s.rx rest hw

theorem EEPROM_readByte_rx (ok : Bool) (addr : Nat) (s : State) :
    (EEPROM_readByte ok addr s).2.2.rx = s.rx := by
  unfold EEPROM_readByte
  cases ok <;> rfl

/-- Any two amounts of fuel above the number of pending bytes give the same
run of the read-out loop. -/
theorem CONTROL_sendFaults_loop_fuel (rdOk : Nat → Bool) (n m : Nat) (s : State)
    (hn : s.rx.length < n) (hm : s.rx.length < m) :
    CONTROL_sendFaults_loop rdOk n s = CONTROL_sendFaults_loop rdOk m s := by
  induction n generalizing m s with
  | zero => omega
  | succ n ih =>
    cases m with
    | zero => omega
    | succ m =>
      simp only [CONTROL_sendFaults_loop]
      split
      · split
        · split
          · rfl
          · cases hsa : sendAcked
                (EEPROM_readByte (rdOk s.EEPROM_addressRead) s.EEPROM_addressRead s).2.1
                (EEPROM_readByte (rdOk s.EEPROM_addressRead) s.EEPROM_addressRead s).2.2 with
            | stuck s1 => rfl
            | done s1 =>
              have hl := sendAcked_done_rx_length _ _ _ hsa
              rw [EEPROM_readByte_rx] at hl
              simp only [Run.bind]
              exact ih _ _ (by simp only []; omega) (by simp only []; omega)
        · rfl
      · rfl

/-! ## What leaves the fault log alone -/

theorem storeWrites_append (l1 l2 : List Event) :
    storeWrites (l1 ++ l2) = storeWrites l1 ++ storeWrites l2 := by
  induction l1 with
  | nil => rfl
  | cons e es ih => cases e <;> simp [storeWrites, ih]

theorem readAddrs_append (l1 l2 : List Event) :
    readAddrs (l1 ++ l2) = readAddrs l1 ++ readAddrs l2 := by
  induction l1 with
  | nil => rfl
  | cons e es ih => cases e <;> simp [readAddrs, ih]

theorem acceptedWrites_storeWrites (es : List Event) :
    acceptedWrites (storeWrites es) = acceptedWrites es := by
  induction es with
  | nil => rfl
  | cons e es ih =>
    cases e with
    | eepromWrite a b ok => cases ok <;> simp [storeWrites, acceptedWrites, ih]
    | _ => simp [storeWrites, acceptedWrites, ih]

theorem Control_ECU.SameLogCore.coreRefl (s : State) : SameLogCore s s := rfl

theorem Control_ECU.SameLogCore.coreTrans {a b c : State} (h1 : SameLogCore a b)
    (h2 : SameLogCore b c) : SameLogCore a c := by
  unfold SameLogCore at *
  rw [h2, h1]

/-- Reading off a preserved log part field by field. -/
theorem Control_ECU.SameLogCore.fields {s s1 : State} (h : SameLogCore s s1) :
    s1.g_Monitoring = s.g_Monitoring ∧ s1.g_distanceLogged = s.g_distanceLogged ∧
    s1.g_temperatureLogged = s.g_temperatureLogged ∧
    s1.EEPROM_addressWrite = s.EEPROM_addressWrite ∧ s1.eeprom = s.eeprom ∧
    storeWrites s1.trace = storeWrites s.trace ∧
    acceptedWrites s1.trace = acceptedWrites s.trace := by
  unfold SameLogCore State.logCore at h
  simp only [LogCore.mk.injEq] at h
  obtain ⟨h1, h2, h3, h4, h5, h6⟩ := h
  refine ⟨h1, h2, h3, h4, h5, h6, ?_⟩
  rw [← acceptedWrites_storeWrites s1.trace, h6, acceptedWrites_storeWrites]

theorem UART_sendByte_sameLogCore (b : Nat) (s : State) : SameLogCore s (UART_sendByte b s) := by
  simp [SameLogCore, State.logCore, UART_sendByte, storeWrites_append, storeWrites]

theorem UART_waitAck_sameLogCore (s : State) : SameLogCore s (UART_waitAck s).state := by
  unfold UART_waitAck
  cases waitAckRx s.rx <;> rfl

theorem sendAcked_sameLogCore (b : Nat) (s : State) : SameLogCore s (sendAcked b s).state :=
  (UART_sendByte_sameLogCore b s).coreTrans (UART_waitAck_sameLogCore _)

theorem CONTROL_sendPack_sameLogCore (t : Nat) (s : State) :
    SameLogCore s (CONTROL_sendPack t s).state :=
  CONTROL_sendPack_rel SameLogCore (fun _ _ _ => SameLogCore.coreTrans)
    (fun _ _ => rfl) sendAcked_sameLogCore t s

theorem EEPROM_readByte_sameLogCore (ok : Bool) (a : Nat) (s : State) :
    SameLogCore s (EEPROM_readByte ok a s).2.2 := by
  unfold EEPROM_readByte
  cases ok <;> simp [SameLogCore, State.logCore, storeWrites_append, storeWrites]

/-- Whatever holds across an EEPROM read, an acknowledged send and a change of
the read cursor, and is reflexive and transitive, holds across the read-out
loop. -/
theorem CONTROL_sendFaults_loop_rel (R : State → State → Prop)
    (hrefl : ∀ a, R a a) (htrans : ∀ a b c, R a b → R b c → R a c)
    (hread : ∀ (ok : Bool) (a : Nat) (s : State), R s (EEPROM_readByte ok a s).2.2)
    (hsend : ∀ (b : Nat) (s : State), R s (sendAcked b s).state)
    (hcur : ∀ (s : State) (v : Nat), R s { s with EEPROM_addressRead := v })
    (rdOk : Nat → Bool) (fuel : Nat) (s : State) :
    R s (CONTROL_sendFaults_loop rdOk fuel s).state := by
  induction fuel generalizing s with
  | zero => exact hrefl s
  | succ n ih =>
    unfold CONTROL_sendFaults_loop
    by_cases hc : s.EEPROM_addressRead ≤ s.EEPROM_addressWrite
    · rw [if_pos hc]
      have hr := hread (rdOk s.EEPROM_addressRead) s.EEPROM_addressRead s
      simp only []
      split
      · split
        · exact hr
        · have hs := htrans _ _ _ hr (hsend
            (EEPROM_readByte (rdOk s.EEPROM_addressRead) s.EEPROM_addressRead s).2.1
            (EEPROM_readByte (rdOk s.EEPROM_addressRead) s.EEPROM_addressRead s).2.2)
          refine Run.bind_state (R s) _ _ hs ?_
          intro s1 e1
          rw [e1] at hs
          exact htrans _ _ _ (htrans _ _ _ hs (hcur s1 _)) (ih _)
      · exact hr
    · rw [if_neg hc]
      exact hrefl s

theorem CONTROL_sendFaults_loop_sameLogCore (rdOk : Nat → Bool) (fuel : Nat) (s : State) :
    SameLogCore s (CONTROL_sendFaults_loop rdOk fuel s).state :=
  CONTROL_sendFaults_loop_rel SameLogCore SameLogCore.coreRefl
    (fun _ _ _ => SameLogCore.coreTrans) EEPROM_readByte_sameLogCore sendAcked_sameLogCore
    (fun _ _ => rfl) rdOk fuel s

theorem CONTROL_winState_sameLogCore (b : Buttons) (s : State) :
    SameLogCore s (CONTROL_winState b s) := by
  have h1 : SameLogCore s (CONTROL_winState_win1 b s) := by
    unfold CONTROL_winState_win1
    split
    · simp [SameLogCore, State.logCore, storeWrites_append, storeWrites]
    · split
      · simp [SameLogCore, State.logCore, storeWrites_append, storeWrites]
      · rfl
  have h2 : SameLogCore (CONTROL_winState_win1 b s)
      (CONTROL_winState_win2 b (CONTROL_winState_win1 b s)) := by
    generalize CONTROL_winState_win1 b s = u
    unfold CONTROL_winState_win2
    split
    · simp [SameLogCore, State.logCore, storeWrites_append, storeWrites]
    · split
      · simp [SameLogCore, State.logCore, storeWrites_append, storeWrites]
      · rfl
  exact h1.coreTrans h2

theorem readSensors_sameLogCore (dist temp : Nat) (b : Buttons) (s : State) :
    SameLogCore s (readSensors dist temp b s) := by
  unfold readSensors
  have h0 : SameLogCore s
      { s with g_distanceValue := dist % 65536, g_tempValue := temp % 256 } := rfl
  exact h0.coreTrans (CONTROL_winState_sameLogCore b _)

theorem CONTROL_sendFaults_stuck_logCore (rdOk : Nat → Bool) (s u : State)
    (h : CONTROL_sendFaults rdOk s = Run.stuck u) : SameLogCore s u := by
  unfold CONTROL_sendFaults at h
  simp only [] at h
  have hl := CONTROL_sendFaults_loop_sameLogCore rdOk (s.rx.length + 1)
    { s with EEPROM_addressRead := 0x0000 }
  cases hloop : CONTROL_sendFaults_loop rdOk (s.rx.length + 1)
      { s with EEPROM_addressRead := 0x0000 } with
  | stuck u1 =>
    rw [hloop] at h hl
    simp only [Run.bind, Run.stuck.injEq] at h
    rw [← h]
    exact hl
  | done u1 =>
    rw [hloop] at h hl
    simp only [Run.bind] at h
    have he := sendAcked_sameLogCore END_BYTE u1
    cases hend : sendAcked END_BYTE u1 with
    | stuck u2 =>
      rw [hend] at h he
      simp only [Run.stuck.injEq] at h
      rw [← h]
      exact SameLogCore.coreTrans hl he
    | done u2 =>
      rw [hend] at h
      simp only [] at h
      split at h <;> simp at h

theorem CONTROL_sendFaults_done_logCore (rdOk : Nat → Bool) (s u : State)
    (h : CONTROL_sendFaults rdOk s = Run.done u) :
    u.logCore = { s.logCore with
      EEPROM_addressWrite := if s.EEPROM_addressWrite > 0x07FF then 0 else s.EEPROM_addressWrite }
    := by
  unfold CONTROL_sendFaults at h
  simp only [] at h
  have hl := CONTROL_sendFaults_loop_sameLogCore rdOk (s.rx.length + 1)
    { s with EEPROM_addressRead := 0x0000 }
  cases hloop : CONTROL_sendFaults_loop rdOk (s.rx.length + 1)
      { s with EEPROM_addressRead := 0x0000 } with
  | stuck u1 =>
    rw [hloop] at h
    simp [Run.bind] at h
  | done u1 =>
    rw [hloop] at h hl
    simp only [Run.bind] at h
    have he := sendAcked_sameLogCore END_BYTE u1
    cases hend : sendAcked END_BYTE u1 with
    | stuck u2 =>
      rw [hend] at h
      simp at h
    | done u2 =>
      rw [hend] at h he
      simp only [] at h
      have h2 : SameLogCore s u2 := SameLogCore.coreTrans hl he
      have hw : u2.EEPROM_addressWrite = s.EEPROM_addressWrite := h2.fields.2.2.2.1
      have hc : u2.logCore = s.logCore := h2
      by_cases hf : u2.EEPROM_addressWrite > EEPROM_MAX_ADDRESS
      · rw [if_pos hf, Run.done.injEq] at h
        have hf2 : s.EEPROM_addressWrite > 0x07FF := by rw [← hw]; exact hf
        rw [if_pos hf2, ← h, ← hc]
        rfl
      · rw [if_neg hf, Run.done.injEq] at h
        have hf2 : ¬ s.EEPROM_addressWrite > 0x07FF := by rw [← hw]; exact hf
        rw [if_neg hf2, ← h, hc]
        rfl

theorem main_command_start (b temp : Nat) (rdOk : Nat → Bool) (s : State)
    (hb : b % 256 = START_MONITORING) :
    ∃ u, main_command b temp rdOk s = Run.done u ∧
      u.logCore = { s.logCore with g_Monitoring := 1 } := by
  refine ⟨_, by simp only [main_command, main_switch, hb, if_true]; rfl, ?_⟩
  simp [State.logCore, DcMotor_Init, Ultrasonic_init, UART_sendByte, storeWrites_append,
    storeWrites]

theorem main_command_stop (b temp : Nat) (rdOk : Nat → Bool) (s : State)
    (hb : b % 256 = STOP_MONITORING) :
    ∃ u, main_command b temp rdOk s = Run.done u ∧
      u.logCore = { s.logCore with g_Monitoring := 0 } := by
  refine ⟨{ UART_sendByte ACK s with g_Monitoring := 0 }, ?_, ?_⟩
  · simp [main_command, main_switch, hb, START_MONITORING, DISPLAY_VALUES, DETECT_FAULTS,
      STOP_MONITORING]
  · simp [State.logCore, UART_sendByte, storeWrites_append, storeWrites]

theorem main_command_other_sameLogCore (b temp : Nat) (rdOk : Nat → Bool) (s : State)
    (h1 : b % 256 ≠ START_MONITORING) (h3 : b % 256 ≠ DETECT_FAULTS)
    (h4 : b % 256 ≠ STOP_MONITORING) :
    SameLogCore s (main_command b temp rdOk s).state := by
  refine (UART_sendByte_sameLogCore ACK s).coreTrans ?_
  unfold main_command
  simp only []
  generalize UART_sendByte ACK s = u
  unfold main_switch
  rw [if_neg h1]
  by_cases h2 : b % 256 = DISPLAY_VALUES
  · rw [if_pos h2]
    exact CONTROL_sendPack_sameLogCore temp u
  · rw [if_neg h2, if_neg h3, if_neg h4]
    exact SameLogCore.coreRefl u

theorem main_command_detect_stuck (b temp : Nat) (rdOk : Nat → Bool) (s u : State)
    (hb : b % 256 = DETECT_FAULTS) (h : main_command b temp rdOk s = Run.stuck u) :
    SameLogCore s u := by
  have h0 := UART_sendByte_sameLogCore ACK s
  unfold main_command main_switch at h
  simp only [hb, DETECT_FAULTS, START_MONITORING, DISPLAY_VALUES, if_true,
    show ¬ (3 = 1) by decide, show ¬ (3 = 2) by decide, if_false] at h
  cases hsf : CONTROL_sendFaults rdOk (UART_sendByte ACK s) with
  | stuck u1 =>
    rw [hsf] at h
    simp only [Run.bind, Run.stuck.injEq] at h
    rw [← h]
    exact h0.coreTrans (CONTROL_sendFaults_stuck_logCore rdOk _ _ hsf)
  | done u1 =>
    rw [hsf] at h
    simp [Run.bind] at h

theorem main_command_detect_done (b temp : Nat) (rdOk : Nat → Bool) (s u : State)
    (hb : b % 256 = DETECT_FAULTS) (h : main_command b temp rdOk s = Run.done u) :
    u.logCore = { s.logCore with
      g_distanceLogged := 0, g_temperatureLogged := 0,
      EEPROM_addressWrite := if s.EEPROM_addressWrite > 0x07FF then 0 else s.EEPROM_addressWrite }
    := by
  have h0 : (UART_sendByte ACK s).logCore = s.logCore := UART_sendByte_sameLogCore ACK s
  unfold main_command main_switch at h
  simp only [hb, DETECT_FAULTS, START_MONITORING, DISPLAY_VALUES, if_true,
    show ¬ (3 = 1) by decide, show ¬ (3 = 2) by decide, if_false] at h
  cases hsf : CONTROL_sendFaults rdOk (UART_sendByte ACK s) with
  | stuck u1 =>
    rw [hsf] at h
    simp [Run.bind] at h
  | done u1 =>
    rw [hsf] at h
    simp only [Run.bind, Run.done.injEq] at h
    have hc := CONTROL_sendFaults_done_logCore rdOk _ _ hsf
    rw [h0] at hc
    have hw : (UART_sendByte ACK s).EEPROM_addressWrite = s.EEPROM_addressWrite := rfl
    rw [hw] at hc
    rw [← h]
    simp only [State.logCore, LogCore.mk.injEq] at hc ⊢
    obtain ⟨c1, _, _, c4, c5, c6⟩ := hc
    exact ⟨c1, trivial, trivial, c4, c5, c6⟩

/-! ## The write cursor -/

theorem detectFaults_distance_step (wr : Bool) (s : State) :
    (detectFaults_distance wr s).g_Monitoring = s.g_Monitoring ∧
    ((acceptedWrites (detectFaults_distance wr s).trace = acceptedWrites s.trace ∧
        (detectFaults_distance wr s).EEPROM_addressWrite = s.EEPROM_addressWrite) ∨
      (s.EEPROM_addressWrite ≤ 0x07FF ∧
        acceptedWrites (detectFaults_distance wr s).trace =
          acceptedWrites s.trace ++ [(s.EEPROM_addressWrite, 0x01)] ∧
        (detectFaults_distance wr s).EEPROM_addressWrite = s.EEPROM_addressWrite + 1)) := by
  by_cases hit : s.g_distanceValue < 10 ∧ s.g_distanceLogged = 0 ∧ s.EEPROM_addressWrite ≤ 0x07FF
  · rw [detectFaults_distance_hit wr s hit.1 hit.2.1 hit.2.2]
    cases wr
    · exact ⟨rfl, Or.inl ⟨by simp [acceptedWrites_append, acceptedWrites], rfl⟩⟩
    · exact ⟨rfl, Or.inr ⟨hit.2.2, by simp [acceptedWrites_append, acceptedWrites], rfl⟩⟩
  · rw [detectFaults_distance_miss wr s hit]
    exact ⟨rfl, Or.inl ⟨rfl, rfl⟩⟩

theorem detectFaults_overheat_step (wr : Bool) (s : State) :
    (detectFaults_overheat wr s).g_Monitoring = s.g_Monitoring ∧
    ((acceptedWrites (detectFaults_overheat wr s).trace = acceptedWrites s.trace ∧
        (detectFaults_overheat wr s).EEPROM_addressWrite = s.EEPROM_addressWrite) ∨
      (s.EEPROM_addressWrite ≤ 0x07FF ∧
        acceptedWrites (detectFaults_overheat wr s).trace =
          acceptedWrites s.trace ++ [(s.EEPROM_addressWrite, 0x02)] ∧
        (detectFaults_overheat wr s).EEPROM_addressWrite = s.EEPROM_addressWrite + 1)) := by
  by_cases hit : s.g_tempValue > 90 ∧ s.g_temperatureLogged = 0 ∧ s.EEPROM_addressWrite ≤ 0x07FF
  · rw [detectFaults_overheat_hit wr s hit.1 hit.2.1 hit.2.2]
    cases wr
    · exact ⟨rfl, Or.inl ⟨by simp [acceptedWrites_append, acceptedWrites], rfl⟩⟩
    · exact ⟨rfl, Or.inr ⟨hit.2.2, by simp [acceptedWrites_append, acceptedWrites], rfl⟩⟩
  · rw [detectFaults_overheat_miss wr s hit]
    exact ⟨rfl, Or.inl ⟨rfl, rfl⟩⟩

/-- The entries a tick appends are stored at consecutive addresses from the
write cursor on, each at most 0x07FF, and the cursor moves by their number. -/
theorem detectFaults_appended (dist temp : Nat) (wrD wrT : Bool) (s : State) :
    (detectFaults dist temp wrD wrT s).g_Monitoring = s.g_Monitoring ∧
    ∃ new, acceptedWrites (detectFaults dist temp wrD wrT s).trace =
        acceptedWrites s.trace ++ new ∧
      consecutiveFrom s.EEPROM_addressWrite new ∧
      (∀ w ∈ new, w.1 ≤ 0x07FF) ∧
      (detectFaults dist temp wrD wrT s).EEPROM_addressWrite =
        s.EEPROM_addressWrite + new.length := by
  rw [detectFaults_eq_mid]
  obtain ⟨m1, h1⟩ := detectFaults_distance_step wrD (detectFaults_sample dist temp s)
  obtain ⟨m2, h2⟩ := detectFaults_overheat_step wrT (detectFaults_mid dist temp wrD s)
  have e0 : (detectFaults_sample dist temp s).EEPROM_addressWrite = s.EEPROM_addressWrite := rfl
  have e1 : (detectFaults_sample dist temp s).trace = s.trace := rfl
  have e2 : (detectFaults_sample dist temp s).g_Monitoring = s.g_Monitoring := rfl
  rw [e0, e1] at h1
  refine ⟨by rw [m2]; unfold detectFaults_mid; rw [m1, e2], ?_⟩
  unfold detectFaults_mid at h2 ⊢
  rcases h1 with ⟨a1, w1⟩ | ⟨c1, a1, w1⟩
  · rcases h2 with ⟨a2, w2⟩ | ⟨c2, a2, w2⟩
    · exact ⟨[], by rw [a2, a1, List.append_nil], trivial, by simp, by rw [w2, w1]; rfl⟩
    · rw [w1] at c2 a2 w2
      refine ⟨[(s.EEPROM_addressWrite, 0x02)], by rw [a2, a1], ⟨rfl, trivial⟩, ?_,
        by rw [w2]; rfl⟩
      intro w hw
      simp only [List.mem_singleton] at hw
      rw [hw]
      exact c2
  · rcases h2 with ⟨a2, w2⟩ | ⟨c2, a2, w2⟩
    · refine ⟨[(s.EEPROM_addressWrite, 0x01)], by rw [a2, a1], ⟨rfl, trivial⟩, ?_,
        by rw [w2, w1]; rfl⟩
      intro w hw
      simp only [List.mem_singleton] at hw
      rw [hw]
      exact c1
    · rw [w1] at c2 a2 w2
      refine ⟨[(s.EEPROM_addressWrite, 0x01), (s.EEPROM_addressWrite + 1, 0x02)],
        by rw [a2, a1, List.append_assoc]; rfl, ⟨rfl, rfl, trivial⟩, ?_, by rw [w2]; rfl⟩
      intro w hw
      simp only [List.mem_cons, List.mem_singleton, List.not_mem_nil, or_false] at hw
      rcases hw with hw | hw
      · rw [hw]; exact c1
      · rw [hw]; exact c2

theorem detectFaults_cursor_le (dist temp : Nat) (wrD wrT : Bool) (s : State)
    (h : s.EEPROM_addressWrite ≤ 2048) :
    (detectFaults dist temp wrD wrT s).EEPROM_addressWrite ≤ 2048 := by
  have hmid := detectFaults_mid_cursor dist temp wrD s
  have hov := (detectFaults_overheat_step wrT (detectFaults_mid dist temp wrD s)).2
  rw [← detectFaults_eq_mid] at hov
  rcases hmid with hm | hm <;> rcases hov with ho | ho <;> omega

theorem main_command_cursor (b temp : Nat) (rdOk : Nat → Bool) (s : State) :
    (b % 256 ≠ DETECT_FAULTS →
      (main_command b temp rdOk s).state.EEPROM_addressWrite = s.EEPROM_addressWrite) ∧
    (b % 256 = DETECT_FAULTS →
      (main_command b temp rdOk s).state.EEPROM_addressWrite = s.EEPROM_addressWrite ∨
      (s.EEPROM_addressWrite > 0x07FF ∧
        (main_command b temp rdOk s).state.EEPROM_addressWrite = 0)) := by
  refine ⟨?_, ?_⟩
  · intro h3
    by_cases h1 : b % 256 = START_MONITORING
    · obtain ⟨u, e, hc⟩ := main_command_start b temp rdOk s h1
      rw [e]
      exact congrArg LogCore.EEPROM_addressWrite hc
    · by_cases h4 : b % 256 = STOP_MONITORING
      · obtain ⟨u, e, hc⟩ := main_command_stop b temp rdOk s h4
        rw [e]
        exact congrArg LogCore.EEPROM_addressWrite hc
      · exact (main_command_other_sameLogCore b temp rdOk s h1 h3 h4).fields.2.2.2.1
  · intro h3
    cases hr : main_command b temp rdOk s with
    | stuck u =>
      exact Or.inl (main_command_detect_stuck b temp rdOk s u h3 hr).fields.2.2.2.1
    | done u =>
      have hc := congrArg LogCore.EEPROM_addressWrite
        (main_command_detect_done b temp rdOk s u h3 hr)
      simp only [State.logCore, Run.state] at hc ⊢
      by_cases hf : s.EEPROM_addressWrite > 0x07FF
      · rw [if_pos hf] at hc
        exact Or.inr ⟨hf, hc⟩
      · rw [if_neg hf] at hc
        exact Or.inl hc

theorem main_poll_cursor (i : LoopInputs) (s : State) :
    (main_poll i s).state.EEPROM_addressWrite = s.EEPROM_addressWrite ∨
    (s.EEPROM_addressWrite > 0x07FF ∧ (main_poll i s).state.EEPROM_addressWrite = 0) := by
  unfold main_poll
  cases i.dataAvailable with
  | false => exact Or.inl rfl
  | true =>
    simp only [if_true]
    cases hs : s.rx with
    | nil => exact Or.inl rfl
    | cons b rest =>
      simp only []
      have hc := main_command_cursor b i.packTemp i.rdOk { s with rx := rest }
      by_cases h3 : b % 256 = DETECT_FAULTS
      · exact hc.2 h3
      · exact Or.inl (hc.1 h3)

theorem main_iteration_cursor_le (i : LoopInputs) (s : State)
    (h : s.EEPROM_addressWrite ≤ 2048) :
    (main_iteration i s).state.EEPROM_addressWrite ≤ 2048 := by
  unfold main_iteration
  have hw : (CONTROL_winState i.buttons s).EEPROM_addressWrite = s.EEPROM_addressWrite :=
    (CONTROL_winState_sameLogCore i.buttons s).fields.2.2.2.1
  have hp : (main_poll i (CONTROL_winState i.buttons s)).state.EEPROM_addressWrite ≤ 2048 := by
    rcases main_poll_cursor i (CONTROL_winState i.buttons s) with hq | hq <;> omega
  refine Run.bind_state (fun u : State => u.EEPROM_addressWrite ≤ 2048) _ _ hp ?_
  intro s1 e1
  rw [e1] at hp
  simp only [Run.state] at hp ⊢
  unfold main_monitor
  split
  · apply detectFaults_cursor_le
    rw [(readSensors_sameLogCore _ _ _ s1).fields.2.2.2.1]
    exact hp
  · exact hp

theorem main_loop_cursor_le (inputs : List LoopInputs) (s : State)
    (h : s.EEPROM_addressWrite ≤ 2048) :
    (main_loop inputs s).state.EEPROM_addressWrite ≤ 2048 := by
  induction inputs generalizing s with
  | nil => exact h
  | cons i rest ih =>
    unfold main_loop
    have hi := main_iteration_cursor_le i s h
    refine Run.bind_state (fun u : State => u.EEPROM_addressWrite ≤ 2048) _ _ hi ?_
    intro s1 e1
    rw [e1] at hi
    exact ih s1 hi

/-- C11: in every state reached from the reset state by running the main
loop on any inputs (ticks and commands, completed or stalled) the write cursor
is at most 2048. The entries a tick gets accepted sit at consecutive addresses
starting at the write cursor, which moves by exactly their number. Window
polls, sensor reads and commands other than DetectFaults leave the cursor
alone, a tick never lowers it, and DetectFaults either leaves it alone or
resets it to 0 from above 0x07FF. -/
theorem C11_write_cursor_invariant :
    (∀ (eeprom : Nat → Nat) (rx : List Nat) (inputs : List LoopInputs),
      (main_loop inputs (State.init eeprom rx)).state.EEPROM_addressWrite ≤ 2048) ∧
    (∀ (dist temp : Nat) (wrD wrT : Bool) (s : State),
      ∃ new, acceptedWrites (detectFaults dist temp wrD wrT s).trace =
          acceptedWrites s.trace ++ new ∧
        consecutiveFrom s.EEPROM_addressWrite new ∧
        (detectFaults dist temp wrD wrT s).EEPROM_addressWrite =
          s.EEPROM_addressWrite + new.length) ∧
    (∀ (b : Buttons) (s : State),
      (CONTROL_winState b s).EEPROM_addressWrite = s.EEPROM_addressWrite) ∧
    (∀ (dist temp : Nat) (b : Buttons) (s : State),
      (readSensors dist temp b s).EEPROM_addressWrite = s.EEPROM_addressWrite) ∧
    (∀ (b temp : Nat) (rdOk : Nat → Bool) (s : State), b % 256 ≠ DETECT_FAULTS →
      (main_command b temp rdOk s).state.EEPROM_addressWrite = s.EEPROM_addressWrite) ∧
    (∀ (b temp : Nat) (rdOk : Nat → Bool) (s : State), b % 256 = DETECT_FAULTS →
      (main_command b temp rdOk s).state.EEPROM_addressWrite = s.EEPROM_addressWrite ∨
      (s.EEPROM_addressWrite > 0x07FF ∧
        (main_command b temp rdOk s).state.EEPROM_addressWrite = 0)) := by
  refine ⟨?_, ?_, ?_, ?_, ?_, ?_⟩
  · intro eeprom rx inputs
    exact main_loop_cursor_le inputs _ (by simp [State.init])
  · intro dist temp wrD wrT s
    obtain ⟨_, new, h1, h2, _, h4⟩ := detectFaults_appended dist temp wrD wrT s
    exact ⟨new, h1, h2, h4⟩
  · intro b s
    exact (CONTROL_winState_sameLogCore b s).fields.2.2.2.1
  · intro dist temp b s
    exact (readSensors_sameLogCore dist temp b s).fields.2.2.2.1
  · intro b temp rdOk s h3
    exact (main_command_cursor b temp rdOk s).1 h3
  · intro b temp rdOk s h3
    exact (main_command_cursor b temp rdOk s).2 h3

/-! ## What a read-out streams -/

theorem afterAck_length_lt (rx : List Nat) (h : 0 < ackCount rx) :
    (afterAck rx).length < rx.length :=
  waitAckRx_length rx (afterAck rx) (waitAckRx_of_ackCount rx h)

/-- With an acknowledgment pending for every byte, the read-out loop returns,
having read the addresses from the read cursor on in order and sent the bytes
of `storedFaults`, and nothing else. -/
theorem CONTROL_sendFaults_loop_done (rdOk : Nat → Bool) (n : Nat) :
    ∀ (fuel : Nat) (s : State), s.rx.length < fuel →
      s.EEPROM_addressRead + n = s.EEPROM_addressWrite + 1 →
      s.EEPROM_addressWrite < 65535 →
      (storedFaults s.eeprom rdOk n s.EEPROM_addressRead).length ≤ ackCount s.rx →
      ∃ s1 evs, CONTROL_sendFaults_loop rdOk fuel s = Run.done s1 ∧
        s1.trace = s.trace ++ evs ∧
        txBytes evs = storedFaults s.eeprom rdOk n s.EEPROM_addressRead ∧
        readAddrs evs = List.range' s.EEPROM_addressRead
          (min n ((storedFaults s.eeprom rdOk n s.EEPROM_addressRead).length + 1)) ∧
        ackCount s1.rx =
          ackCount s.rx - (storedFaults s.eeprom rdOk n s.EEPROM_addressRead).length := by
  induction n with
  | zero =>
    intro fuel s hf hn _ _
    cases fuel with
    | zero => omega
    | succ f =>
      refine ⟨s, [], ?_, by simp, rfl, rfl, rfl⟩
      unfold CONTROL_sendFaults_loop
      rw [if_neg (by omega)]
  | succ n ih =>
    intro fuel s hf hn hw hack
    cases fuel with
    | zero => omega
    | succ f =>
      have hle : s.EEPROM_addressRead ≤ s.EEPROM_addressWrite := by omega
      unfold CONTROL_sendFaults_loop
      rw [if_pos hle]
      by_cases hc : rdOk s.EEPROM_addressRead = true ∧
          s.eeprom s.EEPROM_addressRead % 256 ≠ 0xFF ∧
          s.eeprom s.EEPROM_addressRead % 256 ≠ 0x00
      · obtain ⟨hok, hFF, h00⟩ := hc
        have hsf : storedFaults s.eeprom rdOk (n + 1) s.EEPROM_addressRead =
            s.eeprom s.EEPROM_addressRead % 256 ::
              storedFaults s.eeprom rdOk n (s.EEPROM_addressRead + 1) := by
          simp only [storedFaults]
          rw [if_pos ⟨hok, hFF, h00⟩]
        rw [hsf] at hack ⊢
        simp only [List.length_cons] at hack ⊢
        have hpos : 0 < ackCount s.rx := by omega
        simp only [EEPROM_readByte, hok, if_true]
        rw [if_neg (by
          intro h
          rcases h with h | h
          · exact hFF h
          · exact h00 h)]
        rw [sendAcked_of_ackCount _ _ (by simpa using hpos)]
        simp only [Run.bind]
        have hmod : (s.EEPROM_addressRead + 1) % 65536 = s.EEPROM_addressRead + 1 := by omega
        rw [hmod]
        obtain ⟨s1, evs, e1, e2, e3, e4, e5⟩ := ih f
          { s with
            trace := s.trace ++ [Event.eepromRead s.EEPROM_addressRead true] ++
              [Event.tx (s.eeprom s.EEPROM_addressRead % 256 % 256)],
            rx := afterAck s.rx,
            EEPROM_addressRead := s.EEPROM_addressRead + 1 }
          (by have := afterAck_length_lt s.rx hpos; simp only []; omega)
          (by simp only []; omega) hw
          (by simp only [ackCount_afterAck]; omega)
        simp only [] at e1 e2 e3 e4 e5
        refine ⟨s1, [Event.eepromRead s.EEPROM_addressRead true,
          Event.tx (s.eeprom s.EEPROM_addressRead % 256 % 256)] ++ evs, e1, ?_, ?_, ?_, ?_⟩
        · rw [e2]
          simp [List.append_assoc]
        · rw [txBytes_append, e3]
          simp [txBytes, Nat.mod_mod]
        · rw [readAddrs_append, e4]
          have hmin : min (n + 1)
              ((storedFaults s.eeprom rdOk n (s.EEPROM_addressRead + 1)).length + 1 + 1) =
              min n ((storedFaults s.eeprom rdOk n (s.EEPROM_addressRead + 1)).length + 1) + 1
              := by omega
          rw [hmin, List.range'_succ]
          simp [readAddrs]
        · rw [e5, ackCount_afterAck]
          omega
      · have hsf : storedFaults s.eeprom rdOk (n + 1) s.EEPROM_addressRead = [] := by
          simp only [storedFaults]
          rw [if_neg hc]
        rw [hsf]
        simp only [List.length_nil, Nat.sub_zero, Nat.zero_add]
        have hmin : min (n + 1) 1 = 1 := by omega
        rw [hmin]
        cases hok : rdOk s.EEPROM_addressRead with
        | false =>
          refine ⟨{ s with trace := s.trace ++ [Event.eepromRead s.EEPROM_addressRead false] },
            [Event.eepromRead s.EEPROM_addressRead false], ?_, rfl, rfl, rfl, rfl⟩
          simp [EEPROM_readByte]
        | true =>
          have hs : s.eeprom s.EEPROM_addressRead % 256 = 0xFF ∨
              s.eeprom s.EEPROM_addressRead % 256 = 0x00 := by
            by_contra hcon
            exact hc ⟨hok, fun h => hcon (Or.inl h), fun h => hcon (Or.inr h)⟩
          refine ⟨{ s with trace := s.trace ++ [Event.eepromRead s.EEPROM_addressRead true] },
            [Event.eepromRead s.EEPROM_addressRead true], ?_, rfl, rfl, rfl, rfl⟩
          simp only [EEPROM_readByte, if_true]
          rw [if_pos hs]

/-- With an acknowledgment pending for every byte, `CONTROL_sendFaults`
returns, having read the addresses from 0 on in order and sent the bytes of
`storedFaults` up to the write cursor followed by the end byte. -/
theorem CONTROL_sendFaults_done (rdOk : Nat → Bool) (s : State)
    (hw : s.EEPROM_addressWrite < 65535)
    (hack : (storedFaults s.eeprom rdOk (s.EEPROM_addressWrite + 1) 0).length + 1 ≤
      ackCount s.rx) :
    ∃ s1 evs, CONTROL_sendFaults rdOk s = Run.done s1 ∧
      s1.trace = s.trace ++ evs ∧
      txBytes evs = storedFaults s.eeprom rdOk (s.EEPROM_addressWrite + 1) 0 ++ [0x54] ∧
      readAddrs evs = List.range' 0 (min (s.EEPROM_addressWrite + 1)
        ((storedFaults s.eeprom rdOk (s.EEPROM_addressWrite + 1) 0).length + 1)) ∧
      ackCount s1.rx = ackCount s.rx -
        ((storedFaults s.eeprom rdOk (s.EEPROM_addressWrite + 1) 0).length + 1) := by
  obtain ⟨u, evs, e1, e2, e3, e4, e5⟩ := CONTROL_sendFaults_loop_done rdOk
    (s.EEPROM_addressWrite + 1) (s.rx.length + 1) { s with EEPROM_addressRead := 0x0000 }
    (by simp only []; omega) (by simp only []; omega) hw (by simp only []; omega)
  simp only [] at e1 e2 e3 e4 e5
  have hpos : 0 < ackCount u.rx := by rw [e5]; omega
  have hsend := sendAcked_of_ackCount END_BYTE u hpos
  unfold CONTROL_sendFaults
  simp only []
  rw [e1]
  simp only [Run.bind]
  rw [hsend]
  simp only []
  by_cases hf : u.EEPROM_addressWrite > EEPROM_MAX_ADDRESS
  · rw [if_pos hf]
    refine ⟨_, evs ++ [Event.tx (END_BYTE % 256)], rfl, ?_, ?_, ?_, ?_⟩
    · simp only [e2, List.append_assoc]
    · rw [txBytes_append, e3]
      rfl
    · rw [readAddrs_append, e4]
      simp [readAddrs]
    · simp only [ackCount_afterAck, e5]
      omega
  · rw [if_neg hf]
    refine ⟨_, evs ++ [Event.tx (END_BYTE % 256)], rfl, ?_, ?_, ?_, ?_⟩
    · simp only [e2, List.append_assoc]
    · rw [txBytes_append, e3]
      rfl
    · rw [readAddrs_append, e4]
      simp [readAddrs]
    · simp only [ackCount_afterAck, e5]
      omega

/-! ## Wraparound -/

theorem main_command_accepted (b temp : Nat) (rdOk : Nat → Bool) (s : State) :
    acceptedWrites (main_command b temp rdOk s).state.trace = acceptedWrites s.trace := by
  have key : storeWrites (main_command b temp rdOk s).state.trace = storeWrites s.trace := by
    by_cases h1 : b % 256 = START_MONITORING
    · obtain ⟨u, e, hc⟩ := main_command_start b temp rdOk s h1
      rw [e]
      exact congrArg LogCore.writes hc
    · by_cases h4 : b % 256 = STOP_MONITORING
      · obtain ⟨u, e, hc⟩ := main_command_stop b temp rdOk s h4
        rw [e]
        exact congrArg LogCore.writes hc
      · by_cases h3 : b % 256 = DETECT_FAULTS
        · cases hr : main_command b temp rdOk s with
          | stuck u => exact (main_command_detect_stuck b temp rdOk s u h3 hr).fields.2.2.2.2.2.1
          | done u => exact congrArg LogCore.writes (main_command_detect_done b temp rdOk s u h3 hr)
        · exact (main_command_other_sameLogCore b temp rdOk s h1 h3 h4).fields.2.2.2.2.2.1
  rw [← acceptedWrites_storeWrites, key, acceptedWrites_storeWrites]

theorem Control_ECU.FirstAppendAtZero.ofSame {base : List (Nat × Nat)} {s s1 : State}
    (h : FirstAppendAtZero base s)
    (ha : acceptedWrites s1.trace = acceptedWrites s.trace)
    (hw : s.EEPROM_addressWrite = 0 → s1.EEPROM_addressWrite = 0) :
    FirstAppendAtZero base s1 := by
  obtain ⟨new, e, hcase⟩ := h
  refine ⟨new, by rw [ha, e], ?_⟩
  rcases hcase with ⟨hn, h0⟩ | hc
  · exact Or.inl ⟨hn, hw h0⟩
  · exact Or.inr hc

theorem detectFaults_firstAppendAtZero (base : List (Nat × Nat)) (dist temp : Nat)
    (wrD wrT : Bool) (s : State) (h : FirstAppendAtZero base s) :
    FirstAppendAtZero base (detectFaults dist temp wrD wrT s) := by
  obtain ⟨new, e, hcase⟩ := h
  obtain ⟨_, new2, e2, hcons, _, hw2⟩ := detectFaults_appended dist temp wrD wrT s
  refine ⟨new ++ new2, by rw [e2, e, List.append_assoc], ?_⟩
  rcases hcase with ⟨hn, h0⟩ | ⟨c, rest, hc⟩
  · subst hn
    cases new2 with
    | nil => exact Or.inl ⟨rfl, by rw [hw2, h0]; rfl⟩
    | cons w rest =>
      refine Or.inr ⟨w.2, rest, ?_⟩
      have : w.1 = 0 := by rw [← h0]; exact hcons.1
      simp only [List.nil_append]
      rw [← this]
  · exact Or.inr ⟨c, rest ++ new2, by rw [hc]; rfl⟩

theorem main_iteration_firstAppendAtZero (base : List (Nat × Nat)) (i : LoopInputs)
    (s : State) (h : FirstAppendAtZero base s) :
    FirstAppendAtZero base (main_iteration i s).state := by
  unfold main_iteration
  have hw : FirstAppendAtZero base (CONTROL_winState i.buttons s) :=
    h.ofSame (CONTROL_winState_sameLogCore i.buttons s).fields.2.2.2.2.2.2
      (fun h0 => by rw [(CONTROL_winState_sameLogCore i.buttons s).fields.2.2.2.1]; exact h0)
  have hp : FirstAppendAtZero base (main_poll i (CONTROL_winState i.buttons s)).state := by
    generalize CONTROL_winState i.buttons s = u at hw ⊢
    unfold main_poll
    cases i.dataAvailable with
    | false => exact hw
    | true =>
      simp only [if_true]
      cases hs : u.rx with
      | nil => exact hw
      | cons b rest =>
        simp only []
        have h0 : FirstAppendAtZero base { u with rx := rest } := hw.ofSame rfl (fun h0 => h0)
        refine h0.ofSame (main_command_accepted b i.packTemp i.rdOk _) ?_
        intro hz
        have hc := main_command_cursor b i.packTemp i.rdOk { u with rx := rest }
        by_cases h3 : b % 256 = DETECT_FAULTS
        · rcases hc.2 h3 with hq | hq
          · rw [hq]; exact hz
          · exact hq.2
        · rw [hc.1 h3]; exact hz
  refine Run.bind_state (FirstAppendAtZero base) _ _ hp ?_
  intro s1 e1
  rw [e1] at hp
  simp only [Run.state] at hp ⊢
  unfold main_monitor
  split
  · apply detectFaults_firstAppendAtZero
    exact hp.ofSame (readSensors_sameLogCore _ _ _ s1).fields.2.2.2.2.2.2
      (fun h0 => by rw [(readSensors_sameLogCore _ _ _ s1).fields.2.2.2.1]; exact h0)
  · exact hp

theorem main_loop_firstAppendAtZero (base : List (Nat × Nat)) (inputs : List LoopInputs)
    (s : State) (h : FirstAppendAtZero base s) :
    FirstAppendAtZero base (main_loop inputs s).state := by
  induction inputs generalizing s with
  | nil => exact h
  | cons i rest ih =>
    unfold main_loop
    have hi := main_iteration_firstAppendAtZero base i s h
    refine Run.bind_state (FirstAppendAtZero base) _ _ hi ?_
    intro s1 e1
    rw [e1] at hi
    exact ih s1 hi

/-- C12: a completed `CONTROL_sendFaults` sets the write cursor to 0 when it
was greater than 0x07FF and leaves it unchanged otherwise, and it does complete
when every byte it sends is acknowledged. From a state with the cursor reset
to 0, however the main loop runs on, the first entry accepted afterwards is
stored at address 0. -/
theorem C12_wraparound :
    (∀ (rdOk : Nat → Bool) (s s1 : State), CONTROL_sendFaults rdOk s = Run.done s1 →
      s1.EEPROM_addressWrite =
        if s.EEPROM_addressWrite > 0x07FF then 0 else s.EEPROM_addressWrite) ∧
    (∀ (rdOk : Nat → Bool) (s : State), s.EEPROM_addressWrite < 65535 →
      (storedFaults s.eeprom rdOk (s.EEPROM_addressWrite + 1) 0).length + 1 ≤ ackCount s.rx →
      (CONTROL_sendFaults rdOk s).isDone = true) ∧
    (∀ (inputs : List LoopInputs) (s1 : State), s1.EEPROM_addressWrite = 0 →
      ∃ new, acceptedWrites (main_loop inputs s1).state.trace =
          acceptedWrites s1.trace ++ new ∧
        (new = [] ∨ ∃ c rest, new = (0, c) :: rest)) := by
  refine ⟨?_, ?_, ?_⟩
  · intro rdOk s s1 h
    exact congrArg LogCore.EEPROM_addressWrite (CONTROL_sendFaults_done_logCore rdOk s s1 h)
  · intro rdOk s hw hack
    obtain ⟨s1, _, e, _⟩ := CONTROL_sendFaults_done rdOk s hw hack
    rw [e]
    rfl
  · intro inputs s1 h0
    obtain ⟨new, e, hcase⟩ := main_loop_firstAppendAtZero (acceptedWrites s1.trace) inputs s1
      ⟨[], by simp, Or.inl ⟨rfl, h0⟩⟩
    refine ⟨new, e, ?_⟩
    rcases hcase with ⟨hn, _⟩ | hc
    · exact Or.inl hn
    · exact Or.inr hc

/-! ## The fault stream -/

theorem storedFaults_succ_split (eeprom : Nat → Nat) (rdOk : Nat → Bool) (n : Nat) :
    ∀ a, ∃ extra, storedFaults eeprom rdOk (n + 1) a = storedFaults eeprom rdOk n a ++ extra := by
  induction n with
  | zero =>
    intro a
    exact ⟨storedFaults eeprom rdOk 1 a, by simp [storedFaults]⟩
  | succ n ih =>
    intro a
    obtain ⟨extra, he⟩ := ih (a + 1)
    by_cases hc : rdOk a = true ∧ eeprom a % 256 ≠ 0xFF ∧ eeprom a % 256 ≠ 0x00
    · refine ⟨extra, ?_⟩
      rw [storedFaults, if_pos hc, he, storedFaults, if_pos hc]
      rfl
    · refine ⟨[], ?_⟩
      rw [storedFaults, if_neg hc, storedFaults, if_neg hc]
      rfl

/-- C13 as stated fails: after a reset (write cursor 0) with the log
[0x01, 0x02] still in the store, the read-out sends 0x01 only, although the
longest run of readable non-sentinel bytes from address 0 is [0x01, 0x02]. -/
theorem C13_cursor_bound_counterexample :
    txBytes (CONTROL_sendFaults (fun _ => true)
      (State.init twoFaultStore [5, 5, 5])).state.trace = [0x01, 0x54] ∧
    (CONTROL_sendFaults (fun _ => true) (State.init twoFaultStore [5, 5, 5])).isDone = true ∧
    storedFaults twoFaultStore (fun _ => true) 2048 0 = [0x01, 0x02] := by
  decide

/-- C13, amended: for every store content and write cursor w (below 0xFFFF)
a read-out whose bytes are all acknowledged returns; it reads the addresses
0, 1, 2, ... in order and sends, before the end byte, store bytes in address
order: all bytes of the longest run of readable non-sentinel bytes that lie
below address w, and nothing stored above address w. -/
theorem C13_readout_streams_stored_run (rdOk : Nat → Bool) (s : State)
    (hw : s.EEPROM_addressWrite < 65535)
    (hack : (storedFaults s.eeprom rdOk (s.EEPROM_addressWrite + 1) 0).length + 1 ≤
      ackCount s.rx) :
    ∃ s1 sent, CONTROL_sendFaults rdOk s = Run.done s1 ∧
      txBytes (s1.trace.drop s.trace.length) = sent ++ [0x54] ∧
      readAddrs (s1.trace.drop s.trace.length) =
        List.range' 0 (min (s.EEPROM_addressWrite + 1) (sent.length + 1)) ∧
      (∃ extra, sent = storedFaults s.eeprom rdOk s.EEPROM_addressWrite 0 ++ extra) ∧
      (∃ rest, storedFaults s.eeprom rdOk (s.EEPROM_addressWrite + 1) 0 = sent ++ rest) := by
  obtain ⟨s1, evs, e1, e2, e3, e4, _⟩ := CONTROL_sendFaults_done rdOk s hw hack
  refine ⟨s1, storedFaults s.eeprom rdOk (s.EEPROM_addressWrite + 1) 0, e1, ?_, ?_,
    storedFaults_succ_split s.eeprom rdOk s.EEPROM_addressWrite 0, ⟨[], by simp⟩⟩
  · rw [e2, List.drop_left, e3]
  · rw [e2, List.drop_left, e4]

/-- Witness of C13: the log [0x01, 0x02] with the write cursor at 2 is
streamed whole. -/
theorem C13_readout_streams_stored_run_witness :
    txBytes (CONTROL_sendFaults (fun _ => true)
      { State.init twoFaultStore [5, 5, 5] with EEPROM_addressWrite := 2 }).state.trace =
      [0x01, 0x02, 0x54] := by
  obtain ⟨s1, sent, e1, e2, _, ⟨extra, e4⟩, ⟨rest, e5⟩⟩ :=
    C13_readout_streams_stored_run (fun _ => true)
      { State.init twoFaultStore [5, 5, 5] with EEPROM_addressWrite := 2 }
      (by decide) (by decide)
  have h2 : storedFaults twoFaultStore (fun _ => true) 2 0 = [0x01, 0x02] := by decide
  have h3 : storedFaults twoFaultStore (fun _ => true) 3 0 = [0x01, 0x02] := by decide
  change sent = storedFaults twoFaultStore (fun _ => true) 2 0 ++ extra at e4
  change storedFaults twoFaultStore (fun _ => true) 3 0 = sent ++ rest at e5
  change txBytes s1.trace = sent ++ [0x54] at e2
  rw [h2] at e4
  rw [h3, e4] at e5
  have hl := congrArg List.length e5
  simp only [List.length_cons, List.length_nil, List.length_append] at hl
  have hx : extra = [] := List.eq_nil_of_length_eq_zero (by omega)
  rw [hx] at e4
  rw [e1]
  change txBytes s1.trace = [0x01, 0x02, 0x54]
  rw [e2, e4]
  rfl

theorem CONTROL_sendFaults_empty_log (rdOk : Nat → Bool) (s : State)
    (hw : s.EEPROM_addressWrite = 0) (he : s.eeprom 0 = 0x00 ∨ s.eeprom 0 = 0xFF) :
    (CONTROL_sendFaults rdOk s).state.trace =
        s.trace ++ [Event.eepromRead 0 (rdOk 0), Event.tx 0x54] ∧
    (1 ≤ ackCount s.rx → (CONTROL_sendFaults rdOk s).isDone = true) := by
  have hloop : CONTROL_sendFaults_loop rdOk (s.rx.length + 1)
      { s with EEPROM_addressRead := 0x0000 } =
      Run.done { s with EEPROM_addressRead := 0x0000,
                        trace := s.trace ++ [Event.eepromRead 0 (rdOk 0)] } := by
    unfold CONTROL_sendFaults_loop
    simp only [hw, Nat.le_refl, if_true]
    cases hok : rdOk 0 with
    | false => simp [EEPROM_readByte]
    | true =>
      have hs : s.eeprom 0 % 256 = 0xFF ∨ s.eeprom 0 % 256 = 0x00 := by
        rcases he with h | h <;> simp [h]
      simp only [EEPROM_readByte, if_true]
      rw [if_pos hs]
  unfold CONTROL_sendFaults
  simp only []
  rw [hloop]
  simp only [Run.bind]
  have hbase : SameLogCore s
      { s with EEPROM_addressRead := 0x0000,
               trace := s.trace ++ [Event.eepromRead 0 (rdOk 0)] } := by
    simp [SameLogCore, State.logCore, storeWrites_append, storeWrites]
  have htr0 : ({ s with EEPROM_addressRead := 0x0000,
                        trace := s.trace ++ [Event.eepromRead 0 (rdOk 0)] } : State).trace =
      s.trace ++ [Event.eepromRead 0 (rdOk 0)] := rfl
  have hrx0 : ({ s with EEPROM_addressRead := 0x0000,
                        trace := s.trace ++ [Event.eepromRead 0 (rdOk 0)] } : State).rx =
      s.rx := rfl
  generalize ({ s with EEPROM_addressRead := 0x0000,
                       trace := s.trace ++ [Event.eepromRead 0 (rdOk 0)] } : State) = u0
    at hbase htr0 hrx0 ⊢
  have htr := sendAcked_trace END_BYTE u0
  have hcore := sendAcked_sameLogCore END_BYTE u0
  have hwq : ∀ u, SameLogCore s u → ¬ u.EEPROM_addressWrite > EEPROM_MAX_ADDRESS := by
    intro u hu
    rw [hu.fields.2.2.2.1, hw]
    decide
  refine ⟨?_, ?_⟩
  · cases hsa : sendAcked END_BYTE u0 with
    | stuck u =>
      rw [hsa] at htr
      simp only [Run.state] at htr ⊢
      rw [htr, htr0]
      simp [END_BYTE]
    | done u =>
      rw [hsa] at htr hcore
      simp only [Run.state] at htr hcore ⊢
      rw [if_neg (hwq u (hbase.coreTrans hcore))]
      simp only [Run.state]
      rw [htr, htr0]
      simp [END_BYTE]
  · intro hack
    rw [sendAcked_of_ackCount _ _ (by rw [hrx0]; exact hack)]
    simp only []
    split <;> rfl

/-- C14: DetectFaults on an empty log (write cursor 0, address 0 holding 0x00
or 0xFF): whether or not the final acknowledgment arrives, the node sends its
acknowledgment 0x05 and then the single byte 0x54, no fault byte; with one
acknowledgment pending the command returns. -/
theorem C14_empty_log_stream (b temp : Nat) (rdOk : Nat → Bool) (s : State)
    (hb : b % 256 = 0x03) (hw : s.EEPROM_addressWrite = 0)
    (he : s.eeprom 0 = 0x00 ∨ s.eeprom 0 = 0xFF) :
    txBytes ((main_command b temp rdOk s).state.trace.drop s.trace.length) = [0x05, 0x54] ∧
    (1 ≤ ackCount s.rx → (main_command b temp rdOk s).isDone = true) := by
  obtain ⟨h1, h2⟩ := CONTROL_sendFaults_empty_log rdOk (UART_sendByte ACK s) hw he
  have hm : main_command b temp rdOk s =
      (CONTROL_sendFaults rdOk (UART_sendByte ACK s)).bind fun s =>
        Run.done { s with g_distanceLogged := 0, g_temperatureLogged := 0 } := by
    simp [main_command, main_switch, hb, START_MONITORING, DISPLAY_VALUES, DETECT_FAULTS]
  rw [hm]
  refine ⟨?_, ?_⟩
  · have ht : ((CONTROL_sendFaults rdOk (UART_sendByte ACK s)).bind fun s =>
        Run.done { s with g_distanceLogged := 0, g_temperatureLogged := 0 }).state.trace =
        (CONTROL_sendFaults rdOk (UART_sendByte ACK s)).state.trace := by
      cases CONTROL_sendFaults rdOk (UART_sendByte ACK s) <;> rfl
    rw [ht, h1]
    simp [UART_sendByte, ACK, txBytes]
  · intro hack
    have hd := h2 hack
    cases hsf : CONTROL_sendFaults rdOk (UART_sendByte ACK s) with
    | stuck u => rw [hsf] at hd; simp [Run.isDone] at hd
    | done u => rfl

/-- Witness of C14: DetectFaults in the reset state on an erased store. -/
theorem C14_empty_log_stream_witness :
    txBytes (main_command 0x03 25 (fun _ => true) (State.init (fun _ => 0xFF) [5])).state.trace
      = [0x05, 0x54] ∧
    (main_command 0x03 25 (fun _ => true) (State.init (fun _ => 0xFF) [5])).isDone = true :=
  ⟨(C14_empty_log_stream 0x03 25 (fun _ => true) (State.init (fun _ => 0xFF) [5])
      (by decide) rfl (Or.inr rfl)).1,
   (C14_empty_log_stream 0x03 25 (fun _ => true) (State.init (fun _ => 0xFF) [5])
      (by decide) rfl (Or.inr rfl)).2 (by decide)⟩

/-! ## A read-out right after the wraparound reset -/

theorem ackCount_replicate (n : Nat) : ackCount (List.replicate n 0x05) = n := by
  induction n with
  | zero => rfl
  | succ n ih =>
    rw [List.replicate_succ, ackCount_cons_ack _ _ (by decide), ih]

theorem storedFaults_fullLogStore (n : Nat) :
    ∀ a, storedFaults fullLogStore (fun _ => true) n a =
      List.replicate (min n (0x0800 - a)) 0x01 := by
  induction n with
  | zero => intro a; simp [storedFaults]
  | succ n ih =>
    intro a
    by_cases ha : a < 0x0800
    · have hc : (fun _ => true) a = true ∧ fullLogStore a % 256 ≠ 0xFF ∧
          fullLogStore a % 256 ≠ 0x00 := by
        simp [fullLogStore, ha]
      rw [storedFaults, if_pos hc, ih (a + 1)]
      have hv : fullLogStore a % 256 = 0x01 := by simp [fullLogStore, ha]
      have hm : min (n + 1) (0x0800 - a) = min n (0x0800 - (a + 1)) + 1 := by omega
      rw [hv, hm, List.replicate_succ]
    · have hc : ¬ ((fun _ => true) a = true ∧ fullLogStore a % 256 ≠ 0xFF ∧
          fullLogStore a % 256 ≠ 0x00) := by
        simp [fullLogStore, ha]
      rw [storedFaults, if_neg hc]
      have hm : min (n + 1) (0x0800 - a) = 0 := by omega
      rw [hm]
      rfl

/-- After a read-out that has reset the write cursor to 0, the next read-out
still reads address 0 and sends the byte found there. -/
theorem CONTROL_sendFaults_twice (rd1 rd2 : Nat → Bool) (s : State)
    (hfull : s.EEPROM_addressWrite > 0x07FF) (hw : s.EEPROM_addressWrite < 65535)
    (hack : (storedFaults s.eeprom rd1 (s.EEPROM_addressWrite + 1) 0).length + 3 ≤
      ackCount s.rx)
    (hrd : rd2 0 = true) (hFF : s.eeprom 0 % 256 ≠ 0xFF) (h00 : s.eeprom 0 % 256 ≠ 0x00) :
    ∃ s1 s2 evs1, CONTROL_sendFaults rd1 s = Run.done s1 ∧
      s1.EEPROM_addressWrite = 0 ∧
      s1.trace = s.trace ++ evs1 ∧
      txBytes evs1 = storedFaults s.eeprom rd1 (s.EEPROM_addressWrite + 1) 0 ++ [0x54] ∧
      CONTROL_sendFaults rd2 s1 = Run.done s2 ∧
      txBytes (s2.trace.drop s1.trace.length) = [s.eeprom 0 % 256, 0x54] := by
  obtain ⟨s1, evs1, e1, t1, x1, _, a1⟩ := CONTROL_sendFaults_done rd1 s hw (by omega)
  have hc := CONTROL_sendFaults_done_logCore rd1 s s1 e1
  have hw1 : s1.EEPROM_addressWrite = 0 := by
    have := congrArg LogCore.EEPROM_addressWrite hc
    simp only [State.logCore] at this
    rw [if_pos hfull] at this
    exact this
  have he1 : s1.eeprom = s.eeprom := congrArg LogCore.eeprom hc
  have hsf : storedFaults s1.eeprom rd2 (s1.EEPROM_addressWrite + 1) 0 = [s.eeprom 0 % 256] := by
    rw [hw1, he1]
    simp only [storedFaults]
    rw [if_pos ⟨hrd, hFF, h00⟩]
  obtain ⟨s2, evs2, e2, t2, x2, _, _⟩ := CONTROL_sendFaults_done rd2 s1 (by omega)
    (by rw [hsf, a1]; simp only [List.length_singleton]; omega)
  refine ⟨s1, s2, evs1, e1, hw1, t1, x1, e2, ?_⟩
  rw [t2, List.drop_left, x2, hsf]
  rfl

/-- C15, the code at a failing input: the log is full (write cursor 0x0800,
all 2048 slots hold 0x01) and every byte is acknowledged. The first read-out
streams the 2048 entries and resets the cursor to 0; the read-out that follows
at once streams the stale byte 0x01 of address 0 before the end byte. -/
theorem C15_stale_byte_after_reset :
    ((CONTROL_sendFaults (fun _ => true)
        { State.init fullLogStore (List.replicate 2051 0x05) with
          EEPROM_addressWrite := 0x0800 }).bind
      (CONTROL_sendFaults (fun _ => true))).isDone = true ∧
    (CONTROL_sendFaults (fun _ => true)
        { State.init fullLogStore (List.replicate 2051 0x05) with
          EEPROM_addressWrite := 0x0800 }).state.EEPROM_addressWrite = 0 ∧
    txBytes ((CONTROL_sendFaults (fun _ => true)
        { State.init fullLogStore (List.replicate 2051 0x05) with
          EEPROM_addressWrite := 0x0800 }).bind
      (CONTROL_sendFaults (fun _ => true))).state.trace =
      (List.replicate 2048 0x01 ++ [0x54]) ++ [0x01, 0x54] := by
  have hlog : storedFaults fullLogStore (fun _ => true) (0x0800 + 1) 0 =
      List.replicate 2048 0x01 := by
    rw [storedFaults_fullLogStore]
    rfl
  obtain ⟨s1, s2, evs1, e1, hw1, t1, x1, e2, x2⟩ := CONTROL_sendFaults_twice
    (fun _ => true) (fun _ => true)
    { State.init fullLogStore (List.replicate 2051 0x05) with EEPROM_addressWrite := 0x0800 }
    (by decide) (by decide)
    (by
      change (storedFaults fullLogStore (fun _ => true) (0x0800 + 1) 0).length + 3 ≤
        ackCount (List.replicate 2051 0x05)
      rw [hlog, ackCount_replicate, List.length_replicate])
    rfl (by decide) (by decide)
  change txBytes evs1 = storedFaults fullLogStore (fun _ => true) (0x0800 + 1) 0 ++ [0x54] at x1
  change s1.trace = [] ++ evs1 at t1
  rw [hlog] at x1
  rw [e1]
  refine ⟨?_, hw1, ?_⟩
  · simp only [Run.bind]
    rw [e2]
    rfl
  · simp only [Run.bind]
    rw [e2]
    simp only [Run.state]
    have hsplit : s2.trace = s1.trace ++ s2.trace.drop s1.trace.length := by
      obtain ⟨rest, hr⟩ := CONTROL_sendFaults_traceExt (fun _ => true) s1
      rw [e2] at hr
      simp only [Run.state] at hr
      rw [hr, List.drop_left]
    rw [hsplit, txBytes_append, x2, t1, List.nil_append, x1]
    rfl

/-! ## The session flags and the monitoring flag -/

/-- C17: StartMonitoring sets the monitoring flag to 1 and StopMonitoring
sets it to 0, from any state, and neither changes distanceLogged,
temperatureLogged or the write cursor; every other received byte
(DisplayValues, DetectFaults, unknown bytes), completed or stalled, every
tick, every sensor read and every window poll leave the flag as it was. -/
theorem C17_monitoring_flag_machine :
    (∀ (b temp : Nat) (rdOk : Nat → Bool) (s : State), b % 256 = 0x01 →
      ∃ s1, main_command b temp rdOk s = Run.done s1 ∧ s1.g_Monitoring = 1 ∧
        s1.g_distanceLogged = s.g_distanceLogged ∧
        s1.g_temperatureLogged = s.g_temperatureLogged ∧
        s1.EEPROM_addressWrite = s.EEPROM_addressWrite) ∧
    (∀ (b temp : Nat) (rdOk : Nat → Bool) (s : State), b % 256 = 0x04 →
      ∃ s1, main_command b temp rdOk s = Run.done s1 ∧ s1.g_Monitoring = 0 ∧
        s1.g_distanceLogged = s.g_distanceLogged ∧
        s1.g_temperatureLogged = s.g_temperatureLogged ∧
        s1.EEPROM_addressWrite = s.EEPROM_addressWrite) ∧
    (∀ (b temp : Nat) (rdOk : Nat → Bool) (s : State), b % 256 ≠ 0x01 → b % 256 ≠ 0x04 →
      (main_command b temp rdOk s).state.g_Monitoring = s.g_Monitoring) ∧
    (∀ (dist temp : Nat) (wrD wrT : Bool) (s : State),
      (detectFaults dist temp wrD wrT s).g_Monitoring = s.g_Monitoring) ∧
    (∀ (dist temp : Nat) (b : Buttons) (s : State),
      (readSensors dist temp b s).g_Monitoring = s.g_Monitoring) ∧
    (∀ (b : Buttons) (s : State),
      (CONTROL_winState b s).g_Monitoring = s.g_Monitoring) := by
  refine ⟨?_, ?_, ?_, ?_, ?_, ?_⟩
  · intro b temp rdOk s hb
    obtain ⟨u, e, hc⟩ := main_command_start b temp rdOk s hb
    simp only [State.logCore, LogCore.mk.injEq] at hc
    exact ⟨u, e, hc.1, hc.2.1, hc.2.2.1, hc.2.2.2.1⟩
  · intro b temp rdOk s hb
    obtain ⟨u, e, hc⟩ := main_command_stop b temp rdOk s hb
    simp only [State.logCore, LogCore.mk.injEq] at hc
    exact ⟨u, e, hc.1, hc.2.1, hc.2.2.1, hc.2.2.2.1⟩
  · intro b temp rdOk s h1 h4
    by_cases h3 : b % 256 = DETECT_FAULTS
    · cases hr : main_command b temp rdOk s with
      | stuck u => exact (main_command_detect_stuck b temp rdOk s u h3 hr).fields.1
      | done u =>
        exact congrArg LogCore.g_Monitoring (main_command_detect_done b temp rdOk s u h3 hr)
    · exact (main_command_other_sameLogCore b temp rdOk s h1 h3 h4).fields.1
  · intro dist temp wrD wrT s
    exact (detectFaults_appended dist temp wrD wrT s).1
  · intro dist temp b s
    exact (readSensors_sameLogCore dist temp b s).fields.1
  · intro b s
    exact (CONTROL_winState_sameLogCore b s).fields.1

/-- Witness of C17: Start in the reset state, then Stop. -/
theorem C17_monitoring_flag_machine_witness :
    (main_command 0x01 25 (fun _ => true) (State.init (fun _ => 0xFF) [])).state.g_Monitoring
      = 1 ∧
    (main_command 0x04 25 (fun _ => true)
      { State.init (fun _ => 0xFF) [] with g_Monitoring := 1 }).state.g_Monitoring = 0 ∧
    (main_command 0x02 25 (fun _ => true)
      { State.init (fun _ => 0xFF) [] with g_Monitoring := 1 }).state.g_Monitoring = 1 := by
  obtain ⟨u1, e1, h1, _⟩ := C17_monitoring_flag_machine.1 0x01 25 (fun _ => true)
    (State.init (fun _ => 0xFF) []) (by decide)
  obtain ⟨u2, e2, h2, _⟩ := C17_monitoring_flag_machine.2.1 0x04 25 (fun _ => true)
    { State.init (fun _ => 0xFF) [] with g_Monitoring := 1 } (by decide)
  have h3 := C17_monitoring_flag_machine.2.2.1 0x02 25 (fun _ => true)
    { State.init (fun _ => 0xFF) [] with g_Monitoring := 1 } (by decide) (by decide)
  rw [e1, e2]
  exact ⟨h1, h2, h3⟩

/-! ## Window polls -/

theorem CONTROL_winState_win1_eq (b : Buttons) (s : State) :
    CONTROL_winState_win1 b s =
      { s with
        trace := s.trace ++
          (if b.win1_open = 1 ∧ b.win1_close = 0 then
            [Event.motorRotate 1 DcMotor_State.CW 100, Event.motorRotate 1 DcMotor_State.STOP 100]
          else if b.win1_open = 0 ∧ b.win1_close = 1 then
            [Event.motorRotate 1 DcMotor_State.A_CW 100,
             Event.motorRotate 1 DcMotor_State.STOP 100]
          else []),
        g_win1_State :=
          if b.win1_open = 1 ∧ b.win1_close = 0 then 1
          else if b.win1_open = 0 ∧ b.win1_close = 1 then 0
          else s.g_win1_State } := by
  unfold CONTROL_winState_win1
  simp only [BUTTON_PRESSED, BUTTON_RELEASED]
  by_cases h1 : b.win1_open = 1 ∧ b.win1_close = 0
  · simp only [if_pos h1]
  · simp only [if_neg h1]
    by_cases h2 : b.win1_open = 0 ∧ b.win1_close = 1
    · simp only [if_pos h2]
    · simp only [if_neg h2, List.append_nil]

theorem CONTROL_winState_win2_eq (b : Buttons) (s : State) :
    CONTROL_winState_win2 b s =
      { s with
        trace := s.trace ++
          (if b.win2_open = 1 ∧ b.win2_close = 0 then
            [Event.motorRotate 2 DcMotor_State.CW 100, Event.motorRotate 2 DcMotor_State.STOP 100]
          else if b.win2_open = 0 ∧ b.win2_close = 1 then
            [Event.motorRotate 2 DcMotor_State.A_CW 100,
             Event.motorRotate 2 DcMotor_State.STOP 100]
          else []),
        g_win2_State :=
          if b.win2_open = 1 ∧ b.win2_close = 0 then 1
          else if b.win2_open = 0 ∧ b.win2_close = 1 then 0
          else s.g_win2_State } := by
  unfold CONTROL_winState_win2
  simp only [BUTTON_PRESSED, BUTTON_RELEASED]
  by_cases h1 : b.win2_open = 1 ∧ b.win2_close = 0
  · simp only [if_pos h1]
  · simp only [if_neg h1]
    by_cases h2 : b.win2_open = 0 ∧ b.win2_close = 1
    · simp only [if_pos h2]
    · simp only [if_neg h2, List.append_nil]

theorem motorCommands_append (m : Nat) (l1 l2 : List Event) :
    motorCommands m (l1 ++ l2) = motorCommands m l1 ++ motorCommands m l2 := by
  induction l1 with
  | nil => rfl
  | cons e es ih =>
    cases e with
    | motorRotate k st speed =>
      by_cases hk : k = m <;> simp [motorCommands, hk, ih]
    | _ => simp [motorCommands, ih]

/-- What one window poll does, window by window: the motor commands issued
to each motor and the two window states, each a function of that window's own
two buttons and its own prior state; the sensor values are not touched. -/
theorem CONTROL_winState_effect (b : Buttons) (s : State) :
    motorCommands 1 ((CONTROL_winState b s).trace.drop s.trace.length) =
      (if b.win1_open = 1 ∧ b.win1_close = 0 then
        [(DcMotor_State.CW, 100), (DcMotor_State.STOP, 100)]
      else if b.win1_open = 0 ∧ b.win1_close = 1 then
        [(DcMotor_State.A_CW, 100), (DcMotor_State.STOP, 100)]
      else []) ∧
    motorCommands 2 ((CONTROL_winState b s).trace.drop s.trace.length) =
      (if b.win2_open = 1 ∧ b.win2_close = 0 then
        [(DcMotor_State.CW, 100), (DcMotor_State.STOP, 100)]
      else if b.win2_open = 0 ∧ b.win2_close = 1 then
        [(DcMotor_State.A_CW, 100), (DcMotor_State.STOP, 100)]
      else []) ∧
    (CONTROL_winState b s).g_win1_State =
      (if b.win1_open = 1 ∧ b.win1_close = 0 then 1
      else if b.win1_open = 0 ∧ b.win1_close = 1 then 0
      else s.g_win1_State) ∧
    (CONTROL_winState b s).g_win2_State =
      (if b.win2_open = 1 ∧ b.win2_close = 0 then 1
      else if b.win2_open = 0 ∧ b.win2_close = 1 then 0
      else s.g_win2_State) ∧
    (CONTROL_winState b s).g_distanceValue = s.g_distanceValue ∧
    (CONTROL_winState b s).g_tempValue = s.g_tempValue := by
  unfold CONTROL_winState
  rw [CONTROL_winState_win2_eq, CONTROL_winState_win1_eq]
  refine ⟨?_, ?_, rfl, rfl, rfl, rfl⟩
  · simp only [List.append_assoc, List.drop_left, motorCommands_append]
    split_ifs <;> simp [motorCommands]
  · simp only [List.append_assoc, List.drop_left, motorCommands_append]
    split_ifs <;> simp [motorCommands]

/-- C19: for each window and every prior state, a poll with the Open button
pressed (1) and the Close button released (0) issues to that window's motor
exactly CW then STOP and sets the window state to 1; with Close pressed and
Open released it issues exactly A_CW then STOP and sets the state to 0. What
a poll does to a window (its state and the commands to its motor) depends only
on that window's own two buttons. -/
theorem C19_window_actuation (b : Buttons) (s : State) :
    (b.win1_open = 1 ∧ b.win1_close = 0 →
      motorCommands 1 ((CONTROL_winState b s).trace.drop s.trace.length) =
        [(DcMotor_State.CW, 100), (DcMotor_State.STOP, 100)] ∧
      (CONTROL_winState b s).g_win1_State = 1) ∧
    (b.win1_open = 0 ∧ b.win1_close = 1 →
      motorCommands 1 ((CONTROL_winState b s).trace.drop s.trace.length) =
        [(DcMotor_State.A_CW, 100), (DcMotor_State.STOP, 100)] ∧
      (CONTROL_winState b s).g_win1_State = 0) ∧
    (b.win2_open = 1 ∧ b.win2_close = 0 →
      motorCommands 2 ((CONTROL_winState b s).trace.drop s.trace.length) =
        [(DcMotor_State.CW, 100), (DcMotor_State.STOP, 100)] ∧
      (CONTROL_winState b s).g_win2_State = 1) ∧
    (b.win2_open = 0 ∧ b.win2_close = 1 →
      motorCommands 2 ((CONTROL_winState b s).trace.drop s.trace.length) =
        [(DcMotor_State.A_CW, 100), (DcMotor_State.STOP, 100)] ∧
      (CONTROL_winState b s).g_win2_State = 0) ∧
    (∀ b2 : Buttons, b2.win1_open = b.win1_open → b2.win1_close = b.win1_close →
      (CONTROL_winState b2 s).g_win1_State = (CONTROL_winState b s).g_win1_State ∧
      motorCommands 1 ((CONTROL_winState b2 s).trace.drop s.trace.length) =
        motorCommands 1 ((CONTROL_winState b s).trace.drop s.trace.length)) ∧
    (∀ b2 : Buttons, b2.win2_open = b.win2_open → b2.win2_close = b.win2_close →
      (CONTROL_winState b2 s).g_win2_State = (CONTROL_winState b s).g_win2_State ∧
      motorCommands 2 ((CONTROL_winState b2 s).trace.drop s.trace.length) =
        motorCommands 2 ((CONTROL_winState b s).trace.drop s.trace.length)) := by
  obtain ⟨m1, m2, w1, w2, _, _⟩ := CONTROL_winState_effect b s
  refine ⟨?_, ?_, ?_, ?_, ?_, ?_⟩
  · intro h
    rw [m1, w1, if_pos h, if_pos h]
    exact ⟨rfl, rfl⟩
  · intro h
    have hn : ¬ (b.win1_open = 1 ∧ b.win1_close = 0) := by omega
    rw [m1, w1, if_neg hn, if_neg hn, if_pos h, if_pos h]
    exact ⟨rfl, rfl⟩
  · intro h
    rw [m2, w2, if_pos h, if_pos h]
    exact ⟨rfl, rfl⟩
  · intro h
    have hn : ¬ (b.win2_open = 1 ∧ b.win2_close = 0) := by omega
    rw [m2, w2, if_neg hn, if_neg hn, if_pos h, if_pos h]
    exact ⟨rfl, rfl⟩
  · intro b2 ho hc
    obtain ⟨n1, _, v1, _, _, _⟩ := CONTROL_winState_effect b2 s
    rw [n1, v1, m1, w1, ho, hc]
    exact ⟨rfl, rfl⟩
  · intro b2 ho hc
    obtain ⟨_, n2, _, v2, _, _⟩ := CONTROL_winState_effect b2 s
    rw [n2, v2, m2, w2, ho, hc]
    exact ⟨rfl, rfl⟩

/-- Witness of C19: window 1 Open pressed while window 2 Close is pressed. -/
theorem C19_window_actuation_witness :
    motorCommands 1 (CONTROL_winState ⟨1, 0, 0, 1⟩
      { State.init (fun _ => 0xFF) [] with g_win2_State := 1 }).trace =
      [(DcMotor_State.CW, 100), (DcMotor_State.STOP, 100)] ∧
    (CONTROL_winState ⟨1, 0, 0, 1⟩
      { State.init (fun _ => 0xFF) [] with g_win2_State := 1 }).g_win1_State = 1 ∧
    (CONTROL_winState ⟨1, 0, 0, 1⟩
      { State.init (fun _ => 0xFF) [] with g_win2_State := 1 }).g_win2_State = 0 :=
  ⟨((C19_window_actuation ⟨1, 0, 0, 1⟩
      { State.init (fun _ => 0xFF) [] with g_win2_State := 1 }).1 ⟨rfl, rfl⟩).1,
   ((C19_window_actuation ⟨1, 0, 0, 1⟩
      { State.init (fun _ => 0xFF) [] with g_win2_State := 1 }).1 ⟨rfl, rfl⟩).2,
   ((C19_window_actuation ⟨1, 0, 0, 1⟩
      { State.init (fun _ => 0xFF) [] with g_win2_State := 1 }).2.2.2.1 ⟨rfl, rfl⟩).2⟩

/-- C20: for each window, a poll in which both of its buttons are pressed, or
neither is, issues no command to that window's motor and leaves its state as
it was before the poll. -/
theorem C20_window_no_actuation (b : Buttons) (s : State) :
    ((b.win1_open = 1 ∧ b.win1_close = 1) ∨ (b.win1_open = 0 ∧ b.win1_close = 0) →
      motorCommands 1 ((CONTROL_winState b s).trace.drop s.trace.length) = [] ∧
      (CONTROL_winState b s).g_win1_State = s.g_win1_State) ∧
    ((b.win2_open = 1 ∧ b.win2_close = 1) ∨ (b.win2_open = 0 ∧ b.win2_close = 0) →
      motorCommands 2 ((CONTROL_winState b s).trace.drop s.trace.length) = [] ∧
      (CONTROL_winState b s).g_win2_State = s.g_win2_State) := by
  obtain ⟨m1, m2, w1, w2, _, _⟩ := CONTROL_winState_effect b s
  refine ⟨?_, ?_⟩
  · intro h
    have hn1 : ¬ (b.win1_open = 1 ∧ b.win1_close = 0) := by omega
    have hn2 : ¬ (b.win1_open = 0 ∧ b.win1_close = 1) := by omega
    rw [m1, w1, if_neg hn1, if_neg hn1, if_neg hn2, if_neg hn2]
    exact ⟨rfl, rfl⟩
  · intro h
    have hn1 : ¬ (b.win2_open = 1 ∧ b.win2_close = 0) := by omega
    have hn2 : ¬ (b.win2_open = 0 ∧ b.win2_close = 1) := by omega
    rw [m2, w2, if_neg hn1, if_neg hn1, if_neg hn2, if_neg hn2]
    exact ⟨rfl, rfl⟩

/-- Witness of C20: both buttons of window 1 pressed while it is open, no
button of window 2 pressed. -/
theorem C20_window_no_actuation_witness :
    motorCommands 1 (CONTROL_winState ⟨1, 1, 0, 0⟩
      { State.init (fun _ => 0xFF) [] with g_win1_State := 1 }).trace = [] ∧
    (CONTROL_winState ⟨1, 1, 0, 0⟩
      { State.init (fun _ => 0xFF) [] with g_win1_State := 1 }).g_win1_State = 1 ∧
    motorCommands 2 (CONTROL_winState ⟨1, 1, 0, 0⟩
      { State.init (fun _ => 0xFF) [] with g_win1_State := 1 }).trace = [] :=
  ⟨((C20_window_no_actuation ⟨1, 1, 0, 0⟩
      { State.init (fun _ => 0xFF) [] with g_win1_State := 1 }).1 (Or.inl ⟨rfl, rfl⟩)).1,
   ((C20_window_no_actuation ⟨1, 1, 0, 0⟩
      { State.init (fun _ => 0xFF) [] with g_win1_State := 1 }).1 (Or.inl ⟨rfl, rfl⟩)).2,
   ((C20_window_no_actuation ⟨1, 1, 0, 0⟩
      { State.init (fun _ => 0xFF) [] with g_win1_State := 1 }).2 (Or.inr ⟨rfl, rfl⟩)).1⟩

/-! ## The loop outside monitoring -/

theorem main_command_store (b temp : Nat) (rdOk : Nat → Bool) (s : State) :
    storeWrites (main_command b temp rdOk s).state.trace = storeWrites s.trace ∧
    (main_command b temp rdOk s).state.eeprom = s.eeprom := by
  by_cases h1 : b % 256 = START_MONITORING
  · obtain ⟨u, e, hc⟩ := main_command_start b temp rdOk s h1
    rw [e]
    exact ⟨congrArg LogCore.writes hc, congrArg LogCore.eeprom hc⟩
  · by_cases h4 : b % 256 = STOP_MONITORING
    · obtain ⟨u, e, hc⟩ := main_command_stop b temp rdOk s h4
      rw [e]
      exact ⟨congrArg LogCore.writes hc, congrArg LogCore.eeprom hc⟩
    · by_cases h3 : b % 256 = DETECT_FAULTS
      · cases hr : main_command b temp rdOk s with
        | stuck u =>
          have hf := (main_command_detect_stuck b temp rdOk s u h3 hr).fields
          exact ⟨hf.2.2.2.2.2.1, hf.2.2.2.2.1⟩
        | done u =>
          have hc := main_command_detect_done b temp rdOk s u h3 hr
          exact ⟨congrArg LogCore.writes hc, congrArg LogCore.eeprom hc⟩
      · have hf := (main_command_other_sameLogCore b temp rdOk s h1 h3 h4).fields
        exact ⟨hf.2.2.2.2.2.1, hf.2.2.2.2.1⟩

theorem main_poll_store (i : LoopInputs) (s : State) :
    storeWrites (main_poll i s).state.trace = storeWrites s.trace ∧
    (main_poll i s).state.eeprom = s.eeprom := by
  unfold main_poll
  cases i.dataAvailable with
  | false => exact ⟨rfl, rfl⟩
  | true =>
    simp only [if_true]
    cases hs : s.rx with
    | nil => exact ⟨rfl, rfl⟩
    | cons b rest => exact main_command_store b i.packTemp i.rdOk { s with rx := rest }

theorem Control_ECU.SameSensors.sensRefl (s : State) : SameSensors s s := ⟨rfl, rfl⟩

theorem Control_ECU.SameSensors.sensTrans {a b c : State} (h1 : SameSensors a b)
    (h2 : SameSensors b c) : SameSensors a c :=
  ⟨h2.1.trans h1.1, h2.2.trans h1.2⟩

theorem sendAcked_sameSensors (b : Nat) (s : State) : SameSensors s (sendAcked b s).state := by
  unfold sendAcked UART_waitAck
  cases waitAckRx (UART_sendByte b s).rx <;> exact ⟨rfl, rfl⟩

theorem EEPROM_readByte_sameSensors (ok : Bool) (a : Nat) (s : State) :
    SameSensors s (EEPROM_readByte ok a s).2.2 := by
  unfold EEPROM_readByte
  cases ok <;> exact ⟨rfl, rfl⟩

theorem CONTROL_winState_sameSensors (b : Buttons) (s : State) :
    SameSensors s (CONTROL_winState b s) := by
  obtain ⟨_, _, _, _, hdv, htv⟩ := CONTROL_winState_effect b s
  exact ⟨hdv, htv⟩

theorem CONTROL_sendFaults_sameSensors (rdOk : Nat → Bool) (s : State) :
    SameSensors s (CONTROL_sendFaults rdOk s).state := by
  unfold CONTROL_sendFaults
  have h0 : SameSensors s { s with EEPROM_addressRead := 0x0000 } := ⟨rfl, rfl⟩
  have hl := h0.sensTrans (CONTROL_sendFaults_loop_rel SameSensors SameSensors.sensRefl
    (fun _ _ _ => SameSensors.sensTrans) EEPROM_readByte_sameSensors sendAcked_sameSensors
    (fun _ _ => ⟨rfl, rfl⟩) rdOk (s.rx.length + 1) { s with EEPROM_addressRead := 0x0000 })
  refine Run.bind_state (SameSensors s) _ _ hl ?_
  intro s1 e1
  have h1 : SameSensors s s1 := by
    change SameSensors s (CONTROL_sendFaults_loop rdOk (s.rx.length + 1)
      { s with EEPROM_addressRead := 0x0000 }).state at hl
    rw [e1] at hl; exact hl
  refine Run.bind_state (SameSensors s) _ _ (h1.sensTrans (sendAcked_sameSensors _ _)) ?_
  intro s2 e2
  have h2 : SameSensors s s2 := by
    have := h1.sensTrans (sendAcked_sameSensors END_BYTE s1)
    rw [e2] at this; exact this
  split
  · exact h2.sensTrans ⟨rfl, rfl⟩
  · exact h2

theorem CONTROL_sendPack_sensors (t : Nat) (s : State) :
    (CONTROL_sendPack t s).state.g_distanceValue = s.g_distanceValue ∧
    (CONTROL_sendPack t s).state.g_tempValue = t % 256 := by
  refine ⟨CONTROL_sendPack_rel (fun a b : State => b.g_distanceValue = a.g_distanceValue)
    (fun _ _ _ h1 h2 => h2.trans h1) (fun _ _ => rfl)
    (fun b u => (sendAcked_sameSensors b u).1) t s, ?_⟩
  unfold CONTROL_sendPack
  simp only []
  have step : ∀ (a : State) (b : Nat) (f : State → Run State), a.g_tempValue = t % 256 →
      (∀ a1 : State, a1.g_tempValue = t % 256 → (f a1).state.g_tempValue = t % 256) →
      ((sendAcked b a).bind f).state.g_tempValue = t % 256 := by
    intro a b f ha hf
    have hb : (sendAcked b a).state.g_tempValue = t % 256 :=
      (sendAcked_sameSensors b a).2.trans ha
    refine Run.bind_state (fun u : State => u.g_tempValue = t % 256) _ _ hb ?_
    intro s1 e1
    rw [e1] at hb
    exact hf s1 hb
  refine step _ _ _ rfl fun s1 h1 => ?_
  refine step _ _ _ h1 fun s2 h2 => ?_
  refine step _ _ _ h2 fun s3 h3 => ?_
  refine step _ _ _ h3 fun s4 h4 => ?_
  exact (sendAcked_sameSensors _ s4).2.trans h4

theorem main_command_sensors (b temp : Nat) (rdOk : Nat → Bool) (s : State) :
    (main_command b temp rdOk s).state.g_distanceValue = s.g_distanceValue ∧
    (b % 256 ≠ DISPLAY_VALUES → (main_command b temp rdOk s).state.g_tempValue = s.g_tempValue) ∧
    (b % 256 = DISPLAY_VALUES → (main_command b temp rdOk s).state.g_tempValue = temp % 256) := by
  unfold main_command
  simp only []
  have hu : SameSensors s (UART_sendByte ACK s) := ⟨rfl, rfl⟩
  generalize UART_sendByte ACK s = u at hu
  unfold main_switch
  by_cases h1 : b % 256 = START_MONITORING
  · rw [if_pos h1]
    have h2 : b % 256 ≠ DISPLAY_VALUES := by rw [h1]; decide
    exact ⟨hu.1, fun _ => hu.2, fun h => absurd h h2⟩
  · rw [if_neg h1]
    by_cases h2 : b % 256 = DISPLAY_VALUES
    · rw [if_pos h2]
      obtain ⟨p1, p2⟩ := CONTROL_sendPack_sensors temp u
      exact ⟨p1.trans hu.1, fun h => absurd h2 h, fun _ => p2⟩
    · rw [if_neg h2]
      by_cases h3 : b % 256 = DETECT_FAULTS
      · rw [if_pos h3]
        have hs := hu.sensTrans (CONTROL_sendFaults_sameSensors rdOk u)
        have hfin : SameSensors s ((CONTROL_sendFaults rdOk u).bind fun s =>
            Run.done { s with g_distanceLogged := 0, g_temperatureLogged := 0 }).state := by
          refine Run.bind_state (SameSensors s) _ _ hs ?_
          intro s1 e1
          rw [e1] at hs
          exact hs
        exact ⟨hfin.1, fun _ => hfin.2, fun h => absurd h h2⟩
      · rw [if_neg h3]
        by_cases h4 : b % 256 = STOP_MONITORING
        · rw [if_pos h4]
          exact ⟨hu.1, fun _ => hu.2, fun h => absurd h h2⟩
        · rw [if_neg h4]
          exact ⟨hu.1, fun _ => hu.2, fun h => absurd h h2⟩

theorem main_poll_distanceValue (i : LoopInputs) (s : State) :
    (main_poll i s).state.g_distanceValue = s.g_distanceValue := by
  unfold main_poll
  cases i.dataAvailable with
  | false => rfl
  | true =>
    simp only [if_true]
    cases hs : s.rx with
    | nil => rfl
    | cons b rest => exact (main_command_sensors b i.packTemp i.rdOk { s with rx := rest }).1

/-- C18, counterexample: in the reset state, monitoring flag 0, a DisplayValues
byte arrives while the temperature sensor reads 77. The iteration returns with
the monitoring flag still 0, yet the temperature has been sampled: the global
holds 77 and the reply carries it. -/
theorem C18_sampling_outside_monitoring_counterexample :
    (State.init (fun _ => 0xFF) [0x02, 5, 5, 5, 5, 5]).g_Monitoring = 0 ∧
    (State.init (fun _ => 0xFF) [0x02, 5, 5, 5, 5, 5]).g_tempValue = 0 ∧
    (main_iteration (LoopInputs.nominal 50 77)
      (State.init (fun _ => 0xFF) [0x02, 5, 5, 5, 5, 5])).isDone = true ∧
    (main_iteration (LoopInputs.nominal 50 77)
      (State.init (fun _ => 0xFF) [0x02, 5, 5, 5, 5, 5])).state.g_Monitoring = 0 ∧
    (main_iteration (LoopInputs.nominal 50 77)
      (State.init (fun _ => 0xFF) [0x02, 5, 5, 5, 5, 5])).state.g_tempValue = 77 ∧
    txBytes (main_iteration (LoopInputs.nominal 50 77)
      (State.init (fun _ => 0xFF) [0x02, 5, 5, 5, 5, 5])).state.trace =
      [0x05, 0, 0, 77, 0, 0] := by
  decide

/-- C18, amended: while the monitoring flag is 0, a loop iteration with no
byte pending is just the window poll: no store write is issued and the write
cursor, both logged flags, the store and the sensor values stay as they were,
whatever the readings offered. In any iteration `readSensors` and
`detectFaults` run exactly when the monitoring flag is set once the command
part has returned. A command never samples the distance and never writes to
the store; it leaves the temperature global alone unless it is DisplayValues,
which samples the temperature whatever the monitoring flag is. So an iteration
that leaves its command part with the flag at 0 is the window poll and the
command and nothing else: the distance global and the store writes are as
before. -/
theorem C18_idle_iteration (i : LoopInputs) (s : State) :
    (s.g_Monitoring = 0 → (i.dataAvailable = false ∨ s.rx = []) →
      main_iteration i s = Run.done (CONTROL_winState i.buttons s) ∧
      storeWrites (main_iteration i s).state.trace = storeWrites s.trace ∧
      (main_iteration i s).state.EEPROM_addressWrite = s.EEPROM_addressWrite ∧
      (main_iteration i s).state.g_distanceLogged = s.g_distanceLogged ∧
      (main_iteration i s).state.g_temperatureLogged = s.g_temperatureLogged ∧
      (main_iteration i s).state.eeprom = s.eeprom ∧
      (main_iteration i s).state.g_distanceValue = s.g_distanceValue ∧
      (main_iteration i s).state.g_tempValue = s.g_tempValue) ∧
    (∀ s1, main_poll i (CONTROL_winState i.buttons s) = Run.done s1 →
      (s1.g_Monitoring = 0 → main_iteration i s = Run.done s1) ∧
      (s1.g_Monitoring ≠ 0 → main_iteration i s =
        Run.done (detectFaults i.dist i.temp i.wrDistance i.wrOverheat
          (readSensors i.sampleDist i.sampleTemp i.sampleButtons s1)))) ∧
    (∀ (b temp : Nat) (rdOk : Nat → Bool) (u : State),
      (main_command b temp rdOk u).state.g_distanceValue = u.g_distanceValue ∧
      storeWrites (main_command b temp rdOk u).state.trace = storeWrites u.trace ∧
      (main_command b temp rdOk u).state.eeprom = u.eeprom ∧
      (b % 256 ≠ DISPLAY_VALUES →
        (main_command b temp rdOk u).state.g_tempValue = u.g_tempValue) ∧
      (b % 256 = DISPLAY_VALUES →
        (main_command b temp rdOk u).state.g_tempValue = temp % 256)) ∧
    ((main_poll i (CONTROL_winState i.buttons s)).state.g_Monitoring = 0 →
      main_iteration i s = main_poll i (CONTROL_winState i.buttons s) ∧
      (main_iteration i s).state.g_distanceValue = s.g_distanceValue ∧
      storeWrites (main_iteration i s).state.trace = storeWrites s.trace ∧
      (main_iteration i s).state.eeprom = s.eeprom) := by
  refine ⟨?_, ?_, ?_, ?_⟩
  · intro hidle hnone
    have hcore := CONTROL_winState_sameLogCore i.buttons s
    obtain ⟨_, _, _, _, hdv, htv⟩ := CONTROL_winState_effect i.buttons s
    have hrx : (CONTROL_winState i.buttons s).rx = s.rx := by
      unfold CONTROL_winState
      rw [CONTROL_winState_win2_eq, CONTROL_winState_win1_eq]
    have hpoll : main_poll i (CONTROL_winState i.buttons s) =
        Run.done (CONTROL_winState i.buttons s) := by
      unfold main_poll
      rcases hnone with h | h
      · rw [h]
        rfl
      · rw [hrx, h]
        cases i.dataAvailable <;> rfl
    have hiter : main_iteration i s = Run.done (CONTROL_winState i.buttons s) := by
      unfold main_iteration
      rw [hpoll]
      simp only [Run.bind, main_monitor]
      rw [if_neg (by rw [hcore.fields.1, hidle]; decide)]
    rw [hiter]
    exact ⟨rfl, hcore.fields.2.2.2.2.2.1, hcore.fields.2.2.2.1, hcore.fields.2.1,
      hcore.fields.2.2.1, hcore.fields.2.2.2.2.1, hdv, htv⟩
  · intro s1 h
    unfold main_iteration
    rw [h]
    simp only [Run.bind, main_monitor]
    refine ⟨?_, ?_⟩
    · intro h0
      rw [if_neg (by rw [h0]; decide)]
    · intro h1
      rw [if_pos h1]
  · intro b temp rdOk u
    obtain ⟨c1, c2, c3⟩ := main_command_sensors b temp rdOk u
    obtain ⟨w1, w2⟩ := main_command_store b temp rdOk u
    exact ⟨c1, w1, w2, c2, c3⟩
  · intro h0
    have hiter : main_iteration i s = main_poll i (CONTROL_winState i.buttons s) := by
      unfold main_iteration
      cases hp : main_poll i (CONTROL_winState i.buttons s) with
      | stuck u => rfl
      | done u =>
        rw [hp] at h0
        simp only [Run.state] at h0
        simp only [Run.bind, main_monitor]
        rw [if_neg (by rw [h0]; decide)]
    rw [hiter]
    have hcore := CONTROL_winState_sameLogCore i.buttons s
    obtain ⟨p1, p2⟩ := main_poll_store i (CONTROL_winState i.buttons s)
    exact ⟨rfl,
      (main_poll_distanceValue i _).trans (CONTROL_winState_sameSensors i.buttons s).1,
      p1.trans hcore.fields.2.2.2.2.2.1, p2.trans hcore.fields.2.2.2.2.1⟩

/-- Witness of C18: an idle iteration in the reset state with no byte pending
and readings far beyond both thresholds writes nothing; a DisplayValues
iteration outside monitoring leaves the distance global and the store writes
alone. -/
theorem C18_idle_iteration_witness :
    storeWrites (main_iteration (LoopInputs.nominal 5 95)
      (State.init (fun _ => 0xFF) [])).state.trace = [] ∧
    (main_iteration (LoopInputs.nominal 5 95)
      (State.init (fun _ => 0xFF) [])).state.EEPROM_addressWrite = 0 ∧
    (main_iteration (LoopInputs.nominal 5 95)
      (State.init (fun _ => 0xFF) [])).state.g_distanceLogged = 0 ∧
    (main_iteration (LoopInputs.nominal 50 77)
      (State.init (fun _ => 0xFF) [0x02, 5, 5, 5, 5, 5])).state.g_distanceValue = 0 :=
  ⟨((C18_idle_iteration (LoopInputs.nominal 5 95) (State.init (fun _ => 0xFF) [])).1
      rfl (Or.inr rfl)).2.1,
   ((C18_idle_iteration (LoopInputs.nominal 5 95) (State.init (fun _ => 0xFF) [])).1
      rfl (Or.inr rfl)).2.2.1,
   ((C18_idle_iteration (LoopInputs.nominal 5 95) (State.init (fun _ => 0xFF) [])).1
      rfl (Or.inr rfl)).2.2.2.1,
   ((C18_idle_iteration (LoopInputs.nominal 50 77)
      (State.init (fun _ => 0xFF) [0x02, 5, 5, 5, 5, 5])).2.2.2 (by decide)).2.1⟩

/-! ## Witnesses for the cursor claims -/

/-- Witness of C11: after StartMonitoring, two iterations with both
thresholds breached leave the cursor within bounds, and a StopMonitoring
byte leaves the cursor of the reset state at 0. -/
theorem C11_write_cursor_invariant_witness :
    (main_loop [LoopInputs.nominal 5 95, LoopInputs.nominal 5 95]
      (State.init (fun _ => 0xFF) [1])).state.EEPROM_addressWrite ≤ 2048 ∧
    (main_command 0x04 25 (fun _ => true)
      (State.init (fun _ => 0xFF) [])).state.EEPROM_addressWrite = 0 :=
  ⟨C11_write_cursor_invariant.1 (fun _ => 0xFF) [1]
      [LoopInputs.nominal 5 95, LoopInputs.nominal 5 95],
   C11_write_cursor_invariant.2.2.2.2.1 0x04 25 (fun _ => true)
      (State.init (fun _ => 0xFF) []) (by decide)⟩

/-- Witness of C12: a read-out with the cursor at 0x0800 on an erased store
completes and leaves the cursor at 0. -/
theorem C12_wraparound_witness :
    (CONTROL_sendFaults (fun _ => true)
      { State.init (fun _ => 0xFF) [5] with EEPROM_addressWrite := 0x0800 }).isDone = true ∧
    (CONTROL_sendFaults (fun _ => true)
      { State.init (fun _ => 0xFF) [5] with
        EEPROM_addressWrite := 0x0800 }).state.EEPROM_addressWrite = 0 := by
  have hd := C12_wraparound.2.1 (fun _ => true)
    { State.init (fun _ => 0xFF) [5] with EEPROM_addressWrite := 0x0800 }
    (by decide) (by decide)
  refine ⟨hd, ?_⟩
  cases hr : CONTROL_sendFaults (fun _ => true)
      { State.init (fun _ => 0xFF) [5] with EEPROM_addressWrite := 0x0800 } with
  | stuck u => rw [hr] at hd; simp [Run.isDone] at hd
  | done u => exact C12_wraparound.1 (fun _ => true) _ u hr

/-! ## What is written to the store -/

theorem writtenBytes_append (l1 l2 : List Event) :
    writtenBytes (l1 ++ l2) = writtenBytes l1 ++ writtenBytes l2 := by
  induction l1 with
  | nil => rfl
  | cons e es ih => cases e <;> simp [writtenBytes, ih]

theorem writtenBytes_storeWrites (es : List Event) :
    writtenBytes (storeWrites es) = writtenBytes es := by
  induction es with
  | nil => rfl
  | cons e es ih => cases e <;> simp [storeWrites, writtenBytes, ih]

theorem detectFaults_distance_written (wr : Bool) (s : State) :
    (∃ new, writtenBytes (detectFaults_distance wr s).trace = writtenBytes s.trace ++ new ∧
      ∀ b ∈ new, b = 0x01 ∨ b = 0x02) ∧
    ∀ a, (detectFaults_distance wr s).eeprom a = s.eeprom a ∨
      (detectFaults_distance wr s).eeprom a = 0x01 ∨
      (detectFaults_distance wr s).eeprom a = 0x02 := by
  by_cases hit : s.g_distanceValue < 10 ∧ s.g_distanceLogged = 0 ∧ s.EEPROM_addressWrite ≤ 0x07FF
  · rw [detectFaults_distance_hit wr s hit.1 hit.2.1 hit.2.2]
    cases wr
    · exact ⟨⟨[0x01], by simp [writtenBytes_append, writtenBytes], by simp⟩,
        fun a => Or.inl rfl⟩
    · refine ⟨⟨[0x01], by simp [writtenBytes_append, writtenBytes], by simp⟩, fun a => ?_⟩
      simp only [if_true]
      by_cases ha : a = s.EEPROM_addressWrite
      · right; left
        rw [ha]
        simp
      · left
        simp [Function.update, ha]
  · rw [detectFaults_distance_miss wr s hit]
    exact ⟨⟨[], by simp, by simp⟩, fun a => Or.inl rfl⟩

theorem detectFaults_overheat_written (wr : Bool) (s : State) :
    (∃ new, writtenBytes (detectFaults_overheat wr s).trace = writtenBytes s.trace ++ new ∧
      ∀ b ∈ new, b = 0x01 ∨ b = 0x02) ∧
    ∀ a, (detectFaults_overheat wr s).eeprom a = s.eeprom a ∨
      (detectFaults_overheat wr s).eeprom a = 0x01 ∨
      (detectFaults_overheat wr s).eeprom a = 0x02 := by
  by_cases hit : s.g_tempValue > 90 ∧ s.g_temperatureLogged = 0 ∧ s.EEPROM_addressWrite ≤ 0x07FF
  · rw [detectFaults_overheat_hit wr s hit.1 hit.2.1 hit.2.2]
    cases wr
    · exact ⟨⟨[0x02], by simp [writtenBytes_append, writtenBytes], by simp⟩,
        fun a => Or.inl rfl⟩
    · refine ⟨⟨[0x02], by simp [writtenBytes_append, writtenBytes], by simp⟩, fun a => ?_⟩
      simp only [if_true]
      by_cases ha : a = s.EEPROM_addressWrite
      · right; right
        rw [ha]
        simp
      · left
        simp [Function.update, ha]
  · rw [detectFaults_overheat_miss wr s hit]
    exact ⟨⟨[], by simp, by simp⟩, fun a => Or.inl rfl⟩

theorem Control_ECU.OnlyFaultCodes.keptBySame {e0 : Nat → Nat} {base : List Nat} {s s1 : State}
    (h : OnlyFaultCodes e0 base s) (hw : storeWrites s1.trace = storeWrites s.trace)
    (he : s1.eeprom = s.eeprom) : OnlyFaultCodes e0 base s1 := by
  obtain ⟨⟨new, e, hb⟩, hs⟩ := h
  refine ⟨⟨new, ?_, hb⟩, fun a => by rw [he]; exact hs a⟩
  rw [← writtenBytes_storeWrites, hw, writtenBytes_storeWrites, e]

theorem Control_ECU.OnlyFaultCodes.ofStep {e0 : Nat → Nat} {base : List Nat} {s s1 : State}
    (h : OnlyFaultCodes e0 base s)
    (hw : ∃ new, writtenBytes s1.trace = writtenBytes s.trace ++ new ∧
      ∀ b ∈ new, b = 0x01 ∨ b = 0x02)
    (he : ∀ a, s1.eeprom a = s.eeprom a ∨ s1.eeprom a = 0x01 ∨ s1.eeprom a = 0x02) :
    OnlyFaultCodes e0 base s1 := by
  obtain ⟨⟨new, e, hb⟩, hs⟩ := h
  obtain ⟨new2, e2, hb2⟩ := hw
  refine ⟨⟨new ++ new2, by rw [e2, e, List.append_assoc], ?_⟩, fun a => ?_⟩
  · intro b hbm
    rcases List.mem_append.mp hbm with hm | hm
    · exact hb b hm
    · exact hb2 b hm
  · rcases he a with h1 | h1
    · rw [h1]; exact hs a
    · exact Or.inr h1

theorem detectFaults_onlyFaultCodes (e0 : Nat → Nat) (base : List Nat) (dist temp : Nat)
    (wrD wrT : Bool) (s : State) (h : OnlyFaultCodes e0 base s) :
    OnlyFaultCodes e0 base (detectFaults dist temp wrD wrT s) := by
  rw [detectFaults_eq_mid]
  have h0 : OnlyFaultCodes e0 base (detectFaults_sample dist temp s) := h
  have h1 : OnlyFaultCodes e0 base (detectFaults_mid dist temp wrD s) :=
    h0.ofStep (detectFaults_distance_written wrD _).1 (detectFaults_distance_written wrD _).2
  exact h1.ofStep (detectFaults_overheat_written wrT _).1 (detectFaults_overheat_written wrT _).2

theorem main_iteration_onlyFaultCodes (e0 : Nat → Nat) (base : List Nat) (i : LoopInputs)
    (s : State) (h : OnlyFaultCodes e0 base s) :
    OnlyFaultCodes e0 base (main_iteration i s).state := by
  unfold main_iteration
  have hw : OnlyFaultCodes e0 base (CONTROL_winState i.buttons s) :=
    h.keptBySame (CONTROL_winState_sameLogCore i.buttons s).fields.2.2.2.2.2.1
      (CONTROL_winState_sameLogCore i.buttons s).fields.2.2.2.2.1
  have hp : OnlyFaultCodes e0 base (main_poll i (CONTROL_winState i.buttons s)).state :=
    hw.keptBySame (main_poll_store i _).1 (main_poll_store i _).2
  refine Run.bind_state (OnlyFaultCodes e0 base) _ _ hp ?_
  intro s1 e1
  rw [e1] at hp
  simp only [Run.state] at hp ⊢
  unfold main_monitor
  split
  · apply detectFaults_onlyFaultCodes
    exact hp.keptBySame (readSensors_sameLogCore _ _ _ s1).fields.2.2.2.2.2.1
      (readSensors_sameLogCore _ _ _ s1).fields.2.2.2.2.1
  · exact hp

theorem main_loop_onlyFaultCodes (e0 : Nat → Nat) (base : List Nat) (inputs : List LoopInputs)
    (s : State) (h : OnlyFaultCodes e0 base s) :
    OnlyFaultCodes e0 base (main_loop inputs s).state := by
  induction inputs generalizing s with
  | nil => exact h
  | cons i rest ih =>
    unfold main_loop
    have hi := main_iteration_onlyFaultCodes e0 base i s h
    refine Run.bind_state (OnlyFaultCodes e0 base) _ _ hi ?_
    intro s1 e1
    rw [e1] at hi
    exact ih s1 hi

/-- C21: over any run of the main loop from any state, with any readings,
pins, store outcomes and received bytes, completed or stalled, every byte
handed to `EEPROM_writeByte` during the run is 0x01 or 0x02, so never 0x00,
0xFF or 0x54, and every store slot holds what it held before the run or one of
these two codes. -/
theorem C21_only_fault_codes_written (inputs : List LoopInputs) (s : State) :
    (∃ new, writtenBytes (main_loop inputs s).state.trace = writtenBytes s.trace ++ new ∧
      ∀ b ∈ new, (b = 0x01 ∨ b = 0x02) ∧ b ≠ 0x00 ∧ b ≠ 0xFF ∧ b ≠ 0x54) ∧
    (∀ a, (main_loop inputs s).state.eeprom a = s.eeprom a ∨
      (main_loop inputs s).state.eeprom a = 0x01 ∨
      (main_loop inputs s).state.eeprom a = 0x02) := by
  obtain ⟨⟨new, e, hb⟩, hs⟩ := main_loop_onlyFaultCodes s.eeprom (writtenBytes s.trace) inputs s
    ⟨⟨[], by simp, by simp⟩, fun a => Or.inl rfl⟩
  refine ⟨⟨new, e, ?_⟩, hs⟩
  intro b hbm
  have := hb b hbm
  refine ⟨this, ?_, ?_, ?_⟩ <;> omega

/-! ## The full log -/

theorem detectFaults_full (dist temp : Nat) (wrD wrT : Bool) (s : State)
    (h : 0x07FF < s.EEPROM_addressWrite) :
    detectFaults dist temp wrD wrT s = detectFaults_sample dist temp s := by
  rw [detectFaults_eq_mid]
  have hm : detectFaults_mid dist temp wrD s = detectFaults_sample dist temp s := by
    unfold detectFaults_mid
    apply detectFaults_distance_miss
    intro hc
    have : (detectFaults_sample dist temp s).EEPROM_addressWrite = s.EEPROM_addressWrite := rfl
    omega
  rw [hm]
  apply detectFaults_overheat_miss
  intro hc
  have : (detectFaults_sample dist temp s).EEPROM_addressWrite = s.EEPROM_addressWrite := rfl
  omega

theorem runTicks_full (ticks : List (Nat × Nat × Bool × Bool)) (s : State)
    (h : 0x07FF < s.EEPROM_addressWrite) :
    (runTicks ticks s).trace = s.trace ∧
    (runTicks ticks s).EEPROM_addressWrite = s.EEPROM_addressWrite ∧
    (runTicks ticks s).g_distanceLogged = s.g_distanceLogged ∧
    (runTicks ticks s).g_temperatureLogged = s.g_temperatureLogged ∧
    (runTicks ticks s).eeprom = s.eeprom := by
  induction ticks generalizing s with
  | nil => exact ⟨rfl, rfl, rfl, rfl, rfl⟩
  | cons r rest ih =>
    simp only [runTicks]
    rw [detectFaults_full _ _ _ _ s h]
    exact ih (detectFaults_sample r.1 r.2.1 s) h

theorem Control_ECU.LogFrozen.keptByCore {s0 s s1 : State} (h : LogFrozen s0 s)
    (hc : SameLogCore s s1) (hrx : ∀ b ∈ s1.rx, b ∈ s.rx) : LogFrozen s0 s1 := by
  obtain ⟨h1, h2, h3, h4, h5, h6⟩ := h
  obtain ⟨_, f2, f3, f4, f5, f6, _⟩ := hc.fields
  exact ⟨fun b hb => h1 b (hrx b hb), f4.trans h2, f2.trans h3, f3.trans h4, f5.trans h5,
    f6.trans h6⟩

theorem main_command_logFrozen (s0 : State) (b temp : Nat) (rdOk : Nat → Bool) (s : State)
    (hb : b % 256 ≠ DETECT_FAULTS)
    (hrx : ∀ c ∈ (main_command b temp rdOk s).state.rx, c ∈ s.rx)
    (h : LogFrozen s0 s) : LogFrozen s0 (main_command b temp rdOk s).state := by
  obtain ⟨h1, h2, h3, h4, h5, h6⟩ := h
  have key : (main_command b temp rdOk s).state.EEPROM_addressWrite = s.EEPROM_addressWrite ∧
      (main_command b temp rdOk s).state.g_distanceLogged = s.g_distanceLogged ∧
      (main_command b temp rdOk s).state.g_temperatureLogged = s.g_temperatureLogged := by
    by_cases c1 : b % 256 = START_MONITORING
    · obtain ⟨u, e, hc⟩ := main_command_start b temp rdOk s c1
      rw [e]
      exact ⟨congrArg LogCore.EEPROM_addressWrite hc, congrArg LogCore.g_distanceLogged hc,
        congrArg LogCore.g_temperatureLogged hc⟩
    · by_cases c4 : b % 256 = STOP_MONITORING
      · obtain ⟨u, e, hc⟩ := main_command_stop b temp rdOk s c4
        rw [e]
        exact ⟨congrArg LogCore.EEPROM_addressWrite hc, congrArg LogCore.g_distanceLogged hc,
          congrArg LogCore.g_temperatureLogged hc⟩
      · have hf := (main_command_other_sameLogCore b temp rdOk s c1 hb c4).fields
        exact ⟨hf.2.2.2.1, hf.2.1, hf.2.2.1⟩
  have hst := main_command_store b temp rdOk s
  exact ⟨fun c hc => h1 c (hrx c hc), key.1.trans h2, key.2.1.trans h3, key.2.2.trans h4,
    hst.2.trans h5, hst.1.trans h6⟩

theorem main_poll_logFrozen (s0 : State) (i : LoopInputs) (s : State)
    (h : LogFrozen s0 s) : LogFrozen s0 (main_poll i s).state := by
  have hn := (main_poll_distanceNeutral i s h.1).2.2
  revert hn
  unfold main_poll
  cases i.dataAvailable with
  | false => exact fun _ => h
  | true =>
    simp only [if_true]
    cases hs : s.rx with
    | nil => exact fun _ => h
    | cons b rest =>
      intro hn
      simp only [] at hn ⊢
      have hb : b % 256 ≠ DETECT_FAULTS := h.1 b (by rw [hs]; exact List.mem_cons_self _ _)
      have h1 : LogFrozen s0 { s with rx := rest } :=
        ⟨fun c hc => h.1 c (by rw [hs]; exact List.mem_cons_of_mem _ hc), h.2⟩
      exact main_command_logFrozen s0 b i.packTemp i.rdOk { s with rx := rest } hb
        (main_command_distanceNeutral b i.packTemp i.rdOk { s with rx := rest } hb).2.2 h1

theorem main_iteration_logFrozen (s0 : State) (i : LoopInputs) (s : State)
    (hfull : 0x07FF < s0.EEPROM_addressWrite)
    (h : LogFrozen s0 s) : LogFrozen s0 (main_iteration i s).state := by
  unfold main_iteration
  have hw : LogFrozen s0 (CONTROL_winState i.buttons s) :=
    h.keptByCore (CONTROL_winState_sameLogCore i.buttons s)
      (CONTROL_winState_distanceNeutral i.buttons s).2.2
  have hp := main_poll_logFrozen s0 i _ hw
  refine Run.bind_state (LogFrozen s0) _ _ hp ?_
  intro s1 e1
  rw [e1] at hp
  simp only [Run.state] at hp ⊢
  unfold main_monitor
  split
  · have hr : LogFrozen s0 (readSensors i.sampleDist i.sampleTemp i.sampleButtons s1) :=
      hp.keptByCore (readSensors_sameLogCore _ _ _ s1) (readSensors_distanceNeutral _ _ _ s1).2.2
    rw [detectFaults_full _ _ _ _ _ (by rw [hr.2.1]; exact hfull)]
    exact hr
  · exact hp

theorem main_loop_logFrozen (s0 : State) (inputs : List LoopInputs) (s : State)
    (hfull : 0x07FF < s0.EEPROM_addressWrite)
    (h : LogFrozen s0 s) : LogFrozen s0 (main_loop inputs s).state := by
  induction inputs generalizing s with
  | nil => exact h
  | cons i rest ih =>
    unfold main_loop
    have hi := main_iteration_logFrozen s0 i s hfull h
    refine Run.bind_state (LogFrozen s0) _ _ hi ?_
    intro s1 e1
    rw [e1] at hi
    exact ih s1 hi

/-- C27: with the write cursor above 0x07FF, a monitoring tick only samples:
for every distance, temperature and write outcome it appends nothing to the
trace (no store write is issued) and leaves the cursor, both logged flags and
the store unchanged; the same holds for any run of ticks; and over any run of
the main loop in which the peer sends no DetectFaults byte, no store write is
issued and the cursor, the flags and the store stay as they were. -/
theorem C27_full_log_drops_faults (s : State) (h : 0x07FF < s.EEPROM_addressWrite) :
    (∀ dist temp wrD wrT,
      detectFaults dist temp wrD wrT s = detectFaults_sample dist temp s ∧
      (detectFaults dist temp wrD wrT s).trace = s.trace ∧
      (detectFaults dist temp wrD wrT s).EEPROM_addressWrite = s.EEPROM_addressWrite ∧
      (detectFaults dist temp wrD wrT s).g_distanceLogged = s.g_distanceLogged ∧
      (detectFaults dist temp wrD wrT s).g_temperatureLogged = s.g_temperatureLogged ∧
      (detectFaults dist temp wrD wrT s).eeprom = s.eeprom) ∧
    (∀ ticks,
      (runTicks ticks s).trace = s.trace ∧
      (runTicks ticks s).EEPROM_addressWrite = s.EEPROM_addressWrite ∧
      (runTicks ticks s).g_distanceLogged = s.g_distanceLogged ∧
      (runTicks ticks s).g_temperatureLogged = s.g_temperatureLogged ∧
      (runTicks ticks s).eeprom = s.eeprom) ∧
    (∀ inputs, (∀ b ∈ s.rx, b % 256 ≠ DETECT_FAULTS) →
      storeWrites (main_loop inputs s).state.trace = storeWrites s.trace ∧
      (main_loop inputs s).state.EEPROM_addressWrite = s.EEPROM_addressWrite ∧
      (main_loop inputs s).state.g_distanceLogged = s.g_distanceLogged ∧
      (main_loop inputs s).state.g_temperatureLogged = s.g_temperatureLogged ∧
      (main_loop inputs s).state.eeprom = s.eeprom) := by
  refine ⟨fun dist temp wrD wrT => ?_, fun ticks => runTicks_full ticks s h,
    fun inputs hrx => ?_⟩
  · rw [detectFaults_full dist temp wrD wrT s h]
    exact ⟨rfl, rfl, rfl, rfl, rfl, rfl⟩
  · obtain ⟨_, h2, h3, h4, h5, h6⟩ := main_loop_logFrozen s inputs s h
      ⟨hrx, rfl, rfl, rfl, rfl, rfl⟩
    exact ⟨h6, h2, h3, h4, h5⟩

theorem C27_full_log_drops_faults_witness :
    (detectFaults 3 120 true true
        { State.init fullLogStore [] with EEPROM_addressWrite := 0x0800 }).trace = [] ∧
    (detectFaults 3 120 true true
        { State.init fullLogStore [] with EEPROM_addressWrite := 0x0800 }).EEPROM_addressWrite
      = 0x0800 :=
  ⟨((C27_full_log_drops_faults
      { State.init fullLogStore [] with EEPROM_addressWrite := 0x0800 }
      (by decide)).1 3 120 true true).2.1,
   ((C27_full_log_drops_faults
      { State.init fullLogStore [] with EEPROM_addressWrite := 0x0800 }
      (by decide)).1 3 120 true true).2.2.1⟩

/-! ## The fault stream for any number of acknowledgments -/

theorem storedFaults_length_le (eeprom : Nat → Nat) (rdOk : Nat → Bool) (n : Nat) :
    ∀ a, (storedFaults eeprom rdOk n a).length ≤ n := by
  induction n with
  | zero => intro a; simp [storedFaults]
  | succ n ih =>
    intro a
    simp only [storedFaults]
    split
    · simp only [List.length_cons]
      have := ih (a + 1)
      omega
    · simp

theorem storedFaults_good (eeprom : Nat → Nat) (rdOk : Nat → Bool) (n : Nat) :
    ∀ a x, a ≤ x → x < a + (storedFaults eeprom rdOk n a).length →
      rdOk x = true ∧ eeprom x % 256 ≠ 0xFF ∧ eeprom x % 256 ≠ 0x00 := by
  induction n with
  | zero => intro a x h1 h2; simp [storedFaults] at h2; omega
  | succ n ih =>
    intro a x h1 h2
    simp only [storedFaults] at h2
    split at h2
    · rename_i hc
      by_cases hx : x = a
      · rw [hx]; exact hc
      · simp only [List.length_cons] at h2
        exact ih (a + 1) x (by omega) (by omega)
    · simp at h2; omega

theorem storedFaults_stop (eeprom : Nat → Nat) (rdOk : Nat → Bool) (n : Nat) :
    ∀ a, (storedFaults eeprom rdOk n a).length < n →
      ¬ (rdOk (a + (storedFaults eeprom rdOk n a).length) = true ∧
        eeprom (a + (storedFaults eeprom rdOk n a).length) % 256 ≠ 0xFF ∧
        eeprom (a + (storedFaults eeprom rdOk n a).length) % 256 ≠ 0x00) := by
  induction n with
  | zero => intro a h; omega
  | succ n ih =>
    intro a h
    simp only [storedFaults] at h ⊢
    split
    · rename_i hc
      rw [if_pos hc] at h
      simp only [List.length_cons] at h ⊢
      have := ih (a + 1) (by omega)
      rw [show a + ((storedFaults eeprom rdOk n (a + 1)).length + 1) =
        a + 1 + (storedFaults eeprom rdOk n (a + 1)).length by omega]
      exact this
    · rename_i hc
      simpa using hc

theorem storedFaults_eq_map (eeprom : Nat → Nat) (rdOk : Nat → Bool) (n : Nat) :
    ∀ a, storedFaults eeprom rdOk n a =
      (List.range' a (storedFaults eeprom rdOk n a).length).map (fun x => eeprom x % 256) := by
  induction n with
  | zero => intro a; simp [storedFaults]
  | succ n ih =>
    intro a
    simp only [storedFaults]
    split
    · simp only [List.length_cons, List.range'_succ, List.map_cons]
      rw [← ih (a + 1)]
    · simp

theorem storedFaults_of_good (eeprom : Nat → Nat) (rdOk : Nat → Bool) (k : Nat) :
    ∀ n a, k ≤ n →
      (∀ x, a ≤ x → x < a + k → rdOk x = true ∧ eeprom x % 256 ≠ 0xFF ∧ eeprom x % 256 ≠ 0x00) →
      (k < n → ¬ (rdOk (a + k) = true ∧ eeprom (a + k) % 256 ≠ 0xFF ∧
        eeprom (a + k) % 256 ≠ 0x00)) →
      storedFaults eeprom rdOk n a = (List.range' a k).map (fun x => eeprom x % 256) := by
  induction k with
  | zero =>
    intro n a _ _ hstop
    cases n with
    | zero => simp [storedFaults]
    | succ n =>
      simp only [storedFaults]
      rw [if_neg (by simpa using hstop (by omega))]
      simp
  | succ k ih =>
    intro n a hk hgood hstop
    cases n with
    | zero => omega
    | succ n =>
      simp only [storedFaults]
      rw [if_pos (hgood a (Nat.le_refl a) (by omega))]
      simp only [List.range'_succ, List.map_cons]
      rw [ih n (a + 1) (by omega) (fun x h1 h2 => hgood x (by omega) (by omega))
        (fun h => by
          have := hstop (by omega)
          rw [show a + 1 + k = a + (k + 1) by omega]
          exact this)]

theorem CONTROL_sendFaults_loop_stream (rdOk : Nat → Bool) (n : Nat) :
    ∀ (fuel : Nat) (s : State), s.rx.length < fuel →
      s.EEPROM_addressRead + n = s.EEPROM_addressWrite + 1 →
      s.EEPROM_addressRead + (storedFaults s.eeprom rdOk n s.EEPROM_addressRead).length
        ≤ 65535 →
      ∃ evs, (CONTROL_sendFaults_loop rdOk fuel s).state.trace = s.trace ++ evs ∧
        txBytes evs = (storedFaults s.eeprom rdOk n s.EEPROM_addressRead).take
          (ackCount s.rx + 1) ∧
        ((CONTROL_sendFaults_loop rdOk fuel s).isDone = true ↔
          (storedFaults s.eeprom rdOk n s.EEPROM_addressRead).length ≤ ackCount s.rx) ∧
        (CONTROL_sendFaults_loop rdOk fuel s).state.EEPROM_addressWrite
          = s.EEPROM_addressWrite ∧
        ((storedFaults s.eeprom rdOk n s.EEPROM_addressRead).length ≤ ackCount s.rx →
          ackCount (CONTROL_sendFaults_loop rdOk fuel s).state.rx = ackCount s.rx -
            (storedFaults s.eeprom rdOk n s.EEPROM_addressRead).length) := by
  induction n with
  | zero =>
    intro fuel s hf hn _
    cases fuel with
    | zero => omega
    | succ f =>
      unfold CONTROL_sendFaults_loop
      rw [if_neg (by omega)]
      exact ⟨[], by simp [Run.state], by simp [storedFaults, txBytes],
        by simp [Run.isDone, storedFaults], rfl, fun _ => by simp [Run.state, storedFaults]⟩
  | succ n ih =>
    intro fuel s hf hn hlen
    cases fuel with
    | zero => omega
    | succ f =>
      have hle : s.EEPROM_addressRead ≤ s.EEPROM_addressWrite := by omega
      unfold CONTROL_sendFaults_loop
      rw [if_pos hle]
      by_cases hc : rdOk s.EEPROM_addressRead = true ∧
          s.eeprom s.EEPROM_addressRead % 256 ≠ 0xFF ∧
          s.eeprom s.EEPROM_addressRead % 256 ≠ 0x00
      · obtain ⟨hok, hFF, h00⟩ := hc
        have hsf : storedFaults s.eeprom rdOk (n + 1) s.EEPROM_addressRead =
            s.eeprom s.EEPROM_addressRead % 256 ::
              storedFaults s.eeprom rdOk n (s.EEPROM_addressRead + 1) := by
          simp only [storedFaults]
          rw [if_pos ⟨hok, hFF, h00⟩]
        rw [hsf] at hlen ⊢
        simp only [List.length_cons] at hlen ⊢
        simp only [EEPROM_readByte, hok, if_true]
        rw [if_neg (by
          intro h
          rcases h with h | h
          · exact hFF h
          · exact h00 h)]
        by_cases hpos : 0 < ackCount s.rx
        · rw [sendAcked_of_ackCount _ _ (by simpa using hpos)]
          simp only [Run.bind]
          have hmod : (s.EEPROM_addressRead + 1) % 65536 = s.EEPROM_addressRead + 1 := by omega
          rw [hmod]
          obtain ⟨evs, e1, e2, e3, e4, e5⟩ := ih f
            { s with
              trace := s.trace ++ [Event.eepromRead s.EEPROM_addressRead true] ++
                [Event.tx (s.eeprom s.EEPROM_addressRead % 256 % 256)],
              rx := afterAck s.rx,
              EEPROM_addressRead := s.EEPROM_addressRead + 1 }
            (by have := afterAck_length_lt s.rx hpos; simp only []; omega)
            (by simp only []; omega)
            (by simp only []; omega)
          simp only [ackCount_afterAck] at e1 e2 e3 e4 e5
          refine ⟨[Event.eepromRead s.EEPROM_addressRead true,
            Event.tx (s.eeprom s.EEPROM_addressRead % 256 % 256)] ++ evs, ?_, ?_, ?_, e4, ?_⟩
          · rw [e1]
            simp [List.append_assoc]
          · rw [txBytes_append, e2, show ackCount s.rx - 1 + 1 = ackCount s.rx by omega]
            simp [txBytes, Nat.mod_mod]
          · rw [e3]
            omega
          · intro h
            rw [e5 (by omega)]
            omega
        · have h0 : ackCount s.rx = 0 := by omega
          rw [sendAcked_of_ackCount_zero _ _ (by simpa using h0)]
          refine ⟨[Event.eepromRead s.EEPROM_addressRead true,
            Event.tx (s.eeprom s.EEPROM_addressRead % 256 % 256)], ?_, ?_, ?_, ?_, ?_⟩
          · simp [Run.bind, Run.state, List.append_assoc]
          · rw [h0]
            simp [txBytes, Nat.mod_mod]
          · rw [h0]
            simp [Run.bind, Run.isDone]
          · simp [Run.bind, Run.state]
          · intro h
            omega
      · have hsf : storedFaults s.eeprom rdOk (n + 1) s.EEPROM_addressRead = [] := by
          simp only [storedFaults]
          rw [if_neg hc]
        rw [hsf]
        cases hok : rdOk s.EEPROM_addressRead with
        | false =>
          refine ⟨[Event.eepromRead s.EEPROM_addressRead false], ?_, ?_, ?_, ?_, ?_⟩ <;>
            simp [EEPROM_readByte, Run.state, Run.isDone, txBytes]
        | true =>
          have hs : s.eeprom s.EEPROM_addressRead % 256 = 0xFF ∨
              s.eeprom s.EEPROM_addressRead % 256 = 0x00 := by
            by_contra hcon
            exact hc ⟨hok, fun h => hcon (Or.inl h), fun h => hcon (Or.inr h)⟩
          simp only [EEPROM_readByte, if_true]
          rw [if_pos hs]
          refine ⟨[Event.eepromRead s.EEPROM_addressRead true], ?_, ?_, ?_, ?_, ?_⟩ <;>
            simp [Run.state, Run.isDone, txBytes]

theorem CONTROL_sendFaults_stream (rdOk : Nat → Bool) (s : State)
    (hlen : (storedFaults s.eeprom rdOk (s.EEPROM_addressWrite + 1) 0).length ≤ 65535) :
    ∃ evs, (CONTROL_sendFaults rdOk s).state.trace = s.trace ++ evs ∧
      txBytes evs = (storedFaults s.eeprom rdOk (s.EEPROM_addressWrite + 1) 0 ++ [0x54]).take
        (ackCount s.rx + 1) ∧
      ((CONTROL_sendFaults rdOk s).isDone = true ↔
        (storedFaults s.eeprom rdOk (s.EEPROM_addressWrite + 1) 0).length + 1 ≤
          ackCount s.rx) := by
  obtain ⟨evs, e1, e2, e3, _, e5⟩ := CONTROL_sendFaults_loop_stream rdOk
    (s.EEPROM_addressWrite + 1) (s.rx.length + 1) { s with EEPROM_addressRead := 0x0000 }
    (by simp only []; omega) (by simp only []; omega) (by simp only []; omega)
  simp only [] at e1 e2 e3 e5
  unfold CONTROL_sendFaults
  simp only []
  cases hL : CONTROL_sendFaults_loop rdOk (s.rx.length + 1)
      { s with EEPROM_addressRead := 0x0000 } with
  | stuck u =>
    rw [hL] at e1 e3
    simp only [Run.state, Run.isDone] at e1 e3
    have hlt : ackCount s.rx <
        (storedFaults s.eeprom rdOk (s.EEPROM_addressWrite + 1) 0).length := by
      by_contra hcon
      have := e3.mpr (by omega)
      simp at this
    refine ⟨evs, by simpa [Run.bind, Run.state] using e1, ?_, ?_⟩
    · rw [e2, List.take_append_of_le_length (by omega)]
    · simp only [Run.bind, Run.isDone]
      constructor
      · intro h; simp at h
      · intro h; omega
  | done u =>
    rw [hL] at e1 e3 e5
    simp only [Run.state, Run.isDone] at e1 e3 e5
    have hle := e3.mp trivial
    have hack := e5 hle
    simp only [Run.bind]
    have htake : txBytes evs = storedFaults s.eeprom rdOk (s.EEPROM_addressWrite + 1) 0 := by
      rw [e2, List.take_of_length_le (by omega)]
    by_cases hpos : 0 < ackCount u.rx
    · rw [sendAcked_of_ackCount END_BYTE u hpos]
      simp only []
      refine ⟨evs ++ [Event.tx (END_BYTE % 256)], ?_, ?_, ?_⟩
      · split <;> simp [Run.state, e1, List.append_assoc]
      · rw [txBytes_append, htake, List.take_of_length_le (by simp; omega)]
        rfl
      · have : (storedFaults s.eeprom rdOk (s.EEPROM_addressWrite + 1) 0).length + 1 ≤
            ackCount s.rx := by omega
        split <;> simp [Run.isDone, this]
    · rw [sendAcked_of_ackCount_zero END_BYTE u (by omega)]
      refine ⟨evs ++ [Event.tx (END_BYTE % 256)], ?_, ?_, ?_⟩
      · simp [Run.state, e1, List.append_assoc]
      · rw [txBytes_append, htake, List.take_of_length_le (by simp; omega)]
        rfl
      · simp only [Run.isDone]
        constructor
        · intro h; simp at h
        · intro h; omega

theorem CONTROL_sendFaults_loop_never (rdOk : Nat → Bool) :
    ∀ (fuel : Nat) (s : State), 65535 ≤ s.EEPROM_addressWrite →
      s.EEPROM_addressRead ≤ 65535 →
      (∀ a, a ≤ 65535 → rdOk a = true ∧ s.eeprom a % 256 ≠ 0xFF ∧ s.eeprom a % 256 ≠ 0x00) →
      (CONTROL_sendFaults_loop rdOk fuel s).isDone = false := by
  intro fuel
  induction fuel with
  | zero => intro s _ _ _; rfl
  | succ f ih =>
    intro s hw hr hgood
    obtain ⟨hok, hFF, h00⟩ := hgood s.EEPROM_addressRead hr
    unfold CONTROL_sendFaults_loop
    rw [if_pos (by omega)]
    simp only [EEPROM_readByte, hok, if_true]
    rw [if_neg (by
      intro h
      rcases h with h | h
      · exact hFF h
      · exact h00 h)]
    by_cases hpos : 0 < ackCount s.rx
    · rw [sendAcked_of_ackCount _ _ (by simpa using hpos)]
      simp only [Run.bind]
      exact ih _ hw (by simp only []; omega) hgood
    · rw [sendAcked_of_ackCount_zero _ _ (by simp only []; omega)]
      rfl

theorem CONTROL_sendFaults_done_length (rdOk : Nat → Bool) (s s1 : State)
    (h : CONTROL_sendFaults rdOk s = Run.done s1) :
    (storedFaults s.eeprom rdOk (s.EEPROM_addressWrite + 1) 0).length ≤ 65535 := by
  by_contra hcon
  have hl := storedFaults_length_le s.eeprom rdOk (s.EEPROM_addressWrite + 1) 0
  have hgood : ∀ a, a ≤ 65535 →
      rdOk a = true ∧ s.eeprom a % 256 ≠ 0xFF ∧ s.eeprom a % 256 ≠ 0x00 := fun a ha =>
    storedFaults_good s.eeprom rdOk (s.EEPROM_addressWrite + 1) 0 a (Nat.zero_le a) (by omega)
  have hn := CONTROL_sendFaults_loop_never rdOk (s.rx.length + 1)
    { s with EEPROM_addressRead := 0x0000 } (by simp only []; omega) (by simp only []; omega)
    hgood
  unfold CONTROL_sendFaults at h
  simp only [] at h
  cases hL : CONTROL_sendFaults_loop rdOk (s.rx.length + 1)
      { s with EEPROM_addressRead := 0x0000 } with
  | stuck u =>
    rw [hL] at h
    simp [Run.bind] at h
  | done u =>
    rw [hL] at hn
    simp [Run.isDone] at hn

theorem CONTROL_sendPack_stream (t : Nat) (s : State) :
    ∃ evs, (CONTROL_sendPack t s).state.trace = s.trace ++ evs ∧
      txBytes evs =
        [(s.g_distanceValue >>> 8) % 256, (s.g_distanceValue &&& 0xFF) % 256, t % 256,
          s.g_win1_State % 256, s.g_win2_State % 256].take (ackCount s.rx + 1) ∧
      ((CONTROL_sendPack t s).isDone = true ↔ 5 ≤ ackCount s.rx) := by
  unfold CONTROL_sendPack
  simp only []
  by_cases h1 : 0 < ackCount s.rx
  · rw [sendAcked_of_ackCount _ _ (by simpa using h1)]
    simp only [Run.bind]
    by_cases h2 : 1 < ackCount s.rx
    · rw [sendAcked_of_ackCount _ _ (by simp only [ackCount_afterAck]; omega)]
      simp only [Run.bind]
      by_cases h3 : 2 < ackCount s.rx
      · rw [sendAcked_of_ackCount _ _ (by simp only [ackCount_afterAck]; omega)]
        simp only [Run.bind]
        by_cases h4 : 3 < ackCount s.rx
        · rw [sendAcked_of_ackCount _ _ (by simp only [ackCount_afterAck]; omega)]
          simp only [Run.bind]
          by_cases h5 : 4 < ackCount s.rx
          · rw [sendAcked_of_ackCount _ _ (by simp only [ackCount_afterAck]; omega)]
            refine ⟨[Event.tx ((s.g_distanceValue >>> 8) % 256),
              Event.tx ((s.g_distanceValue &&& 0xFF) % 256), Event.tx (t % 256 % 256),
              Event.tx (s.g_win1_State % 256), Event.tx (s.g_win2_State % 256)], ?_, ?_, ?_⟩
            · simp [Run.state, List.append_assoc]
            · rw [List.take_of_length_le (by simp; omega)]
              simp [txBytes, Nat.mod_mod]
            · simp [Run.isDone]; omega
          · rw [sendAcked_of_ackCount_zero _ _ (by simp only [ackCount_afterAck]; omega)]
            have h : ackCount s.rx = 4 := by omega
            refine ⟨[Event.tx ((s.g_distanceValue >>> 8) % 256),
              Event.tx ((s.g_distanceValue &&& 0xFF) % 256), Event.tx (t % 256 % 256),
              Event.tx (s.g_win1_State % 256), Event.tx (s.g_win2_State % 256)], ?_, ?_, ?_⟩
            · simp [Run.state, List.append_assoc]
            · rw [h]
              simp [txBytes, Nat.mod_mod]
            · simp [Run.isDone]; omega
        · rw [sendAcked_of_ackCount_zero _ _ (by simp only [ackCount_afterAck]; omega)]
          have h : ackCount s.rx = 3 := by omega
          refine ⟨[Event.tx ((s.g_distanceValue >>> 8) % 256),
            Event.tx ((s.g_distanceValue &&& 0xFF) % 256), Event.tx (t % 256 % 256),
            Event.tx (s.g_win1_State % 256)], ?_, ?_, ?_⟩
          · simp [Run.state, List.append_assoc]
          · rw [h]
            simp [txBytes, Nat.mod_mod]
          · simp [Run.isDone]; omega
      · rw [sendAcked_of_ackCount_zero _ _ (by simp only [ackCount_afterAck]; omega)]
        have h : ackCount s.rx = 2 := by omega
        refine ⟨[Event.tx ((s.g_distanceValue >>> 8) % 256),
          Event.tx ((s.g_distanceValue &&& 0xFF) % 256), Event.tx (t % 256 % 256)], ?_, ?_, ?_⟩
        · simp [Run.state, List.append_assoc]
        · rw [h]
          simp [txBytes, Nat.mod_mod]
        · simp [Run.isDone]; omega
    · rw [sendAcked_of_ackCount_zero _ _ (by simp only [ackCount_afterAck]; omega)]
      have h : ackCount s.rx = 1 := by omega
      refine ⟨[Event.tx ((s.g_distanceValue >>> 8) % 256),
        Event.tx ((s.g_distanceValue &&& 0xFF) % 256)], ?_, ?_, ?_⟩
      · simp [Run.state, List.append_assoc]
      · rw [h]
        simp [txBytes, Nat.mod_mod]
      · simp [Run.isDone]; omega
  · rw [sendAcked_of_ackCount_zero _ _ (by simp only []; omega)]
    have h : ackCount s.rx = 0 := by omega
    refine ⟨[Event.tx ((s.g_distanceValue >>> 8) % 256)], ?_, ?_, ?_⟩
    · simp [Run.bind, Run.state]
    · rw [h]
      simp [txBytes]
    · simp [Run.bind, Run.isDone]; omega

theorem waitAckRx_skip (garbage : List Nat) (ack : Nat) (rest : List Nat)
    (hg : ∀ g ∈ garbage, g % 256 ≠ ACK) (hack : ack % 256 = ACK) :
    waitAckRx (garbage ++ ack :: rest) = some rest := by
  induction garbage with
  | nil => simp [waitAckRx, hack]
  | cons g gs ih =>
    have h1 : g % 256 ≠ ACK := hg g (List.mem_cons_self _ _)
    simp only [List.cons_append, waitAckRx, if_neg h1]
    exact ih (fun x hx => hg x (List.mem_cons_of_mem _ hx))

theorem ackCount_eq_zero (rx : List Nat) (h : ∀ b ∈ rx, b % 256 ≠ ACK) : ackCount rx = 0 := by
  induction rx with
  | nil => rfl
  | cons b rest ih =>
    rw [ackCount_cons_other b rest (h b (List.mem_cons_self _ _))]
    exact ih (fun x hx => h x (List.mem_cons_of_mem _ hx))

/-- C22: for every store content and write cursor, a read-out that returns
has sent the store bytes of the addresses 0, 1, .., k-1 in this order, for
some k not above the cursor plus one, followed by the end byte 0x54 and
nothing after it; each of these addresses was read successfully and holds
neither 0x00 nor 0xFF, and when k is not above the cursor the slot at k is a
failed read or holds 0x00 or 0xFF; when none of the bytes sent before the
terminator is itself 0x54, the value 0x54 occurs exactly once. With the stream
within the 16-bit address range and one acknowledgment pending per byte, the
read-out does return. -/
theorem C22_fault_stream_shape (rdOk : Nat → Bool) (s : State) :
    (∀ s1, CONTROL_sendFaults rdOk s = Run.done s1 →
      ∃ k, k ≤ s.EEPROM_addressWrite + 1 ∧
        txBytes (s1.trace.drop s.trace.length) =
          (List.range k).map (fun a => s.eeprom a % 256) ++ [0x54] ∧
        (∀ a, a < k → rdOk a = true ∧ s.eeprom a % 256 ≠ 0x00 ∧ s.eeprom a % 256 ≠ 0xFF) ∧
        (k ≤ s.EEPROM_addressWrite →
          rdOk k = false ∨ s.eeprom k % 256 = 0x00 ∨ s.eeprom k % 256 = 0xFF) ∧
        ((∀ a, a < k → s.eeprom a % 256 ≠ 0x54) →
          (txBytes (s1.trace.drop s.trace.length)).count 0x54 = 1)) ∧
    ((storedFaults s.eeprom rdOk (s.EEPROM_addressWrite + 1) 0).length ≤ 65535 →
      (storedFaults s.eeprom rdOk (s.EEPROM_addressWrite + 1) 0).length + 1 ≤ ackCount s.rx →
      (CONTROL_sendFaults rdOk s).isDone = true) := by
  constructor
  · intro s1 h
    have hlen := CONTROL_sendFaults_done_length rdOk s s1 h
    obtain ⟨evs, e1, e2, e3⟩ := CONTROL_sendFaults_stream rdOk s hlen
    rw [h] at e1 e3
    simp only [Run.state, Run.isDone] at e1 e3
    have hack := e3.mp trivial
    have hmap := storedFaults_eq_map s.eeprom rdOk (s.EEPROM_addressWrite + 1) 0
    have htx : txBytes (s1.trace.drop s.trace.length) =
        (List.range (storedFaults s.eeprom rdOk (s.EEPROM_addressWrite + 1) 0).length).map
          (fun a => s.eeprom a % 256) ++ [0x54] := by
      rw [e1, List.drop_left, e2, List.take_of_length_le (by simp; omega),
        List.range_eq_range', ← hmap]
    refine ⟨(storedFaults s.eeprom rdOk (s.EEPROM_addressWrite + 1) 0).length,
      storedFaults_length_le _ _ _ _, htx, ?_, ?_, ?_⟩
    · intro a ha
      obtain ⟨g1, g2, g3⟩ := storedFaults_good s.eeprom rdOk (s.EEPROM_addressWrite + 1) 0 a
        (Nat.zero_le a) (by omega)
      exact ⟨g1, g3, g2⟩
    · intro hk
      have hstop := storedFaults_stop s.eeprom rdOk (s.EEPROM_addressWrite + 1) 0 (by omega)
      rw [Nat.zero_add] at hstop
      by_contra hcon
      apply hstop
      refine ⟨?_, fun h => hcon (Or.inr (Or.inr h)), fun h => hcon (Or.inr (Or.inl h))⟩
      cases hr : rdOk (storedFaults s.eeprom rdOk (s.EEPROM_addressWrite + 1) 0).length with
      | true => rfl
      | false => exact absurd (Or.inl hr) hcon
    · intro hne
      rw [htx, List.count_append]
      have h0 : ((List.range
          (storedFaults s.eeprom rdOk (s.EEPROM_addressWrite + 1) 0).length).map
          (fun a => s.eeprom a % 256)).count 0x54 = 0 := by
        rw [List.count_eq_zero]
        intro hm
        obtain ⟨a, ha, hE⟩ := List.mem_map.mp hm
        exact hne a (List.mem_range.mp ha) hE
      rw [h0]
      rfl
  · intro hlen hack
    obtain ⟨evs, _, _, e3⟩ := CONTROL_sendFaults_stream rdOk s hlen
    exact e3.mpr hack

theorem C22_fault_stream_shape_witness :
    (CONTROL_sendFaults (fun _ => true)
      { State.init twoFaultStore [5, 5, 5] with EEPROM_addressWrite := 2 }).isDone = true ∧
    (txBytes (CONTROL_sendFaults (fun _ => true)
      { State.init twoFaultStore [5, 5, 5] with EEPROM_addressWrite := 2 }).state.trace).length
      ≤ 4 := by
  have hd := (C22_fault_stream_shape (fun _ => true)
    { State.init twoFaultStore [5, 5, 5] with EEPROM_addressWrite := 2 }).2
    (by decide) (by decide)
  refine ⟨hd, ?_⟩
  cases hr : CONTROL_sendFaults (fun _ => true)
      { State.init twoFaultStore [5, 5, 5] with EEPROM_addressWrite := 2 } with
  | stuck u => rw [hr] at hd; simp [Run.isDone] at hd
  | done s1 =>
    obtain ⟨k, hk, e, _⟩ := (C22_fault_stream_shape (fun _ => true)
      { State.init twoFaultStore [5, 5, 5] with EEPROM_addressWrite := 2 }).1 s1 hr
    have hk3 : k ≤ 3 := hk
    have hl := congrArg List.length e
    simp only [State.init, List.length_nil, List.drop_zero, List.length_append,
      List.length_map, List.length_range, List.length_singleton] at hl
    simp only [Run.state]
    omega

/-- C23: when the read at address a fails during a read-out, a not above the
write cursor and every address below a read successfully with a byte other
than 0x00 and 0xFF, the bytes sent are the first acknowledged-plus-one bytes
of: the store bytes of addresses 0..a-1 followed by 0x54. With a+1
acknowledgments pending the read-out returns, having sent exactly those a
bytes and then 0x54, nothing for address a or beyond and no other byte, and
having read the addresses 0..a, the last read being the failed one. -/
theorem C23_read_failure_ends_stream (rdOk : Nat → Bool) (s : State) (a : Nat)
    (hw : s.EEPROM_addressWrite < 65535) (ha : a ≤ s.EEPROM_addressWrite)
    (hfail : rdOk a = false)
    (hgood : ∀ j, j < a → rdOk j = true ∧ s.eeprom j % 256 ≠ 0xFF ∧ s.eeprom j % 256 ≠ 0x00) :
    (∃ evs, (CONTROL_sendFaults rdOk s).state.trace = s.trace ++ evs ∧
      txBytes evs = ((List.range a).map (fun j => s.eeprom j % 256) ++ [0x54]).take
        (ackCount s.rx + 1)) ∧
    ((CONTROL_sendFaults rdOk s).isDone = true ↔ a + 1 ≤ ackCount s.rx) ∧
    (a + 1 ≤ ackCount s.rx →
      txBytes ((CONTROL_sendFaults rdOk s).state.trace.drop s.trace.length) =
        (List.range a).map (fun j => s.eeprom j % 256) ++ [0x54] ∧
      readAddrs ((CONTROL_sendFaults rdOk s).state.trace.drop s.trace.length) =
        List.range (a + 1)) := by
  have hF : storedFaults s.eeprom rdOk (s.EEPROM_addressWrite + 1) 0 =
      (List.range a).map (fun j => s.eeprom j % 256) := by
    rw [List.range_eq_range']
    apply storedFaults_of_good s.eeprom rdOk a (s.EEPROM_addressWrite + 1) 0 (by omega)
    · intro x _ hx
      exact hgood x (by omega)
    · intro _ hc
      rw [Nat.zero_add, hfail] at hc
      exact absurd hc.1 (by decide)
  have hFl : (storedFaults s.eeprom rdOk (s.EEPROM_addressWrite + 1) 0).length = a := by
    rw [hF]; simp
  obtain ⟨evs, e1, e2, e3⟩ := CONTROL_sendFaults_stream rdOk s (by omega)
  rw [hF] at e2
  rw [hFl] at e3
  refine ⟨⟨evs, e1, e2⟩, e3, ?_⟩
  intro hack
  obtain ⟨s1, evs1, d1, d2, d3, d4, _⟩ := CONTROL_sendFaults_done rdOk s hw (by omega)
  rw [d1]
  simp only [Run.state]
  rw [hFl] at d4
  rw [d2, List.drop_left, d3, d4, hF, List.range_eq_range' (n := a + 1)]
  refine ⟨rfl, ?_⟩
  rw [show min (s.EEPROM_addressWrite + 1) (a + 1) = a + 1 by omega]

theorem C23_read_failure_ends_stream_witness :
    txBytes (CONTROL_sendFaults (fun j => decide (j ≠ 1))
      { State.init twoFaultStore [5, 5] with EEPROM_addressWrite := 2 }).state.trace
      = [0x01, 0x54] ∧
    readAddrs (CONTROL_sendFaults (fun j => decide (j ≠ 1))
      { State.init twoFaultStore [5, 5] with EEPROM_addressWrite := 2 }).state.trace
      = [0, 1] :=
  (C23_read_failure_ends_stream (fun j => decide (j ≠ 1))
    { State.init twoFaultStore [5, 5] with EEPROM_addressWrite := 2 } 1
    (by decide) (by decide) (by decide)
    (fun j hj => by
      have : j = 0 := by omega
      subst this
      decide)).2.2 (by decide)

/-- C24: a send followed by its acknowledgment wait consumes and discards
every pending byte up to and including the first 0x05 and then returns. The
snapshot reply sends the first n+1 of its five bytes, and the fault stream the
first n+1 of its bytes (stored run, then 0x54), where n is the number of 0x05
bytes in the peer input; each returns exactly when the peer input holds one
0x05 per byte; and when the peer input holds no 0x05 exactly one byte is sent
and the operation never returns. -/
theorem C24_per_byte_acknowledgment :
    (∀ (b : Nat) (s : State) (garbage : List Nat) (ack : Nat) (rest : List Nat),
      (∀ g ∈ garbage, g % 256 ≠ 0x05) → ack % 256 = 0x05 → s.rx = garbage ++ ack :: rest →
      sendAcked b s =
        Run.done { s with trace := s.trace ++ [Event.tx (b % 256)], rx := rest }) ∧
    (∀ (t : Nat) (s : State),
      ∃ evs, (CONTROL_sendPack t s).state.trace = s.trace ++ evs ∧
        txBytes evs =
          [(s.g_distanceValue >>> 8) % 256, (s.g_distanceValue &&& 0xFF) % 256, t % 256,
            s.g_win1_State % 256, s.g_win2_State % 256].take (ackCount s.rx + 1) ∧
        ((CONTROL_sendPack t s).isDone = true ↔ 5 ≤ ackCount s.rx) ∧
        ((∀ b ∈ s.rx, b % 256 ≠ 0x05) →
          txBytes evs = [(s.g_distanceValue >>> 8) % 256] ∧
          (CONTROL_sendPack t s).isDone = false)) ∧
    (∀ (rdOk : Nat → Bool) (s : State), s.EEPROM_addressWrite < 65535 →
      ∃ evs, (CONTROL_sendFaults rdOk s).state.trace = s.trace ++ evs ∧
        txBytes evs =
          (storedFaults s.eeprom rdOk (s.EEPROM_addressWrite + 1) 0 ++ [0x54]).take
            (ackCount s.rx + 1) ∧
        ((CONTROL_sendFaults rdOk s).isDone = true ↔
          (storedFaults s.eeprom rdOk (s.EEPROM_addressWrite + 1) 0).length + 1 ≤
            ackCount s.rx) ∧
        ((∀ b ∈ s.rx, b % 256 ≠ 0x05) →
          txBytes evs =
            (storedFaults s.eeprom rdOk (s.EEPROM_addressWrite + 1) 0 ++ [0x54]).take 1 ∧
          (txBytes evs).length = 1 ∧
          (CONTROL_sendFaults rdOk s).isDone = false)) := by
  refine ⟨?_, ?_, ?_⟩
  · intro b s garbage ack rest hg hack hrx
    have hwait : waitAckRx (UART_sendByte b s).rx = some rest := by
      show waitAckRx s.rx = some rest
      rw [hrx]
      exact waitAckRx_skip garbage ack rest hg hack
    simp only [sendAcked, UART_waitAck, hwait]
    rfl
  · intro t s
    obtain ⟨evs, e1, e2, e3⟩ := CONTROL_sendPack_stream t s
    refine ⟨evs, e1, e2, e3, ?_⟩
    intro hno
    have h0 : ackCount s.rx = 0 := ackCount_eq_zero s.rx hno
    rw [h0] at e2 e3
    refine ⟨by simpa using e2, ?_⟩
    cases hd : (CONTROL_sendPack t s).isDone with
    | false => rfl
    | true =>
      have := e3.mp hd
      omega
  · intro rdOk s hw
    have hl := storedFaults_length_le s.eeprom rdOk (s.EEPROM_addressWrite + 1) 0
    obtain ⟨evs, e1, e2, e3⟩ := CONTROL_sendFaults_stream rdOk s (by omega)
    refine ⟨evs, e1, e2, e3, ?_⟩
    intro hno
    have h0 : ackCount s.rx = 0 := ackCount_eq_zero s.rx hno
    rw [h0] at e2 e3
    refine ⟨e2, ?_, ?_⟩
    · rw [e2]
      simp
    · cases hd : (CONTROL_sendFaults rdOk s).isDone with
      | false => rfl
      | true =>
        have := e3.mp hd
        omega

theorem C24_per_byte_acknowledgment_witness :
    sendAcked 0x2C { State.init twoFaultStore [7, 9, 5, 3] with g_distanceValue := 300 } =
      Run.done { State.init twoFaultStore [7, 9, 5, 3] with
        g_distanceValue := 300,
        trace := [] ++ [Event.tx (0x2C % 256)], rx := [3] } ∧
    (CONTROL_sendPack 25 (State.init twoFaultStore [7, 9, 3])).isDone = false ∧
    (CONTROL_sendFaults (fun _ => true) (State.init twoFaultStore [7, 9, 3])).isDone = false := by
  refine ⟨C24_per_byte_acknowledgment.1 0x2C
    { State.init twoFaultStore [7, 9, 5, 3] with g_distanceValue := 300 }
    [7, 9] 5 [3] (by decide) (by decide) rfl, ?_, ?_⟩
  · obtain ⟨_, _, _, _, h⟩ :=
      C24_per_byte_acknowledgment.2.1 25 (State.init twoFaultStore [7, 9, 3])
    exact (h (by decide)).2
  · obtain ⟨_, _, _, _, h⟩ :=
      C24_per_byte_acknowledgment.2.2 (fun _ => true) (State.init twoFaultStore [7, 9, 3])
        (by decide)
    exact (h (by decide)).2.2

/-! ## The acknowledgment value among the payload bytes -/

/-- C25, counterexample: from the reset state, whose globals are all in
range, a snapshot taken at temperature 5 is sent in full and its temperature
byte is 0x05, the acknowledgment value; so is the low distance byte at
distance 5 and the high distance byte at distance 0x0500. -/
theorem C25_payload_equals_ack_counterexample :
    (State.init (fun _ => 0xFF) [5, 5, 5, 5, 5]).inRange ∧
    (CONTROL_sendPack 5 (State.init (fun _ => 0xFF) [5, 5, 5, 5, 5])).isDone = true ∧
    txBytes (CONTROL_sendPack 5 (State.init (fun _ => 0xFF) [5, 5, 5, 5, 5])).state.trace
      = [0, 0, ACK, 0, 0] ∧
    txBytes (CONTROL_sendPack 20
      { State.init (fun _ => 0xFF) [5, 5, 5, 5, 5] with g_distanceValue := 5 }).state.trace
      = [0, ACK, 20, 0, 0] ∧
    txBytes (CONTROL_sendPack 20
      { State.init (fun _ => 0xFF) [5, 5, 5, 5, 5] with g_distanceValue := 0x0500 }).state.trace
      = [ACK, 0, 20, 0, 0] := by
  decide

/-- C25, amended: the acknowledgment byte 0x05 differs from both window-state
bytes of a snapshot packet (each is 0 or 1 when the window states are) and
from every byte of a fault stream read from a store whose slots hold 0x00,
0x01, 0x02 or 0xFF (each byte sent is 0x01, 0x02 or 0x54); among the first
three bytes of a fully sent snapshot, 0x05 occurs exactly when the high
distance byte, the low distance byte or the temperature is 5. -/
theorem C25_ack_distinct_from_protocol_bytes :
    (∀ (t : Nat) (s : State), s.g_win1_State ≤ 1 → s.g_win2_State ≤ 1 →
      ∀ b ∈ (txBytes ((CONTROL_sendPack t s).state.trace.drop s.trace.length)).drop 3,
        b ≤ 1 ∧ b ≠ ACK) ∧
    (∀ (rdOk : Nat → Bool) (s : State), s.EEPROM_addressWrite < 65535 →
      (∀ a, s.eeprom a = 0x00 ∨ s.eeprom a = 0x01 ∨ s.eeprom a = 0x02 ∨ s.eeprom a = 0xFF) →
      ∀ b ∈ txBytes ((CONTROL_sendFaults rdOk s).state.trace.drop s.trace.length),
        (b = 0x01 ∨ b = 0x02 ∨ b = 0x54) ∧ b ≠ ACK) ∧
    (∀ (t : Nat) (s : State), s.inRange → t < 256 → 5 ≤ ackCount s.rx →
      (ACK ∈ (txBytes ((CONTROL_sendPack t s).state.trace.drop s.trace.length)).take 3 ↔
        s.g_distanceValue >>> 8 = 5 ∨ s.g_distanceValue &&& 0xFF = 5 ∨ t = 5)) := by
  refine ⟨?_, ?_, ?_⟩
  · intro t s h1 h2 b hb
    obtain ⟨evs, e1, e2, _⟩ := CONTROL_sendPack_stream t s
    rw [e1, List.drop_left, e2] at hb
    have hcases : ackCount s.rx + 1 = 1 ∨ ackCount s.rx + 1 = 2 ∨ ackCount s.rx + 1 = 3 ∨
        ackCount s.rx + 1 = 4 ∨ 5 ≤ ackCount s.rx + 1 := by omega
    have hm1 : s.g_win1_State % 256 = s.g_win1_State := Nat.mod_eq_of_lt (by omega)
    have hm2 : s.g_win2_State % 256 = s.g_win2_State := Nat.mod_eq_of_lt (by omega)
    rcases hcases with h | h | h | h | h
    · rw [h] at hb; simp at hb
    · rw [h] at hb; simp at hb
    · rw [h] at hb; simp at hb
    · rw [h] at hb
      simp only [List.take, List.drop, List.mem_singleton] at hb
      rw [hb, hm1]
      exact ⟨h1, by simp only [ACK]; omega⟩
    · rw [List.take_of_length_le (by simp; omega)] at hb
      simp only [List.drop, List.mem_cons, List.mem_singleton, List.not_mem_nil, or_false] at hb
      rcases hb with hb | hb
      · rw [hb, hm1]
        exact ⟨h1, by simp only [ACK]; omega⟩
      · rw [hb, hm2]
        exact ⟨h2, by simp only [ACK]; omega⟩
  · intro rdOk s hw hst b hb
    have hl := storedFaults_length_le s.eeprom rdOk (s.EEPROM_addressWrite + 1) 0
    obtain ⟨evs, e1, e2, _⟩ := CONTROL_sendFaults_stream rdOk s (by omega)
    rw [e1, List.drop_left, e2] at hb
    have hb1 := List.mem_of_mem_take hb
    have key : b = 0x01 ∨ b = 0x02 ∨ b = 0x54 := by
      rcases List.mem_append.mp hb1 with hm | hm
      · rw [storedFaults_eq_map] at hm
        obtain ⟨x, hx, hE⟩ := List.mem_map.mp hm
        have hxr := List.mem_range'_1.mp hx
        obtain ⟨_, g2, g3⟩ := storedFaults_good s.eeprom rdOk (s.EEPROM_addressWrite + 1) 0 x
          hxr.1 hxr.2
        rcases hst x with h | h | h | h
        · rw [h] at g3; exact absurd rfl g3
        · left; rw [← hE, h]
        · right; left; rw [← hE, h]
        · rw [h] at g2; exact absurd rfl g2
      · right; right
        simpa using hm
    refine ⟨key, ?_⟩
    simp only [ACK]
    omega
  · intro t s hs ht hack
    obtain ⟨_, _, hd, _⟩ := hs
    obtain ⟨evs, e1, e2, _⟩ := CONTROL_sendPack_stream t s
    have hP : [(s.g_distanceValue >>> 8) % 256, (s.g_distanceValue &&& 0xFF) % 256, t % 256,
        s.g_win1_State % 256, s.g_win2_State % 256].take (ackCount s.rx + 1) =
        [(s.g_distanceValue >>> 8) % 256, (s.g_distanceValue &&& 0xFF) % 256, t % 256,
          s.g_win1_State % 256, s.g_win2_State % 256] :=
      List.take_of_length_le (by simp; omega)
    rw [e1, List.drop_left, e2, hP]
    have h1 : (s.g_distanceValue >>> 8) % 256 = s.g_distanceValue >>> 8 := by
      apply Nat.mod_eq_of_lt
      rw [shiftRight8_eq_div]
      omega
    have h2 : (s.g_distanceValue &&& 0xFF) % 256 = s.g_distanceValue &&& 0xFF := by
      apply Nat.mod_eq_of_lt
      rw [and_0xFF_eq_mod]
      omega
    rw [h1, h2, Nat.mod_eq_of_lt ht]
    simp only [List.take, List.mem_cons, List.not_mem_nil, or_false, ACK]
    constructor
    · rintro (h | h | h)
      · exact Or.inl h.symm
      · exact Or.inr (Or.inl h.symm)
      · exact Or.inr (Or.inr h.symm)
    · rintro (h | h | h)
      · exact Or.inl h.symm
      · exact Or.inr (Or.inl h.symm)
      · exact Or.inr (Or.inr h.symm)

theorem C25_ack_distinct_from_protocol_bytes_witness :
    ∀ b ∈ txBytes (CONTROL_sendFaults (fun _ => true)
        { State.init twoFaultStore [5, 5, 5] with EEPROM_addressWrite := 2 }).state.trace,
      (b = 0x01 ∨ b = 0x02 ∨ b = 0x54) ∧ b ≠ ACK :=
  C25_ack_distinct_from_protocol_bytes.2.1 (fun _ => true)
    { State.init twoFaultStore [5, 5, 5] with EEPROM_addressWrite := 2 }
    (by decide)
    (fun a => by
      unfold State.init twoFaultStore
      simp only []
      split
      · exact Or.inr (Or.inl rfl)
      · split
        · exact Or.inr (Or.inr (Or.inl rfl))
        · exact Or.inr (Or.inr (Or.inr rfl)))

/-! ## The distance bytes of the snapshot -/

/-- C26, the code at a failing input: monitoring is started and the first
tick samples distance 300 and temperature 20; monitoring is stopped; a
DisplayValues request then arrives while the temperature reads 25. The reply
carries the temperature read at the request, 25, but its distance bytes encode
300, the value sampled by the last tick: `CONTROL_sendPack` takes no distance
reading. From the reset state the distance bytes are 0 whatever the sensor
reads. -/
theorem C26_snapshot_distance_is_stale :
    (main_loop [LoopInputs.nominal 300 20, LoopInputs.nominal 40 22, LoopInputs.nominal 50 25]
      (State.init (fun _ => 0xFF) [0x01, 0x04, 0x02, 5, 5, 5, 5, 5])).isDone = true ∧
    txBytes (main_loop
      [LoopInputs.nominal 300 20, LoopInputs.nominal 40 22, LoopInputs.nominal 50 25]
      (State.init (fun _ => 0xFF) [0x01, 0x04, 0x02, 5, 5, 5, 5, 5])).state.trace =
      [0x05, 0x05, 0x05, 0x01, 0x2C, 25, 0, 0] ∧
    txBytes (main_loop [LoopInputs.nominal 50 25]
      (State.init (fun _ => 0xFF) [0x02, 5, 5, 5, 5, 5])).state.trace =
      [0x05, 0, 0, 25, 0, 0] ∧
    (∀ (t : Nat) (s : State), 5 ≤ ackCount s.rx →
      txBytes ((CONTROL_sendPack t s).state.trace.drop s.trace.length) =
        [(s.g_distanceValue >>> 8) % 256, (s.g_distanceValue &&& 0xFF) % 256, t % 256,
          s.g_win1_State % 256, s.g_win2_State % 256]) := by
  refine ⟨by decide, by decide, by decide, ?_⟩
  intro t s hack
  obtain ⟨evs, e1, e2, _⟩ := CONTROL_sendPack_stream t s
  rw [e1, List.drop_left, e2, List.take_of_length_le (by simp; omega)]

/-! ## The addresses read by a read-out -/

theorem CONTROL_sendFaults_reads_cursor_slot (rdOk : Nat → Bool) (s : State)
    (hw : s.EEPROM_addressWrite < 65535)
    (hgood : ∀ a, a < s.EEPROM_addressWrite →
      rdOk a = true ∧ s.eeprom a % 256 ≠ 0xFF ∧ s.eeprom a % 256 ≠ 0x00)
    (hack : s.EEPROM_addressWrite + 2 ≤ ackCount s.rx) :
    (CONTROL_sendFaults rdOk s).isDone = true ∧
    readAddrs ((CONTROL_sendFaults rdOk s).state.trace.drop s.trace.length) =
      List.range' 0 (s.EEPROM_addressWrite + 1) := by
  have hl := storedFaults_length_le s.eeprom rdOk (s.EEPROM_addressWrite + 1) 0
  have hge : s.EEPROM_addressWrite ≤
      (storedFaults s.eeprom rdOk (s.EEPROM_addressWrite + 1) 0).length := by
    by_contra hcon
    have hstop := storedFaults_stop s.eeprom rdOk (s.EEPROM_addressWrite + 1) 0 (by omega)
    rw [Nat.zero_add] at hstop
    exact hstop (hgood _ (by omega))
  obtain ⟨s1, evs, d1, d2, _, d4, _⟩ := CONTROL_sendFaults_done rdOk s hw (by omega)
  rw [d1]
  simp only [Run.state, Run.isDone]
  refine ⟨trivial, ?_⟩
  rw [d2, List.drop_left, d4]
  rw [show min (s.EEPROM_addressWrite + 1)
    ((storedFaults s.eeprom rdOk (s.EEPROM_addressWrite + 1) 0).length + 1) =
    s.EEPROM_addressWrite + 1 by omega]

/-! ## GPIO -/

theorem SET_BIT_testBit (reg bit k : Nat) (hb : bit < 8) (hk : k < 8) :
    (SET_BIT reg bit).testBit k = if k = bit then true else reg.testBit k := by
  unfold SET_BIT
  rw [show (256 : Nat) = 2 ^ 8 by rfl, Nat.testBit_mod_two_pow, Nat.testBit_or,
    Nat.one_shiftLeft, Nat.testBit_two_pow]
  by_cases h : k = bit
  · subst h
    simp [hk]
  · have h2 : ¬ bit = k := fun e => h e.symm
    simp [h, h2, hk]

theorem CLEAR_BIT_testBit (reg bit k : Nat) (hb : bit < 8) (hk : k < 8) :
    (CLEAR_BIT reg bit).testBit k = if k = bit then false else reg.testBit k := by
  unfold CLEAR_BIT
  rw [show (256 : Nat) = 2 ^ 8 by rfl, show (65536 : Nat) = 2 ^ 16 by rfl,
    show (0xFFFF : Nat) = 2 ^ 16 - 1 by rfl, Nat.testBit_mod_two_pow, Nat.testBit_and,
    Nat.testBit_xor, Nat.testBit_two_pow_sub_one, Nat.testBit_mod_two_pow,
    Nat.one_shiftLeft, Nat.testBit_two_pow]
  have hk16 : k < 16 := by omega
  by_cases h : k = bit
  · subst h
    simp [hk, hk16]
  · have h2 : ¬ bit = k := fun e => h e.symm
    simp [h, h2, hk, hk16]

/-- C29: with `uint8` arguments, for every port_num >= 4 or pin_num >= 8,
`GPIO_setupPinDirection` and `GPIO_writePin` return the registers unchanged
and `GPIO_readPin` returns LOGIC_LOW, which is 0. For port_num < 4 and
pin_num < 8, `GPIO_writePin` leaves the direction and input registers and the
output registers of the other ports unchanged, and the output register of
port_num stays a byte whose bit pin_num is set exactly when value is
LOGIC_HIGH and whose other bits are kept. -/
theorem C29_gpio_invalid_index_noop :
    (∀ (port_num pin_num direction : Nat) (r : GpioRegs), port_num < 256 → pin_num < 256 →
      (port_num ≥ 4 ∨ pin_num ≥ 8) →
      GPIO_setupPinDirection port_num pin_num direction r = r) ∧
    (∀ (port_num pin_num value : Nat) (r : GpioRegs), port_num < 256 → pin_num < 256 →
      (port_num ≥ 4 ∨ pin_num ≥ 8) →
      GPIO_writePin port_num pin_num value r = r) ∧
    (∀ (port_num pin_num : Nat) (r : GpioRegs), port_num < 256 → pin_num < 256 →
      (port_num ≥ 4 ∨ pin_num ≥ 8) →
      GPIO_readPin port_num pin_num r = LOGIC_LOW ∧ GPIO_readPin port_num pin_num r = 0) ∧
    (∀ (port_num pin_num value : Nat) (r : GpioRegs), port_num < 4 → pin_num < 8 →
      value < 256 →
      (GPIO_writePin port_num pin_num value r).DDR_REG = r.DDR_REG ∧
      (GPIO_writePin port_num pin_num value r).PIN_REG = r.PIN_REG ∧
      (∀ p, p ≠ port_num → (GPIO_writePin port_num pin_num value r).PORT_REG p = r.PORT_REG p) ∧
      (GPIO_writePin port_num pin_num value r).PORT_REG port_num < 256 ∧
      (∀ k, k < 8 → ((GPIO_writePin port_num pin_num value r).PORT_REG port_num).testBit k =
        if k = pin_num then decide (value = LOGIC_HIGH) else (r.PORT_REG port_num).testBit k)) := by
  refine ⟨?_, ?_, ?_, ?_⟩
  · intro port_num pin_num direction r hp hq h
    unfold GPIO_setupPinDirection
    simp only [Nat.mod_eq_of_lt hp, Nat.mod_eq_of_lt hq, NUM_OF_PORTS, NUM_OF_PINS_PER_PORT]
    rw [if_pos (by omega)]
  · intro port_num pin_num value r hp hq h
    unfold GPIO_writePin
    simp only [Nat.mod_eq_of_lt hp, Nat.mod_eq_of_lt hq, NUM_OF_PORTS, NUM_OF_PINS_PER_PORT]
    rw [if_pos (by omega)]
  · intro port_num pin_num r hp hq h
    unfold GPIO_readPin
    simp only [Nat.mod_eq_of_lt hp, Nat.mod_eq_of_lt hq, NUM_OF_PORTS, NUM_OF_PINS_PER_PORT]
    rw [if_pos (by omega)]
    exact ⟨rfl, rfl⟩
  · intro port_num pin_num value r hp hq hv
    have hp2 : port_num % 256 = port_num := Nat.mod_eq_of_lt (by omega)
    have hq2 : pin_num % 256 = pin_num := Nat.mod_eq_of_lt (by omega)
    have hv2 : value % 256 = value := Nat.mod_eq_of_lt hv
    unfold GPIO_writePin
    simp only [hp2, hq2, hv2, NUM_OF_PORTS, NUM_OF_PINS_PER_PORT]
    rw [if_neg (by omega)]
    by_cases hh : LOGIC_HIGH = value
    · rw [if_pos hh]
      refine ⟨rfl, rfl, fun p hne => by simp [Function.update, hne], ?_, ?_⟩
      · simp only [Function.update_same]
        exact Nat.mod_lt _ (by decide)
      · intro k hk
        simp only [Function.update_same]
        rw [SET_BIT_testBit _ _ _ hq hk]
        simp [hh.symm]
    · rw [if_neg hh]
      refine ⟨rfl, rfl, fun p hne => by simp [Function.update, hne], ?_, ?_⟩
      · simp only [Function.update_same]
        exact Nat.mod_lt _ (by decide)
      · intro k hk
        simp only [Function.update_same]
        rw [CLEAR_BIT_testBit _ _ _ hq hk]
        have hh2 : ¬ value = LOGIC_HIGH := fun e => hh e.symm
        simp [hh2]

theorem C29_gpio_invalid_index_noop_witness :
    GPIO_writePin 4 0 1 ⟨fun _ => 0, fun _ => 0x55, fun _ => 0⟩ =
      ⟨fun _ => 0, fun _ => 0x55, fun _ => 0⟩ ∧
    GPIO_readPin 0 8 ⟨fun _ => 0, fun _ => 0, fun _ => 0xFF⟩ = 0 ∧
    (GPIO_writePin 2 1 1 ⟨fun _ => 0, fun _ => 0x55, fun _ => 0⟩).PORT_REG 2 < 256 :=
  ⟨C29_gpio_invalid_index_noop.2.1 4 0 1 ⟨fun _ => 0, fun _ => 0x55, fun _ => 0⟩
      (by decide) (by decide) (Or.inl (by decide)),
   (C29_gpio_invalid_index_noop.2.2.1 0 8 ⟨fun _ => 0, fun _ => 0, fun _ => 0xFF⟩
      (by decide) (by decide) (Or.inr (by decide))).2,
   (C29_gpio_invalid_index_noop.2.2.2 2 1 1 ⟨fun _ => 0, fun _ => 0x55, fun _ => 0⟩
      (by decide) (by decide) (by decide)).2.2.2.1⟩

/-! ## The fault list on the HMI node -/

theorem hmi_txBytes_append (l1 l2 : List HMI_ECU.Event) :
    HMI_ECU.txBytes (l1 ++ l2) = HMI_ECU.txBytes l1 ++ HMI_ECU.txBytes l2 := by
  induction l1 with
  | nil => rfl
  | cons e es ih => cases e <;> simp [HMI_ECU.txBytes, ih]

theorem lcdStrings_append (l1 l2 : List HMI_ECU.Event) :
    HMI_ECU.lcdStrings (l1 ++ l2) = HMI_ECU.lcdStrings l1 ++ HMI_ECU.lcdStrings l2 := by
  induction l1 with
  | nil => rfl
  | cons e es ih => cases e <;> simp [HMI_ECU.lcdStrings, ih]

theorem main_DETECT_FAULTS_line_txBytes (c r : Nat) :
    HMI_ECU.txBytes (HMI_ECU.main_DETECT_FAULTS_line c r) = [] := by
  unfold HMI_ECU.main_DETECT_FAULTS_line
  split
  · rfl
  · split <;> rfl

theorem main_DETECT_FAULTS_line_strings (c r : Nat) :
    ∀ str ∈ HMI_ECU.lcdStrings (HMI_ECU.main_DETECT_FAULTS_line c r),
      str ≠ "No Faults" ∧ str ≠ "--- End List ---" := by
  unfold HMI_ECU.main_DETECT_FAULTS_line
  split
  · intro str h
    simp only [HMI_ECU.lcdStrings, List.mem_singleton] at h
    subst h
    decide
  · split
    · intro str h
      simp only [HMI_ECU.lcdStrings, List.mem_singleton] at h
      subst h
      decide
    · intro str h
      simp only [HMI_ECU.lcdStrings, List.mem_singleton] at h
      subst h
      decide

/-- The loop of the DetectFaults case on a stream of fault bytes `fs` followed
by the end byte, with a key press available for every filled screen: it
returns, has acknowledged every byte, and `totalFaults` has advanced by the
number of fault bytes modulo 256. -/
theorem main_DETECT_FAULTS_loop_stream (fs : List Nat) :
    ∀ (rest : List Nat) (v : HMI_ECU.FaultsView), (∀ f ∈ fs, f % 256 ≠ 0x54) →
      v.rowIndex < 4 → v.totalFaults < 256 →
      (v.rowIndex + fs.length) / 4 ≤ v.keys.length →
      ∃ v1 evs, HMI_ECU.main_DETECT_FAULTS_loop (fs ++ 0x54 :: rest) v = Run.done v1 ∧
        v1.trace = v.trace ++ evs ∧
        HMI_ECU.txBytes evs = List.replicate (fs.length + 1) 0x05 ∧
        v1.totalFaults = (v.totalFaults + fs.length) % 256 ∧
        v1.rx = rest ∧
        ∀ str ∈ HMI_ECU.lcdStrings evs, str ≠ "No Faults" ∧ str ≠ "--- End List ---" := by
  induction fs with
  | nil =>
    intro rest v _ _ ht _
    refine ⟨{ v with rx := rest, faultCode := 0x54 % 256,
                     trace := v.trace ++ [HMI_ECU.Event.tx (HMI_ECU.ACK % 256)] },
      [HMI_ECU.Event.tx (HMI_ECU.ACK % 256)], ?_, rfl, rfl, ?_, rfl, ?_⟩
    · simp [HMI_ECU.main_DETECT_FAULTS_loop, HMI_ECU.END_BYTE]
    · simp only [List.length_nil, Nat.add_zero]
      exact (Nat.mod_eq_of_lt ht).symm
    · intro str h
      simp [HMI_ECU.lcdStrings] at h
  | cons f fs ih =>
    intro rest v hfs hr ht hk
    have hf : f % 256 ≠ 0x54 := hfs f (List.mem_cons_self _ _)
    have hfs2 : ∀ g ∈ fs, g % 256 ≠ 0x54 := fun g hg => hfs g (List.mem_cons_of_mem _ hg)
    simp only [List.length_cons] at hk
    have hrow : (v.rowIndex + 1) % 256 = v.rowIndex + 1 := by omega
    simp only [List.cons_append, HMI_ECU.main_DETECT_FAULTS_loop, HMI_ECU.END_BYTE]
    rw [if_neg hf, hrow]
    by_cases h4 : v.rowIndex + 1 ≥ 4
    · rw [if_pos h4]
      cases hkeys : v.keys with
      | nil =>
        rw [hkeys] at hk
        simp only [List.length_nil] at hk
        omega
      | cons key keys =>
        rw [hkeys] at hk
        simp only [List.length_cons] at hk
        simp only []
        obtain ⟨v1, evs, e1, e2, e3, e4, e6, e7⟩ := ih rest
          { rx := fs ++ 0x54 :: rest, keys := keys,
            trace := v.trace ++ [HMI_ECU.Event.tx (HMI_ECU.ACK % 256)] ++
              HMI_ECU.main_DETECT_FAULTS_line (f % 256) v.rowIndex ++
              [HMI_ECU.Event.lcdMoveCursor 3 0, HMI_ECU.Event.lcdString "Press any key..."] ++
              [HMI_ECU.Event.keypadGetPressedKey key, HMI_ECU.Event.lcdClearScreen],
            faultCode := f % 256, rowIndex := 0,
            totalFaults := (v.totalFaults + 1) % 256 }
          hfs2 (by simp only []; omega) (by simp only []; omega) (by simp only []; omega)
        simp only [] at e1 e2 e3 e4 e6
        refine ⟨v1, [HMI_ECU.Event.tx (HMI_ECU.ACK % 256)] ++
            HMI_ECU.main_DETECT_FAULTS_line (f % 256) v.rowIndex ++
            [HMI_ECU.Event.lcdMoveCursor 3 0, HMI_ECU.Event.lcdString "Press any key..."] ++
            [HMI_ECU.Event.keypadGetPressedKey key, HMI_ECU.Event.lcdClearScreen] ++ evs,
          e1, ?_, ?_, ?_, e6, ?_⟩
        · rw [e2]
          simp only [List.append_assoc]
        · simp only [hmi_txBytes_append, main_DETECT_FAULTS_line_txBytes, e3]
          simp [HMI_ECU.txBytes, HMI_ECU.ACK, List.replicate_succ]
        · rw [e4]
          simp only [List.length_cons]
          omega
        · intro str h
          simp only [lcdStrings_append, List.mem_append] at h
          rcases h with (((h | h) | h) | h) | h
          · simp [HMI_ECU.lcdStrings] at h
          · exact main_DETECT_FAULTS_line_strings _ _ str h
          · simp only [HMI_ECU.lcdStrings, List.mem_singleton] at h
            subst h
            decide
          · simp [HMI_ECU.lcdStrings] at h
          · exact e7 str h
    · rw [if_neg h4]
      obtain ⟨v1, evs, e1, e2, e3, e4, e6, e7⟩ := ih rest
        { rx := fs ++ 0x54 :: rest, keys := v.keys,
          trace := v.trace ++ [HMI_ECU.Event.tx (HMI_ECU.ACK % 256)] ++
            HMI_ECU.main_DETECT_FAULTS_line (f % 256) v.rowIndex,
          faultCode := f % 256, rowIndex := v.rowIndex + 1,
          totalFaults := (v.totalFaults + 1) % 256 }
        hfs2 (by simp only []; omega) (by simp only []; omega) (by simp only []; omega)
      simp only [] at e1 e2 e3 e4 e6
      refine ⟨v1, [HMI_ECU.Event.tx (HMI_ECU.ACK % 256)] ++
          HMI_ECU.main_DETECT_FAULTS_line (f % 256) v.rowIndex ++ evs,
        e1, ?_, ?_, ?_, e6, ?_⟩
      · rw [e2]
        simp only [List.append_assoc]
      · simp only [hmi_txBytes_append, main_DETECT_FAULTS_line_txBytes, e3]
        simp [HMI_ECU.txBytes, HMI_ECU.ACK, List.replicate_succ]
      · rw [e4]
        simp only [List.length_cons]
        omega
      · intro str h
        simp only [lcdStrings_append, List.mem_append] at h
        rcases h with (h | h) | h
        · simp [HMI_ECU.lcdStrings] at h
        · exact main_DETECT_FAULTS_line_strings _ _ str h
        · exact e7 str h

theorem main_DETECT_FAULTS_summary (keys : List Nat) (s : HMI_ECU.State) (fs rest : List Nat)
    (hfs : ∀ f ∈ fs, f % 256 ≠ 0x54) (hk : fs.length / 4 ≤ keys.length)
    (hrx : s.rx = fs ++ 0x54 :: rest) :
    (HMI_ECU.main_DETECT_FAULTS keys s).isDone = true ∧
    (HMI_ECU.main_DETECT_FAULTS keys s).state.rx = rest ∧
    HMI_ECU.txBytes ((HMI_ECU.main_DETECT_FAULTS keys s).state.trace.drop s.trace.length) =
      List.replicate (fs.length + 1) 0x05 ∧
    ("No Faults" ∈ HMI_ECU.lcdStrings
        ((HMI_ECU.main_DETECT_FAULTS keys s).state.trace.drop s.trace.length) ↔
      fs.length % 256 = 0) ∧
    ("--- End List ---" ∈ HMI_ECU.lcdStrings
        ((HMI_ECU.main_DETECT_FAULTS keys s).state.trace.drop s.trace.length) ↔
      fs.length % 256 ≠ 0) := by
  obtain ⟨v1, evs, e1, e2, e3, e4, e6, e7⟩ := main_DETECT_FAULTS_loop_stream fs rest
    { rx := fs ++ 0x54 :: rest, keys := keys,
      trace := s.trace ++ [HMI_ECU.Event.lcdClearScreen,
        HMI_ECU.Event.lcdString "Reading Faults..", HMI_ECU.Event.lcdClearScreen],
      faultCode := 0, rowIndex := 0, totalFaults := 0 }
    hfs (by simp only []; omega) (by simp only []; omega) (by simpa using hk)
  simp only [Nat.zero_add] at e2 e4
  have hno : "No Faults" ∉ HMI_ECU.lcdStrings evs := fun h => (e7 _ h).1 rfl
  have hend : "--- End List ---" ∉ HMI_ECU.lcdStrings evs := fun h => (e7 _ h).2 rfl
  have hrun : HMI_ECU.main_DETECT_FAULTS keys s =
      Run.done { v1 with
        trace := (v1.trace ++ [HMI_ECU.Event.lcdClearScreen,
            HMI_ECU.Event.lcdString
              (if fs.length % 256 = 0 then "No Faults" else "--- End List ---")]) ++
          [HMI_ECU.Event.lcdMoveCursor 3 0, HMI_ECU.Event.lcdString "Press * for menu"] } := by
    unfold HMI_ECU.main_DETECT_FAULTS
    simp only []
    rw [hrx, e1]
    simp only [Run.bind]
    by_cases h0 : fs.length % 256 = 0
    · rw [if_pos h0]
      simp only [if_pos (show v1.totalFaults = 0 by rw [e4]; exact h0)]
    · rw [if_neg h0]
      simp only [if_neg (show ¬ v1.totalFaults = 0 by rw [e4]; exact h0)]
  rw [hrun]
  simp only [Run.isDone, Run.state, e2, List.append_assoc, List.drop_left]
  refine ⟨trivial, e6, ?_, ?_, ?_⟩
  · simp only [hmi_txBytes_append, e3]
    simp [HMI_ECU.txBytes]
  · simp only [lcdStrings_append, List.mem_append]
    constructor
    · intro h
      rcases h with h | h | h | h
      · simp [HMI_ECU.lcdStrings] at h
      · exact absurd h hno
      · by_contra h0
        rw [if_neg h0] at h
        simp [HMI_ECU.lcdStrings] at h
      · simp [HMI_ECU.lcdStrings] at h
    · intro h0
      right; right; left
      rw [if_pos h0]
      simp [HMI_ECU.lcdStrings]
  · simp only [lcdStrings_append, List.mem_append]
    constructor
    · intro h
      rcases h with h | h | h | h
      · simp [HMI_ECU.lcdStrings] at h
      · exact absurd h hend
      · intro h0
        rw [if_pos h0] at h
        simp [HMI_ECU.lcdStrings] at h
      · simp [HMI_ECU.lcdStrings] at h
    · intro h0
      right; right; left
      rw [if_neg h0]
      simp [HMI_ECU.lcdStrings]

/-- C30, the code at a failing input: the HMI node receives 256 fault bytes
0x01 and then the end byte 0x54, and the operator presses a key at each of the
64 full screens. The case returns and every byte is acknowledged with 0x05,
but `totalFaults`, a `uint8`, has wrapped to 0: the summary shown is
"No Faults" and the end-of-list message is not shown. The same happens with
the 2048 fault bytes of a full log. With no fault byte the summary is
"No Faults", and with one fault byte it is the end-of-list message. -/
theorem C30_no_faults_after_256_fault_bytes :
    ((HMI_ECU.main_DETECT_FAULTS (List.replicate 64 0x2A)
        { rx := List.replicate 256 0x01 ++ [0x54], trace := [] }).isDone = true ∧
      HMI_ECU.txBytes (HMI_ECU.main_DETECT_FAULTS (List.replicate 64 0x2A)
        { rx := List.replicate 256 0x01 ++ [0x54], trace := [] }).state.trace =
        List.replicate 257 0x05 ∧
      "No Faults" ∈ HMI_ECU.lcdStrings (HMI_ECU.main_DETECT_FAULTS (List.replicate 64 0x2A)
        { rx := List.replicate 256 0x01 ++ [0x54], trace := [] }).state.trace ∧
      "--- End List ---" ∉ HMI_ECU.lcdStrings
        (HMI_ECU.main_DETECT_FAULTS (List.replicate 64 0x2A)
          { rx := List.replicate 256 0x01 ++ [0x54], trace := [] }).state.trace) ∧
    ((HMI_ECU.main_DETECT_FAULTS (List.replicate 512 0x2A)
        { rx := List.replicate 2048 0x01 ++ [0x54], trace := [] }).isDone = true ∧
      "No Faults" ∈ HMI_ECU.lcdStrings (HMI_ECU.main_DETECT_FAULTS (List.replicate 512 0x2A)
        { rx := List.replicate 2048 0x01 ++ [0x54], trace := [] }).state.trace) ∧
    ("No Faults" ∈ HMI_ECU.lcdStrings (HMI_ECU.main_DETECT_FAULTS []
        { rx := [0x54], trace := [] }).state.trace ∧
      "--- End List ---" ∈ HMI_ECU.lcdStrings (HMI_ECU.main_DETECT_FAULTS []
        { rx := [0x01, 0x54], trace := [] }).state.trace ∧
      "No Faults" ∉ HMI_ECU.lcdStrings (HMI_ECU.main_DETECT_FAULTS []
        { rx := [0x01, 0x54], trace := [] }).state.trace) := by
  have hrep : ∀ n : Nat, ∀ f ∈ List.replicate n 0x01, f % 256 ≠ 0x54 := by
    intro n f hf
    rw [List.eq_of_mem_replicate hf]
    decide
  obtain ⟨a1, _, a3, a4, a5⟩ := main_DETECT_FAULTS_summary (List.replicate 64 0x2A)
    { rx := List.replicate 256 0x01 ++ [0x54], trace := [] } (List.replicate 256 0x01) []
    (hrep 256) (by rw [List.length_replicate, List.length_replicate]) rfl
  obtain ⟨b1, _, _, b4, _⟩ := main_DETECT_FAULTS_summary (List.replicate 512 0x2A)
    { rx := List.replicate 2048 0x01 ++ [0x54], trace := [] } (List.replicate 2048 0x01) []
    (hrep 2048) (by rw [List.length_replicate, List.length_replicate]) rfl
  simp only [List.length_replicate, List.length_nil, List.drop_zero] at a3 a4 a5 b4
  refine ⟨⟨a1, a3, a4.mpr (by decide), fun h => (a5.mp h) (by decide)⟩,
    ⟨b1, b4.mpr (by decide)⟩, by decide, by decide, by decide⟩

/-- Witness of C21: after StartMonitoring and a tick with both thresholds
breached, slot 0 holds what it held at reset or a fault code. -/
theorem C21_only_fault_codes_written_witness :
    (main_loop [LoopInputs.nominal 5 95] (State.init (fun _ => 0xFF) [1])).state.eeprom 0
        = 0xFF ∨
      (main_loop [LoopInputs.nominal 5 95] (State.init (fun _ => 0xFF) [1])).state.eeprom 0
        = 0x01 ∨
      (main_loop [LoopInputs.nominal 5 95] (State.init (fun _ => 0xFF) [1])).state.eeprom 0
        = 0x02 :=
  (C21_only_fault_codes_written [LoopInputs.nominal 5 95]
    (State.init (fun _ => 0xFF) [1])).2 0

/-! ## Filling the log from the reset state -/

theorem detectFaults_both_hit (s : State) (dist temp : Nat)
    (hd : dist < 10) (ht : 90 < temp) (ht2 : temp < 256)
    (hdl : s.g_distanceLogged = 0) (htl : s.g_temperatureLogged = 0)
    (hw : s.EEPROM_addressWrite ≤ 0x07FE) :
    (detectFaults dist temp true true s).trace =
      s.trace ++ [Event.eepromWrite s.EEPROM_addressWrite 0x01 true,
                  Event.eepromWrite (s.EEPROM_addressWrite + 1) 0x02 true] ∧
    (detectFaults dist temp true true s).eeprom =
      Function.update (Function.update s.eeprom s.EEPROM_addressWrite 0x01)
        (s.EEPROM_addressWrite + 1) 0x02 ∧
    (detectFaults dist temp true true s).EEPROM_addressWrite = s.EEPROM_addressWrite + 2 ∧
    (detectFaults dist temp true true s).rx = s.rx := by
  have e1 : detectFaults_mid dist temp true s =
      { s with g_distanceValue := dist % 65536, g_tempValue := temp % 256,
               eeprom := Function.update s.eeprom s.EEPROM_addressWrite 0x01,
               trace := s.trace ++ [Event.eepromWrite s.EEPROM_addressWrite 0x01 true],
               EEPROM_addressWrite := s.EEPROM_addressWrite + 1,
               g_distanceLogged := 1 } := by
    unfold detectFaults_mid
    rw [detectFaults_distance_hit true (detectFaults_sample dist temp s)
      (by simp only [detectFaults_sample]; omega) hdl (by simp only [detectFaults_sample]; omega)]
    simp [detectFaults_sample]
  rw [detectFaults_eq_mid]
  rw [detectFaults_overheat_hit true (detectFaults_mid dist temp true s)
    (by rw [e1]; simp only []; omega) (by rw [e1]; exact htl)
    (by rw [e1]; simp only []; omega)]
  rw [e1]
  simp

theorem main_command_detect_run (b temp : Nat) (rdOk : Nat → Bool) (s : State)
    (hb : b % 256 = DETECT_FAULTS) (hw : s.EEPROM_addressWrite < 65535)
    (hack : (storedFaults s.eeprom rdOk (s.EEPROM_addressWrite + 1) 0).length + 1 ≤
      ackCount s.rx) :
    ∃ u, main_command b temp rdOk s = Run.done u ∧
      ackCount u.rx = ackCount s.rx -
        ((storedFaults s.eeprom rdOk (s.EEPROM_addressWrite + 1) 0).length + 1) := by
  have hm : main_command b temp rdOk s =
      (CONTROL_sendFaults rdOk (UART_sendByte ACK s)).bind fun s =>
        Run.done { s with g_distanceLogged := 0, g_temperatureLogged := 0 } := by
    simp [main_command, main_switch, hb, START_MONITORING, DISPLAY_VALUES, DETECT_FAULTS]
  obtain ⟨s1, _, d1, _, _, _, d5⟩ := CONTROL_sendFaults_done rdOk (UART_sendByte ACK s) hw hack
  rw [hm, d1]
  exact ⟨_, rfl, d5⟩

theorem fillSession_step (j : Nat) (s : State) (hj : j ≤ 1022) (h : FilledTo j s) :
    FilledTo (j + 1) (fillSession s) := by
  obtain ⟨hw, hdl, htl, hgood, hack⟩ := h
  obtain ⟨_, te, tw, trx⟩ := detectFaults_both_hit s 3 120 (by decide) (by decide) (by decide)
    hdl htl (by omega)
  have hl := storedFaults_length_le (detectFaults 3 120 true true s).eeprom (fun _ => true)
    ((detectFaults 3 120 true true s).EEPROM_addressWrite + 1) 0
  have hrx : ackCount (detectFaults 3 120 true true s).rx = ackCount s.rx := by rw [trx]
  obtain ⟨u, hu, hua⟩ := main_command_detect_run DETECT_FAULTS 20 (fun _ => true)
    (detectFaults 3 120 true true s) (by decide) (by omega) (by omega)
  have hc := main_command_detect_done DETECT_FAULTS 20 (fun _ => true)
    (detectFaults 3 120 true true s) u (by decide) hu
  have hcw := congrArg LogCore.EEPROM_addressWrite hc
  have hcd := congrArg LogCore.g_distanceLogged hc
  have hct := congrArg LogCore.g_temperatureLogged hc
  have hce := congrArg LogCore.eeprom hc
  simp only [State.logCore] at hcw hcd hct hce
  rw [tw, if_neg (by omega)] at hcw
  unfold fillSession
  rw [hu]
  simp only [Run.state]
  refine ⟨by rw [hcw]; omega, hcd, hct, ?_, ?_⟩
  · intro a ha
    rw [hce, te, hw]
    by_cases h1 : a = 2 * j + 1
    · subst h1
      simp
    · by_cases h0 : a = 2 * j
      · subst h0
        simp [Function.update]
      · have := hgood a (by omega)
        simp only [Function.update, h1, h0, dite_false, eq_rec_constant]
        simpa using this
  · rw [hua]
    omega

theorem fillSessions_filled (n : Nat) :
    ∀ (j : Nat) (s : State), j + n ≤ 1023 → FilledTo j s → FilledTo (j + n) (fillSessions n s) := by
  induction n with
  | zero => intro j s _ h; exact h
  | succ n ih =>
    intro j s hj h
    have h1 := fillSession_step j s (by omega) h
    have h2 := ih (j + 1) (fillSession s) (by omega) h1
    rw [show j + (n + 1) = j + 1 + n by omega]
    exact h2

theorem fillSessions_reset_filled :
    FilledTo 1023 (fillSessions 1023 (State.init (fun _ => 0xFF) (List.replicate 2099200 0x05)))
    := by
  have h0 : FilledTo 0 (State.init (fun _ => 0xFF) (List.replicate 2099200 0x05)) := by
    refine ⟨rfl, rfl, rfl, fun a ha => by omega, ?_⟩
    show (1024 - 0) * 2050 ≤ ackCount (List.replicate 2099200 0x05)
    rw [ackCount_replicate]
  exact fillSessions_filled 1023 0 _ (by omega) h0

theorem filled_log_readout (s : State) (h : FilledTo 1023 s) :
    (detectFaults 3 120 true true s).trace =
      s.trace ++ [Event.eepromWrite 0x07FE 0x01 true, Event.eepromWrite 0x07FF 0x02 true] ∧
    (detectFaults 3 120 true true s).EEPROM_addressWrite = 0x0800 ∧
    (CONTROL_sendFaults (fun _ => true) (detectFaults 3 120 true true s)).isDone = true ∧
    readAddrs ((CONTROL_sendFaults (fun _ => true)
      (detectFaults 3 120 true true s)).state.trace.drop
        (detectFaults 3 120 true true s).trace.length) = List.range' 0 2049 := by
  obtain ⟨hw, hdl, htl, hgood, hack⟩ := h
  obtain ⟨tt, te, tw, trx⟩ := detectFaults_both_hit s 3 120 (by decide) (by decide) (by decide)
    hdl htl (by omega)
  rw [hw] at tt te tw
  have hrx : ackCount (detectFaults 3 120 true true s).rx = ackCount s.rx :=
    congrArg ackCount trx
  have hcur : (detectFaults 3 120 true true s).EEPROM_addressWrite = 0x0800 := tw
  obtain ⟨hd, hr⟩ := CONTROL_sendFaults_reads_cursor_slot (fun _ => true)
    (detectFaults 3 120 true true s)
    (by rw [hcur]; decide)
    (by
      intro a ha
      rw [hcur] at ha
      rw [te]
      by_cases h1 : a = 2 * 1023 + 1
      · subst h1
        simp
      · by_cases h0 : a = 2 * 1023
        · subst h0
          simp [Function.update]
        · have := hgood a (by omega)
          simp only [Function.update, h1, h0, dite_false, eq_rec_constant]
          simpa using this)
    (by rw [hcur, hrx]; omega)
  rw [hcur] at hr
  exact ⟨tt, hcur, hd, hr⟩

/-- C28, the code at a failing input reached from reset: on an erased store,
1023 logging sessions (a tick with both thresholds breached, then a
DetectFaults command) leave the write cursor at 0x07FE; one more such tick
appends at the addresses 0x07FE and 0x07FF, both within the store, and moves
the cursor to 0x0800. The read-out that follows, every byte acknowledged,
returns after reading the addresses 0 to 0x0800 in order, the last one above
EEPROM_MAX_ADDRESS. -/
theorem C28_readout_reads_past_top_address :
    fullLogState.trace =
      (fillSessions 1023 (State.init (fun _ => 0xFF) (List.replicate 2099200 0x05))).trace ++
        [Event.eepromWrite 0x07FE 0x01 true, Event.eepromWrite 0x07FF 0x02 true] ∧
    fullLogState.EEPROM_addressWrite = 0x0800 ∧
    (CONTROL_sendFaults (fun _ => true) fullLogState).isDone = true ∧
    readAddrs ((CONTROL_sendFaults (fun _ => true) fullLogState).state.trace.drop
      fullLogState.trace.length) = List.range' 0 2049 ∧
    0x0800 ∈ List.range' 0 2049 ∧ ¬ (0x0800 ≤ EEPROM_MAX_ADDRESS) := by
  obtain ⟨h1, h2, h3, h4⟩ := filled_log_readout _ fillSessions_reset_filled
  refine ⟨h1, h2, h3, h4, ?_, by decide⟩
  rw [List.mem_range'_1]
  omega

end VFDLS
